import Mathlib

/-!
# The Hazelcast command-line client: migration, Viridian API, codecs

A shallow embedding of `base/commands/migration/migration_stages.go`,
`base/commands/migration/migration_status.go`,
`base/commands/migration/migration_start.go`, `errors/utils.go`,
`internal/viridian/api.go`, `base/commands/generate/project.go` and the two
codecs of `internal/proto/codec`.

Go functions become Lean functions over an explicit world: the remote cluster
is an oracle answering SQL queries, the Viridian server an oracle answering
HTTP requests, every effect of the program (status reporter calls, log lines,
file writes, sleeps, requests) is appended to a trace, and a function that
loops or calls itself takes a fuel argument bounding the number of iterations
or the depth of the calls.
-/

namespace Clc

/-! ## Go errors -/

/-- Package-level error values, which Go compares by identity. -/
inductive Sentinel
  | DeadlineExceeded            -- context.DeadlineExceeded
  | Canceled                    -- context.Canceled
  | ErrTimeout                  -- hzerrors.ErrTimeout
  | ErrUserCancelled            -- clcerrors.ErrUserCancelled
  | ErrInterrupt                -- readline.ErrInterrupt
  | migrationStatusNotFoundErr  -- migration_stages.go:29
  | noDataStructuresFoundErr    -- migration_stages.go:33
  deriving DecidableEq, Repr

/-- Go error values. `fresh` is an error made on the spot (`errors.New`,
`fmt.Errorf` without `%w`, or an error of a library), which is equal to no
package-level value; `wrap` is `fmt.Errorf` with a `%w` operand; `ignorable`
is the wrapper put on by `stage.IgnoreError`; `http` is the error that
`NewHTTPClientError` makes of a status code and a response body, the one kind
of error that implements the interface `HTTPError`. -/
inductive GoError
  | sentinel (s : Sentinel)
  | fresh (msg : String)
  | wrap (msg : String) (inner : GoError)
  | ignorable (inner : GoError)
  | http (code : Int) (text : String)
  deriving DecidableEq, Repr

/-- A Go `error` interface value: `none` is `nil`. -/
abbrev Err := Option GoError

namespace Sentinel

/-- The text of a package-level error. The values other than the two of
`migration_stages.go` are declared outside the sources, and their texts are
taken as given. -/
def Error : Sentinel → String
  | DeadlineExceeded => "context deadline exceeded"
  | Canceled => "context canceled"
  | ErrTimeout => "timeout error"
  | ErrUserCancelled => "cancelled"
  | ErrInterrupt => "Interrupt"
  | migrationStatusNotFoundErr => "migration status not found"
  | noDataStructuresFoundErr => "no datastructures found to migrate"

end Sentinel

namespace GoError

/-- The method `Error()`. The type behind `NewHTTPClientError` is declared
outside the sources; its text is taken to be the code and the body. -/
def Error : GoError → String
  | sentinel s => s.Error
  | fresh msg => msg
  | wrap msg _ => msg
  | ignorable inner => inner.Error
  | http code text => toString code ++ ": " ++ text

/-- The method `Unwrap()`, `none` where the error wraps nothing. -/
def Unwrap : GoError → Option GoError
  | sentinel _ => none
  | fresh _ => none
  | wrap _ inner => some inner
  | ignorable inner => some inner
  | http _ _ => none

/-- The chain walk of `errors.Is` for a non-nil error and a package-level target. -/
def Is : GoError → Sentinel → Bool
  | sentinel s, t => decide (s = t)
  | fresh _, _ => false
  | wrap _ inner, t => inner.Is t
  | ignorable inner, t => inner.Is t
  | http _ _, _ => false

/-- Whether the error is, or wraps, an error made by `stage.IgnoreError`. -/
def isIgnorable : GoError → Bool
  | sentinel _ => false
  | fresh _ => false
  | wrap _ inner => inner.isIgnorable
  | ignorable _ => true
  | http _ _ => false

/-- The call `errors.As(err, &httpErr)` on a non-nil error: the text `Text()`
of the first error of the chain that implements `HTTPError`, if there is one. -/
def asHTTP : GoError → Option String
  | sentinel _ => none
  | fresh _ => none
  | wrap _ inner => inner.asHTTP
  | ignorable inner => inner.asHTTP
  | http _ text => some text

end GoError

/-- The function `errors.Is(err, target)` for a package-level target: false on a nil error. -/
def errorsIs (err : Err) (target : Sentinel) : Bool :=
  match err with
  | none => false
  | some e => e.Is target

/-- The function `errors.New(msg)`. -/
def errorsNew (msg : String) : GoError := GoError.fresh msg

/-- The call `fmt.Errorf(head + "%w", err)`: the text is `head` followed by the
text of `err`, and the result wraps `err`. With a nil operand the verb is
rendered as `%!w(<nil>)` and the result wraps nothing. -/
def Errorf_w (head : String) (err : Err) : GoError :=
  match err with
  | some e => GoError.wrap (head ++ e.Error) e
  | none => GoError.fresh (head ++ "%!w(<nil>)")

/-- Modelled from the spec: `stage.IgnoreError` of the package `clc/ux/stage`,
which is not among the sources; it wraps an error so that the executor records
the failure of the stage and goes on with the next stage. -/
def IgnoreError (e : GoError) : GoError := GoError.ignorable e

/-- The function `IsUserCancelled` of `errors/utils.go`. -/
def IsUserCancelled (err : Err) : Bool :=
  errorsIs err Sentinel.Canceled || errorsIs err Sentinel.ErrUserCancelled
    || errorsIs err Sentinel.ErrInterrupt

/-- The function `IsTimeout` of `errors/utils.go`. -/
def IsTimeout (err : Err) : Bool :=
  errorsIs err Sentinel.DeadlineExceeded || errorsIs err Sentinel.ErrTimeout

/-! ## Go strings -/

/-- The function `strings.TrimPrefix` on character lists. -/
def trimPrefixChars (s pre : List Char) : List Char :=
  match pre.isPrefixOf s with
  | true => s.drop pre.length
  | false => s

/-- The function `strings.TrimPrefix`. -/
def TrimPrefix (s pre : String) : String := String.mk (trimPrefixChars s.data pre.data)

/-- The function `strings.TrimSuffix`. -/
def TrimSuffix (s suf : String) : String :=
  String.mk (trimPrefixChars s.data.reverse suf.data.reverse).reverse

/-- The function `strings.Join`. -/
def stringsJoin (elems : List String) (sep : String) : String := sep.intercalate elems

/-! ## JSON documents (`encoding/json`)

The decoder below covers what `json.Unmarshal` does on the target types of this
program. The texts of its errors are abbreviated, and the library's limit on
nesting depth is not modelled. -/

/-- A parsed JSON value; a number keeps its literal. -/
inductive JVal
  | null
  | bool (b : Bool)
  | num (lit : String)
  | str (s : String)
  | arr (xs : List JVal)
  | obj (kvs : List (String × JVal))

/-- The double quote character. -/
def dquote : Char := Char.ofNat 34

/-- The backslash character. -/
def backslash : Char := Char.ofNat 92

/-- The opening brace character. -/
def lbrace : Char := Char.ofNat 123

/-- The closing brace character. -/
def rbrace : Char := Char.ofNat 125

/-- JSON white space. -/
def isWs (c : Char) : Bool := c == ' ' || c == '\t' || c == '\n' || c == '\r'

/-- Drops leading white space. -/
def skipWs : List Char → List Char
  | [] => []
  | c :: cs => if isWs c then skipWs cs else c :: cs

/-- The value of a hexadecimal digit. -/
def hexDigit (c : Char) : Option Nat :=
  if '0' ≤ c ∧ c ≤ '9' then some (c.toNat - 48)
  else if 'a' ≤ c ∧ c ≤ 'f' then some (c.toNat - 87)
  else if 'A' ≤ c ∧ c ≤ 'F' then some (c.toNat - 55)
  else none

/-- Reads four hexadecimal digits. -/
def getu4 : List Char → Option (Nat × List Char)
  | a :: b :: c :: d :: rest =>
    match hexDigit a, hexDigit b, hexDigit c, hexDigit d with
    | some x, some y, some z, some w => some (((x * 16 + y) * 16 + z) * 16 + w, rest)
    | _, _, _, _ => none
  | _ => none

/-- The character a one-letter escape stands for. -/
def unescape (c : Char) : Option Char :=
  if c = dquote then some dquote
  else if c = backslash then some backslash
  else if c = '/' then some '/'
  else if c = 'b' then some (Char.ofNat 8)
  else if c = 'f' then some (Char.ofNat 12)
  else if c = 'n' then some '\n'
  else if c = 'r' then some '\r'
  else if c = 't' then some '\t'
  else none

/-- Reads a string literal after its opening quote, up to and including the
closing quote. A lone surrogate escape becomes U+FFFD, as in Go. -/
def parseStringBody : Nat → List Char → List Char → Option (String × List Char)
  | 0, _, _ => none
  | _ + 1, [], _ => none
  | n + 1, c :: rest, acc =>
    if c = dquote then some (String.mk acc.reverse, rest)
    else if c = backslash then
      match rest with
      | [] => none
      | e :: rest2 =>
        if e = 'u' then
          match getu4 rest2 with
          | none => none
          | some (r, rest3) =>
            if 0xD800 ≤ r ∧ r < 0xE000 then
              match rest3 with
              | b2 :: u2 :: rest4 =>
                match decide (b2 = backslash ∧ u2 = 'u'), getu4 rest4 with
                | true, some (r2, rest5) =>
                  if r < 0xDC00 ∧ 0xDC00 ≤ r2 ∧ r2 < 0xE000 then
                    parseStringBody n rest5
                      (Char.ofNat (0x10000 + (r - 0xD800) * 1024 + (r2 - 0xDC00)) :: acc)
                  else parseStringBody n rest3 (Char.ofNat 0xFFFD :: acc)
                | _, _ => parseStringBody n rest3 (Char.ofNat 0xFFFD :: acc)
              | _ => parseStringBody n rest3 (Char.ofNat 0xFFFD :: acc)
            else parseStringBody n rest3 (Char.ofNat r :: acc)
        else
          match unescape e with
          | none => none
          | some u => parseStringBody n rest2 (u :: acc)
    else if c.toNat < 0x20 then none
    else parseStringBody n rest (c :: acc)

/-- Splits off the leading decimal digits. -/
def spanDigits : List Char → List Char × List Char
  | [] => ([], [])
  | c :: cs => if c.isDigit then (c :: (spanDigits cs).1, (spanDigits cs).2) else ([], c :: cs)

/-- Reads an optional fraction: a dot followed by at least one digit. -/
def parseFraction (cs : List Char) : Option (List Char × List Char) :=
  match cs with
  | '.' :: r =>
    match spanDigits r with
    | ([], _) => none
    | (fp, r2) => some ('.' :: fp, r2)
  | r => some ([], r)

/-- Reads an optional exponent: `e` or `E`, an optional sign, at least one digit. -/
def parseExponent (cs : List Char) : Option (List Char × List Char) :=
  match cs with
  | [] => some ([], [])
  | e :: r =>
    if e = 'e' ∨ e = 'E' then
      let sr : List Char × List Char :=
        match r with
        | '+' :: t => (['+'], t)
        | '-' :: t => (['-'], t)
        | t => ([], t)
      match spanDigits sr.2 with
      | ([], _) => none
      | (ep, r4) => some (e :: sr.1 ++ ep, r4)
    else some ([], e :: r)

/-- Reads a JSON number, `-? (0 | [1-9][0-9]*) (. [0-9]+)? ([eE] [+-]? [0-9]+)?`,
and gives its literal. -/
def parseNumber (cs : List Char) : Option (String × List Char) :=
  let sr : List Char × List Char :=
    match cs with
    | '-' :: r => (['-'], r)
    | r => ([], r)
  match spanDigits sr.2 with
  | ([], _) => none
  | (ip, r1) =>
    if ip.head? = some '0' ∧ ip.length ≠ 1 then none
    else
      match parseFraction r1 with
      | none => none
      | some (fp, r2) =>
        match parseExponent r2 with
        | none => none
        | some (ep, r3) => some (String.mk (sr.1 ++ ip ++ fp ++ ep), r3)

mutual
/-- Reads one JSON value. -/
def parseValue : Nat → List Char → Option (JVal × List Char)
  | 0, _ => none
  | n + 1, cs =>
    match skipWs cs with
    | [] => none
    | c :: rest =>
      if c = dquote then
        match parseStringBody (rest.length + 1) rest [] with
        | some (s, r) => some (JVal.str s, r)
        | none => none
      else if c = '[' then
        match skipWs rest with
        | ']' :: r => some (JVal.arr [], r)
        | _ => parseElems n rest []
      else if c = lbrace then
        match skipWs rest with
        | [] => none
        | c2 :: r => if c2 = rbrace then some (JVal.obj [], r) else parseMembers n rest []
      else if c = 't' then
        match rest with
        | 'r' :: 'u' :: 'e' :: r => some (JVal.bool true, r)
        | _ => none
      else if c = 'f' then
        match rest with
        | 'a' :: 'l' :: 's' :: 'e' :: r => some (JVal.bool false, r)
        | _ => none
      else if c = 'n' then
        match rest with
        | 'u' :: 'l' :: 'l' :: r => some (JVal.null, r)
        | _ => none
      else
        match parseNumber (c :: rest) with
        | some (lit, r) => some (JVal.num lit, r)
        | none => none
/-- Reads the elements of an array after its opening bracket. -/
def parseElems : Nat → List Char → List JVal → Option (JVal × List Char)
  | 0, _, _ => none
  | n + 1, cs, acc =>
    match parseValue n cs with
    | none => none
    | some (v, r) =>
      match skipWs r with
      | ',' :: r2 => parseElems n r2 (v :: acc)
      | ']' :: r2 => some (JVal.arr (v :: acc).reverse, r2)
      | _ => none
/-- Reads the members of an object after its opening brace. -/
def parseMembers : Nat → List Char → List (String × JVal) → Option (JVal × List Char)
  | 0, _, _ => none
  | n + 1, cs, acc =>
    match skipWs cs with
    | [] => none
    | q :: r =>
      if q = dquote then
        match parseStringBody (r.length + 1) r [] with
        | none => none
        | some (k, r1) =>
          match skipWs r1 with
          | ':' :: r2 =>
            match parseValue n r2 with
            | none => none
            | some (v, r3) =>
              match skipWs r3 with
              | [] => none
              | c3 :: r4 =>
                if c3 = ',' then parseMembers n r4 ((k, v) :: acc)
                else if c3 = rbrace then some (JVal.obj ((k, v) :: acc).reverse, r4)
                else none
          | _ => none
      else none
end

/-- Parses a whole document: one value with white space around it. -/
def parseJSON (data : String) : Option JVal :=
  match parseValue (2 * data.length + 2) data.data with
  | some (v, r) =>
    match skipWs r with
    | [] => some v
    | _ :: _ => none
  | none => none

/-! ## Numbers (`strconv`)

`ParseFloat32` reads what `strconv.ParseFloat(s, 32)` reads: decimal and
hexadecimal literals with digit separators, infinities and NaN. The number
read is rounded to the nearest `float32`, to even on a tie. The texts of the
errors are abbreviated. -/

/-- A `float32` value. A finite number is held as the decimal `mant * 10 ^ exp`
that equals it, an integer with `exp` 0 and any other number with the least
number of digits behind the point; the values apart are the negative zero,
the two infinities and NaN. -/
inductive Decimal
  | mk (mant : Int) (exp : Int)
  | negZero
  | inf (neg : Bool)
  | nan
  deriving DecidableEq, Repr

/-- The number a list of decimal digits stands for. -/
def digitsToNat (ds : List Char) : Nat :=
  ds.foldl (fun n c => n * 10 + (c.toNat - 48)) 0

/-- Splits off an optional sign; the flag tells a minus sign. -/
def splitSign (cs : List Char) : Bool × List Char :=
  match cs with
  | '+' :: r => (false, r)
  | '-' :: r => (true, r)
  | r => (false, r)

/-- The error `strconv.ErrSyntax` as reported by a parse function. -/
def strconvSyntaxError (fn : String) : GoError :=
  GoError.fresh ("strconv." ++ fn ++ ": invalid syntax")

/-- The error `strconv.ErrRange` as reported by a parse function. -/
def strconvRangeError (fn : String) : GoError :=
  GoError.fresh ("strconv." ++ fn ++ ": value out of range")

/-- The call `strconv.ParseInt(s, 10, 64)`. -/
def ParseInt64 (s : String) : Except GoError Int :=
  match splitSign s.data with
  | (neg, ds) =>
    if ds = [] ∨ ds.all Char.isDigit = false then Except.error (strconvSyntaxError "ParseInt")
    else if neg then
      (if 2 ^ 63 < digitsToNat ds then Except.error (strconvRangeError "ParseInt")
       else Except.ok (-(digitsToNat ds : Int)))
    else
      (if 2 ^ 63 ≤ digitsToNat ds then Except.error (strconvRangeError "ParseInt")
       else Except.ok (digitsToNat ds : Int))

/-- The number a floating-point literal stands for, `num / den` with its sign,
before any rounding. -/
structure FloatLiteral where
  neg : Bool
  num : Nat
  den : Nat
  deriving DecidableEq, Repr

/-- A letter in lower case, as `commonPrefixLenIgnoreCase` folds it. -/
def lowerLetter (c : Char) : Char :=
  if 'A'.toNat ≤ c.toNat ∧ c.toNat ≤ 'Z'.toNat then Char.ofNat (c.toNat + 32) else c

/-- The function `commonPrefixLenIgnoreCase` of `strconv`. -/
def commonPrefixLenIgnoreCase : List Char → List Char → Nat
  | c :: s, p :: pre => if lowerLetter c = p then commonPrefixLenIgnoreCase s pre + 1 else 0
  | _, _ => 0

/-- The number of characters of `infinity` a text starts with, where anything
between `inf` and `infinity` counts as `inf`; 0 if it is no infinity. -/
def infinityLen (s : List Char) : Nat :=
  if commonPrefixLenIgnoreCase s "infinity".data = 8 then 8
  else if 3 ≤ commonPrefixLenIgnoreCase s "infinity".data then 3
  else 0

/-- The function `special` of `strconv`: an infinity, with a sign or without,
or NaN at the start of the text, and the number of characters it takes. -/
def special (s : List Char) : Option (Decimal × Nat) :=
  match s with
  | [] => none
  | c :: rest =>
    if c = '+' ∨ c = '-' then
      (if infinityLen rest = 0 then none
        else some (Decimal.inf (decide (c = '-')), infinityLen rest + 1))
    else if c = 'i' ∨ c = 'I' then
      (if infinityLen s = 0 then none else some (Decimal.inf false, infinityLen s))
    else if c = 'n' ∨ c = 'N' then
      (if commonPrefixLenIgnoreCase s "nan".data = 3 then some (Decimal.nan, 3) else none)
    else none

/-- The value of a digit of a mantissa; the letters count in a hexadecimal
literal only. -/
def floatDigit (hex : Bool) (c : Char) : Option Nat :=
  if c.isDigit then some (c.toNat - 48)
  else if hex then hexDigit c
  else none

/-- What the loop of `readFloat` over the mantissa has read: the digits as a
number, the count of digits behind the point, whether a point and whether a
digit was seen, and the text that is left. -/
structure MantissaScan where
  mant : Nat
  frac : Nat
  sawdot : Bool
  sawdigits : Bool
  rest : List Char

/-- The loop of `readFloat` over the mantissa: digits, digit separators and
one point; it ends at a second point or at any other character. -/
def scanMantissa (hex : Bool) : List Char → Nat → Nat → Bool → Bool → MantissaScan
  | [], m, f, sawdot, sawdigits => MantissaScan.mk m f sawdot sawdigits []
  | c :: cs, m, f, sawdot, sawdigits =>
    if c = '_' then scanMantissa hex cs m f sawdot sawdigits
    else if c = '.' then
      (if sawdot then MantissaScan.mk m f sawdot sawdigits (c :: cs)
        else scanMantissa hex cs m f true sawdigits)
    else
      match floatDigit hex c with
      | some v =>
        scanMantissa hex cs (m * (if hex then 16 else 10) + v) (if sawdot then f + 1 else f)
          sawdot true
      | none => MantissaScan.mk m f sawdot sawdigits (c :: cs)

/-- The loop of `readFloat` over the digits of the exponent, which here must
reach the end of the text; the exponent stops growing at 10000. -/
def scanExponent : List Char → Nat → Option Nat
  | [], e => some e
  | c :: cs, e =>
    if c = '_' then scanExponent cs e
    else if c.isDigit then scanExponent cs (if e < 10000 then e * 10 + (c.toNat - 48) else e)
    else none

/-- The loop of `underscoreOK`; `saw` is the last character seen: `^` for the
beginning, `0` for a digit or a base prefix, `_` for an underscore, `!` for
anything else. -/
def underscoreScan (hex : Bool) : List Char → Char → Bool
  | [], saw => saw != '_'
  | c :: cs, saw =>
    if c.isDigit || (hex && (('a' ≤ c && c ≤ 'f') || ('A' ≤ c && c ≤ 'F'))) then
      underscoreScan hex cs '0'
    else if c = '_' then (if saw != '0' then false else underscoreScan hex cs '_')
    else if saw = '_' then false
    else underscoreScan hex cs '!'

/-- The function `underscoreOK` of `strconv`: an underscore stands between
digits, or between a base prefix and a digit. -/
def underscoreOK (s : List Char) : Bool :=
  let t : List Char :=
    match s with
    | c :: r => if c = '-' ∨ c = '+' then r else s
    | [] => s
  match t with
  | z :: b :: r =>
    if z = '0' ∧ (b = 'b' ∨ b = 'B' ∨ b = 'o' ∨ b = 'O' ∨ b = 'x' ∨ b = 'X') then
      underscoreScan (decide (b = 'x' ∨ b = 'X')) r '0'
    else underscoreScan false t '^'
  | _ => underscoreScan false t '^'

/-- The number `mant * base ^ e`, for a signed `e`, as a quotient. -/
def scaleLiteral (neg : Bool) (mant base : Nat) (e : Int) : FloatLiteral :=
  if 0 ≤ e then FloatLiteral.mk neg (mant * base ^ e.toNat) 1
  else FloatLiteral.mk neg mant (base ^ (-e).toNat)

/-- The exponent part of a literal behind the mantissa `m`: nothing, which a
hexadecimal literal does not allow, or the exponent character, a sign and
digits up to the end of the text. -/
def readExponent (neg hex : Bool) (m : MantissaScan) : Option FloatLiteral :=
  match m.rest with
  | [] =>
    if hex then none else some (scaleLiteral neg m.mant 10 (-(m.frac : Int)))
  | c :: r =>
    if (hex = false ∧ (c = 'e' ∨ c = 'E')) ∨ (hex = true ∧ (c = 'p' ∨ c = 'P')) then
      match splitSign r with
      | (eneg, ds) =>
        match ds with
        | [] => none
        | d :: _ =>
          if d.isDigit then
            match scanExponent ds 0 with
            | none => none
            | some e =>
              let es : Int := if eneg then -(e : Int) else (e : Int)
              if hex then some (scaleLiteral neg m.mant 2 (es - 4 * (m.frac : Int)))
              else some (scaleLiteral neg m.mant 10 (es - (m.frac : Int)))
          else none
    else none

/-- The function `readFloat` of `strconv`, for a literal that takes the whole
text: a sign, the prefix `0x` of a hexadecimal literal, the mantissa with at
least one digit, and the exponent; underscores must pass `underscoreOK`. -/
def readFloat (s : List Char) : Option FloatLiteral :=
  match splitSign s with
  | (neg, r0) =>
    let hex : Bool :=
      match r0 with
      | z :: x :: _ :: _ => decide (z = '0' ∧ (x = 'x' ∨ x = 'X'))
      | _ => false
    let m : MantissaScan := scanMantissa hex (if hex then r0.drop 2 else r0) 0 0 false false
    if m.sawdigits = false then none
    else if s.contains '_' = true ∧ underscoreOK s = false then none
    else readExponent neg hex m

/-- The quotient `n / d` rounded to the nearest integer, to the even one on a tie. -/
def roundHalfEven (n d : Nat) : Nat :=
  if 2 * (n % d) < d then n / d
  else if d < 2 * (n % d) then n / d + 1
  else if (n / d) % 2 = 0 then n / d
  else n / d + 1

/-- The quotient `num / den` divided by `2 ^ e`, as a quotient. -/
def scaleByPow2 (num den : Nat) (e : Int) : Nat × Nat :=
  if 0 ≤ e then (num, den * 2 ^ e.toNat) else (num * 2 ^ (-e).toNat, den)

/-- The number of binary digits of `n`, added to `acc`; the fuel bounds the
number of halvings. -/
def bitLength : Nat → Nat → Nat → Nat
  | 0, _, acc => acc
  | fuel + 1, n, acc => if n = 0 then acc else bitLength fuel (n / 2) (acc + 1)

/-- The binary exponent of the `float32` below a positive `num / den`: the
`e`, not below -149, for which `num / den / 2 ^ e` has 24 bits, or fewer at
-149. -/
def float32Exponent (num den : Nat) : Int :=
  let k : Int := (bitLength num num 0 : Int) - (bitLength den den 0 : Int) - 23
  let e0 : Int := if k < -149 then -149 else k
  if (scaleByPow2 num den e0).1 / (scaleByPow2 num den e0).2 < 2 ^ 23 ∧ -149 < e0 then e0 - 1
  else e0

/-- The `float32` nearest to `num / den`, as `m * 2 ^ e` with `m` below
`2 ^ 24`; `none` when the number rounds beyond the largest `float32`. -/
def round32 (num den : Nat) : Option (Nat × Int) :=
  if num = 0 then some (0, 0)
  else
    let e : Int := float32Exponent num den
    let m : Nat := roundHalfEven (scaleByPow2 num den e).1 (scaleByPow2 num den e).2
    if m = 2 ^ 24 then (if 104 < e + 1 then none else some (2 ^ 23, e + 1))
    else if 104 < e then none
    else some (m, e)

/-- Drops zeros from the end of the digits `m` of which `k` stand behind the point. -/
def stripZeros : Nat → Nat → Nat → Nat × Nat
  | 0, m, k => (m, k)
  | fuel + 1, m, k =>
    if k = 0 then (m, 0)
    else if m % 10 = 0 then stripZeros fuel (m / 10) (k - 1)
    else (m, k)

/-- The `float32` value `m * 2 ^ e` with its sign. -/
def float32Value (neg : Bool) (m : Nat) (e : Int) : Decimal :=
  if m = 0 then (if neg then Decimal.negZero else Decimal.mk 0 0)
  else if 0 ≤ e then
    Decimal.mk (if neg then -((m * 2 ^ e.toNat : Nat) : Int) else ((m * 2 ^ e.toNat : Nat) : Int)) 0
  else
    match stripZeros (-e).toNat (m * 5 ^ (-e).toNat) (-e).toNat with
    | (digits, k) => Decimal.mk (if neg then -(digits : Int) else (digits : Int)) (-(k : Int))

/-- The call `strconv.ParseFloat(s, 32)`, whose result is a `float32` held in a
`float64`. A number beyond the largest `float32` is a range error. -/
def ParseFloat32 (s : String) : Except GoError Decimal :=
  match special s.data with
  | some (v, n) =>
    if n = s.data.length then Except.ok v else Except.error (strconvSyntaxError "ParseFloat")
  | none =>
    match readFloat s.data with
    | none => Except.error (strconvSyntaxError "ParseFloat")
    | some lit =>
      match round32 lit.num lit.den with
      | none => Except.error (strconvRangeError "ParseFloat")
      | some (m, e) => Except.ok (float32Value lit.neg m e)

/-- Wraps an integer into the range of `int64`. -/
def wrapInt64 (x : Int) : Int := (x + 2 ^ 63) % 2 ^ 64 - 2 ^ 63

/-- The constant `time.Millisecond`, in nanoseconds. -/
def Millisecond : Int := 1000000

/-- The constant `time.Second`, in nanoseconds. -/
def Second : Int := 1000000000

/-! ## Decoding into the Go types of the program -/

/-- The type `Status`, a string. -/
abbrev Status := String

/-- Modelled from the spec: the constant `StatusStarted`, declared in a file
that is not among the sources. -/
def StatusStarted : Status := "STARTED"

/-- Modelled from the spec: the constant `StatusInProgress`, declared in a file
that is not among the sources. -/
def StatusInProgress : Status := "IN_PROGRESS"

/-- Modelled from the spec: the constant `StatusComplete`, declared in a file
that is not among the sources. -/
def StatusComplete : Status := "COMPLETE"

/-- Modelled from the spec: the constant `StatusFailed`, declared in a file
that is not among the sources. -/
def StatusFailed : Status := "FAILED"

/-- Modelled from the spec: the constant `StatusCanceling`, declared in a file
that is not among the sources. -/
def StatusCanceling : Status := "CANCELING"

/-- Modelled from the spec: the constant `StatusCanceled`, declared in a file
that is not among the sources. -/
def StatusCanceled : Status := "CANCELED"

/-- The struct `DataStructureMigrationStatus`; `Typ` is its field `Type`. -/
structure DataStructureMigrationStatus where
  Name : String
  Typ : String
  Status : Status
  CompletionPercentage : Decimal
  Error : String
  deriving DecidableEq, Repr

/-- The struct `OverallMigrationStatus`. -/
structure OverallMigrationStatus where
  Status : Status
  Logs : List String
  Errors : List String
  Report : String
  CompletionPercentage : Decimal
  RemainingTime : Decimal
  Migrations : List DataStructureMigrationStatus
  deriving DecidableEq, Repr

/-- The struct `DataStructureInfo`; `Typ` is its field `Type`. -/
structure DataStructureInfo where
  Name : String
  Typ : String
  deriving DecidableEq, Repr

/-- The zero value of a `float32`. -/
def Decimal.zero : Decimal := Decimal.mk 0 0

/-- The zero value of `DataStructureMigrationStatus`. -/
def DataStructureMigrationStatus.zero : DataStructureMigrationStatus :=
  DataStructureMigrationStatus.mk "" "" "" Decimal.zero ""

/-- The zero value of `OverallMigrationStatus`. -/
def OverallMigrationStatus.zero : OverallMigrationStatus :=
  OverallMigrationStatus.mk "" [] [] "" Decimal.zero Decimal.zero []

/-- The error `json.SyntaxError`. -/
def jsonSyntaxError : GoError := GoError.fresh "json: invalid syntax"

/-- The error `json.UnmarshalTypeError`. -/
def jsonTypeError (value goType : String) : GoError :=
  GoError.fresh ("json: cannot unmarshal " ++ value ++ " into Go value of type " ++ goType)

/-- How `json.UnmarshalTypeError` names the kind of a value. -/
def JVal.kindName : JVal → String
  | JVal.null => "null"
  | JVal.bool _ => "bool"
  | JVal.num lit => "number " ++ lit
  | JVal.str _ => "string"
  | JVal.arr _ => "array"
  | JVal.obj _ => "object"

/-- The decoder keeps the first error it meets and goes on. -/
def firstErr (a b : Err) : Err :=
  match a with
  | some e => some e
  | none => b

/-- Decodes into a `string`: `null` leaves the target as it is. -/
def decodeString (v : JVal) (cur : String) : String × Err :=
  match v with
  | JVal.null => (cur, none)
  | JVal.str s => (s, none)
  | other => (cur, some (jsonTypeError other.kindName "string"))

/-- Decodes into a `float32`: `null` leaves the target as it is. -/
def decodeFloat32 (v : JVal) (cur : Decimal) : Decimal × Err :=
  match v with
  | JVal.null => (cur, none)
  | JVal.num lit =>
    match ParseFloat32 lit with
    | Except.ok d => (d, none)
    | Except.error _ => (cur, some (jsonTypeError ("number " ++ lit) "float32"))
  | other => (cur, some (jsonTypeError other.kindName "float32"))

/-- Decodes the elements of an array into a `[]string`; an element is decoded
over the element the slice held at that index, if any. -/
def decodeStringElems : List JVal → List String → List String × Err
  | [], _ => ([], none)
  | v :: vs, cur =>
    ((decodeString v (cur.headD "")).1 :: (decodeStringElems vs cur.tail).1,
      firstErr (decodeString v (cur.headD "")).2 (decodeStringElems vs cur.tail).2)

/-- Decodes into a `[]string`: `null` sets the slice to nil. -/
def decodeStringSlice (v : JVal) (cur : List String) : List String × Err :=
  match v with
  | JVal.null => ([], none)
  | JVal.arr xs => decodeStringElems xs cur
  | other => (cur, some (jsonTypeError other.kindName "[]string"))

/-- Folds a key for the case-insensitive match of field names. -/
def foldKey (s : String) : String :=
  String.mk (s.data.map fun c =>
    if c = Char.ofNat 0x17F then 's' else if c = Char.ofNat 0x212A then 'k' else c.toLower)

/-- Finds the field a key of an object goes to: the field of that very name,
or else the first field whose name matches without regard to case. -/
def matchField (fields : List String) (key : String) : Option String :=
  match fields.find? (fun f => f == key) with
  | some f => some f
  | none => fields.find? (fun f => foldKey f == foldKey key)

/-- The JSON names of the fields of `DataStructureMigrationStatus`. -/
def itemFieldNames : List String := ["name", "type", "status", "completionPercentage", "error"]

/-- Decodes one member of an object into `DataStructureMigrationStatus`. -/
def decodeItemField (k : String) (v : JVal) (m : DataStructureMigrationStatus) :
    DataStructureMigrationStatus × Err :=
  match matchField itemFieldNames k with
  | some f =>
    if f = "name" then ({ m with Name := (decodeString v m.Name).1 }, (decodeString v m.Name).2)
    else if f = "type" then ({ m with Typ := (decodeString v m.Typ).1 }, (decodeString v m.Typ).2)
    else if f = "status" then
      ({ m with Status := (decodeString v m.Status).1 }, (decodeString v m.Status).2)
    else if f = "completionPercentage" then
      ({ m with CompletionPercentage := (decodeFloat32 v m.CompletionPercentage).1 },
        (decodeFloat32 v m.CompletionPercentage).2)
    else ({ m with Error := (decodeString v m.Error).1 }, (decodeString v m.Error).2)
  | none => (m, none)

/-- Decodes the members of an object into `DataStructureMigrationStatus`, in order. -/
def decodeItemFields : List (String × JVal) → DataStructureMigrationStatus →
    DataStructureMigrationStatus × Err
  | [], m => (m, none)
  | kv :: rest, m =>
    ((decodeItemFields rest (decodeItemField kv.1 kv.2 m).1).1,
      firstErr (decodeItemField kv.1 kv.2 m).2 (decodeItemFields rest (decodeItemField kv.1 kv.2 m).1).2)

/-- Decodes into a `DataStructureMigrationStatus`. -/
def decodeItem (v : JVal) (cur : DataStructureMigrationStatus) :
    DataStructureMigrationStatus × Err :=
  match v with
  | JVal.null => (cur, none)
  | JVal.obj kvs => decodeItemFields kvs cur
  | other => (cur, some (jsonTypeError other.kindName "migration.DataStructureMigrationStatus"))

/-- Decodes the elements of an array into a `[]DataStructureMigrationStatus`. -/
def decodeItemElems : List JVal → List DataStructureMigrationStatus →
    List DataStructureMigrationStatus × Err
  | [], _ => ([], none)
  | v :: vs, cur =>
    ((decodeItem v (cur.headD DataStructureMigrationStatus.zero)).1 :: (decodeItemElems vs cur.tail).1,
      firstErr (decodeItem v (cur.headD DataStructureMigrationStatus.zero)).2
        (decodeItemElems vs cur.tail).2)

/-- Decodes into a `[]DataStructureMigrationStatus`: `null` sets the slice to nil. -/
def decodeItemSlice (v : JVal) (cur : List DataStructureMigrationStatus) :
    List DataStructureMigrationStatus × Err :=
  match v with
  | JVal.null => ([], none)
  | JVal.arr xs => decodeItemElems xs cur
  | other =>
    (cur, some (jsonTypeError other.kindName "[]migration.DataStructureMigrationStatus"))

/-- The JSON names of the fields of `OverallMigrationStatus`. -/
def overallFieldNames : List String :=
  ["status", "logs", "errors", "report", "completionPercentage", "remainingTime", "migrations"]

/-- Decodes one member of an object into `OverallMigrationStatus`. -/
def decodeOverallField (k : String) (v : JVal) (m : OverallMigrationStatus) :
    OverallMigrationStatus × Err :=
  match matchField overallFieldNames k with
  | some f =>
    if f = "status" then
      ({ m with Status := (decodeString v m.Status).1 }, (decodeString v m.Status).2)
    else if f = "logs" then
      ({ m with Logs := (decodeStringSlice v m.Logs).1 }, (decodeStringSlice v m.Logs).2)
    else if f = "errors" then
      ({ m with Errors := (decodeStringSlice v m.Errors).1 }, (decodeStringSlice v m.Errors).2)
    else if f = "report" then
      ({ m with Report := (decodeString v m.Report).1 }, (decodeString v m.Report).2)
    else if f = "completionPercentage" then
      ({ m with CompletionPercentage := (decodeFloat32 v m.CompletionPercentage).1 },
        (decodeFloat32 v m.CompletionPercentage).2)
    else if f = "remainingTime" then
      ({ m with RemainingTime := (decodeFloat32 v m.RemainingTime).1 },
        (decodeFloat32 v m.RemainingTime).2)
    else
      ({ m with Migrations := (decodeItemSlice v m.Migrations).1 },
        (decodeItemSlice v m.Migrations).2)
  | none => (m, none)

/-- Decodes the members of an object into `OverallMigrationStatus`, in order. -/
def decodeOverallFields : List (String × JVal) → OverallMigrationStatus →
    OverallMigrationStatus × Err
  | [], m => (m, none)
  | kv :: rest, m =>
    ((decodeOverallFields rest (decodeOverallField kv.1 kv.2 m).1).1,
      firstErr (decodeOverallField kv.1 kv.2 m).2
        (decodeOverallFields rest (decodeOverallField kv.1 kv.2 m).1).2)

/-- Decodes into an `OverallMigrationStatus`. -/
def decodeOverall (v : JVal) (cur : OverallMigrationStatus) : OverallMigrationStatus × Err :=
  match v with
  | JVal.null => (cur, none)
  | JVal.obj kvs => decodeOverallFields kvs cur
  | other => (cur, some (jsonTypeError other.kindName "migration.OverallMigrationStatus"))

/-- The call `json.Unmarshal(data, &t)` for a `string` target holding `t`: the
new value of the target and the error. Malformed input leaves the target as it is. -/
def UnmarshalString (data : String) (t : String) : String × Err :=
  match parseJSON data with
  | none => (t, some jsonSyntaxError)
  | some v => decodeString v t

/-- The call `json.Unmarshal(data, &errs)` for a `[]string` target. -/
def UnmarshalStringSlice (data : String) (cur : List String) : List String × Err :=
  match parseJSON data with
  | none => (cur, some jsonSyntaxError)
  | some v => decodeStringSlice v cur

/-- The call `json.Unmarshal(data, &m)` for a `DataStructureMigrationStatus` target. -/
def UnmarshalItem (data : String) (cur : DataStructureMigrationStatus) :
    DataStructureMigrationStatus × Err :=
  match parseJSON data with
  | none => (cur, some jsonSyntaxError)
  | some v => decodeItem v cur

/-- The call `json.Unmarshal(data, &status)` for an `OverallMigrationStatus` target. -/
def UnmarshalOverall (data : String) (cur : OverallMigrationStatus) :
    OverallMigrationStatus × Err :=
  match parseJSON data with
  | none => (cur, some jsonSyntaxError)
  | some v => decodeOverall v cur

/-! ## The world of the program

The remote cluster, the contexts, the file system and the terminal are an
environment `Env` of oracles, asked at a clock that advances with every remote
call and every sleep. What the program does to the outside is recorded, in
order, in the trace of the `World`. -/

/-- A value of type `any`, as far as the program tells values apart. -/
inductive GoAny
  | nil
  | str (s : String)
  | other
  deriving DecidableEq, Repr

/-- A column value of an SQL row, of type `any`: nil for SQL NULL, a
`serialization.JSON` holding the bytes of a document, or a value of another type. -/
inductive SQLValue
  | null
  | json (data : String)
  | other
  deriving DecidableEq, Repr

/-- An `sql.Row`: for every column, what `Get` gives. -/
structure Row where
  cols : List (Except GoError SQLValue)

/-- What the SQL service answers to `Execute` and to the first step of the
iterator over its result. -/
inductive QueryResult
  | execErr (e : GoError)     -- `Execute` failed
  | iterErr (e : GoError)     -- `Iterator` failed
  | empty                     -- `HasNext` is false
  | nextErr (e : GoError)     -- `Next` failed
  | row (r : Option Row)      -- `Next` gave a row (`none`: a nil interface)

/-- A `context.Context`: the one handed to the command, or one derived from it
by `context.WithTimeout` at some clock. -/
inductive Context
  | command
  | withTimeout (parent : Context) (d : Int) (created : Nat)
  deriving DecidableEq, Repr

/-- An `http.Request` as the program builds it: method, URL, the two headers
it sets, and the body. -/
structure HTTPRequest where
  Method : String
  URL : String
  ContentType : Option String
  Authorization : Option String
  Body : Option String
  deriving DecidableEq, Repr

/-- What the program does to the outside. -/
inductive Event
  | query (ctx : Context) (q : String)          -- `SQL().Execute(ctx, q)`
  | clientInternal (ctx : Context)              -- `ec.ClientInternal(ctx)`
  | setText (s : String)                        -- `status.SetText`
  | setProgress (p : Decimal)                   -- `status.SetProgress`
  | setRemainingDuration (d : Int)              -- `status.SetRemainingDuration`, nanoseconds
  | logError (e : GoError)                      -- `ec.Logger().Error`
  | logInfo (s : String)                        -- `ec.Logger().Info`
  | println (s : String)                        -- `ec.PrintlnUnnecessary`
  | sleep (d : Int)                             -- `time.Sleep`, nanoseconds
  | getList (ctx : Context) (name : String)     -- `Client().GetList(ctx, name)`
  | getAll (ctx : Context) (name : String)      -- `l.GetAll(ctx)`
  | writeFile (name : String) (data : String) (perm : Nat)  -- `os.WriteFile`
  | prompt (question : String)                  -- `p.YesNo(question)`
  | httpDo (ctx : Context) (req : HTTPRequest)  -- `http.DefaultClient.Do(req)`
  | createTemp (pattern : String)               -- `os.CreateTemp("", pattern)`
  | ioCopy (name : String) (data : String)      -- `io.Copy(f, body)` into the file `name`
  | mkdirAll (path : String) (perm : Nat)       -- `os.MkdirAll`
  | applyTemplate (sourceDir path target : String)  -- `applyTemplateAndCopyToTarget`
  | copyToTarget (path target : String) (hasExt : Bool)  -- `copyToTarget`
  deriving DecidableEq, Repr

/-- The state threaded through the program. -/
structure World where
  clock : Nat
  trace : List Event
  deriving DecidableEq, Repr

/-- The environment of a run. The constants `StatusMapName`,
`DebugLogsListPrefix` and `banner` are declared in files that are not among the
sources and are taken as given. -/
structure Env where
  StatusMapName : String
  DebugLogsListPrefix : String
  banner : String
  outputDir : String                                    -- `ec.Props().GetString(flagOutputDir)`
  ctxErr : Context → Nat → Err                          -- `ctx.Err()`
  sqlExecute : Context → Nat → String → QueryResult
  clientInternal : Context → Nat → Err                  -- the error of `ec.ClientInternal(ctx)`
  orderedMembers : Nat → List String                    -- the UUIDs of `ci.OrderedMembers()`
  getList : Context → Nat → String → Err                -- the error of `GetList`
  getAll : Context → Nat → String → Except GoError (List GoAny)
  writeFile : Nat → String → String → Err               -- the error of `os.WriteFile`

/-- How a call of a Go function ends: it returns, it panics, or the fuel of
the model ran out while it was still looping. -/
inductive Run (α : Type)
  | ret (a : α)
  | panic (msg : String)
  | pending
  deriving DecidableEq, Repr

/-- A Go computation over the world. -/
def Go (α : Type) : Type := World → Run α × World

namespace Go

/-- Returns a value without touching the world. -/
def pure {α : Type} (a : α) : Go α := fun w => (Run.ret a, w)

/-- Runs `m` and then, if it returned, `f` on its result. -/
def bind {α β : Type} (m : Go α) (f : α → Go β) : Go β := fun w =>
  match m w with
  | (Run.ret a, w1) => f a w1
  | (Run.panic msg, w1) => (Run.panic msg, w1)
  | (Run.pending, w1) => (Run.pending, w1)

instance : Monad Go where
  pure := Go.pure
  bind := Go.bind

/-- A runtime panic. -/
def panic {α : Type} (msg : String) : Go α := fun w => (Run.panic msg, w)

/-- The fuel ran out. -/
def pending {α : Type} : Go α := fun w => (Run.pending, w)

/-- Records an effect. -/
def emit (e : Event) : Go Unit := fun w => (Run.ret (), { w with trace := w.trace ++ [e] })

/-- Lets the clock advance by one. -/
def tick : Go Unit := fun w => (Run.ret (), { w with clock := w.clock + 1 })

/-- Reads the clock. -/
def now : Go Nat := fun w => (Run.ret w.clock, w)

end Go

/-- The call `ci.Client().SQL().Execute(ctx, q)` with the first step of the iterator. -/
def sqlExecute (env : Env) (ctx : Context) (q : String) : Go QueryResult := do
  let c ← Go.now
  Go.emit (Event.query ctx q)
  Go.tick
  pure (env.sqlExecute ctx c q)

/-- The method `Get` of a row; on a nil row the call panics. -/
def rowGet (r : Option Row) (i : Nat) : Go (SQLValue × Err) :=
  match r with
  | none => Go.panic "invalid memory address or nil pointer dereference"
  | some row =>
    match row.cols[i]? with
    | some (Except.ok v) => pure (v, none)
    | some (Except.error e) => pure (SQLValue.null, some e)
    | none => pure (SQLValue.null, some (GoError.fresh "index out of range"))

/-- The type assertion `v.(serialization.JSON)`, which panics unless `v` holds JSON. -/
def assertJSON (v : SQLValue) : Go String :=
  match v with
  | SQLValue.json data => pure data
  | SQLValue.null =>
    Go.panic "interface conversion: interface \x7b\x7d is nil, not serialization.JSON"
  | SQLValue.other => Go.panic "interface conversion: interface \x7b\x7d is not serialization.JSON"

/-- The call `time.Sleep(d)`. -/
def timeSleep (d : Int) : Go Unit := do
  Go.emit (Event.sleep d)
  Go.tick

/-! ## `migration_stages.go` -/

/-- The variable `timeoutErr`. -/
def timeoutErr : GoError :=
  Errorf_w ("migration could not be completed: reached timeout while reading status: "
    ++ "please ensure that you are using Hazelcast's migration cluster distribution and your DMT configuration points to that cluster: ")
    (some (GoError.sentinel Sentinel.DeadlineExceeded))

/-- The variable `migrationStatusNotFoundErr`. -/
def migrationStatusNotFoundErr : GoError := GoError.sentinel Sentinel.migrationStatusNotFoundErr

/-- The variable `noDataStructuresFoundErr`. -/
def noDataStructuresFoundErr : GoError := GoError.sentinel Sentinel.noDataStructuresFoundErr

/-- The variable `ErrUserCancelled` of the package `errors`. -/
def ErrUserCancelled : GoError := GoError.sentinel Sentinel.ErrUserCancelled

/-- The format `progressMsg` applied to a type and a name. -/
def progressMsg (typ name : String) : String := "Migrating " ++ typ ++ ": " ++ name

/-- The function `querySingleRow`. -/
def querySingleRow (env : Env) (ctx : Context) (query : String) : Go (Option Row × Err) := do
  let res ← sqlExecute env ctx query
  match res with
  | QueryResult.execErr e => pure (none, some e)
  | QueryResult.iterErr e => pure (none, some e)
  | QueryResult.nextErr e => pure (none, some e)
  | QueryResult.row r => pure (r, none)
  | QueryResult.empty => pure (none, some (errorsNew "no rows found"))

/-- The query text of `fetchMigrationStatus`. -/
def statusQuery (env : Env) (migrationID : String) : String :=
  "SELECT JSON_QUERY(this, '$.status') FROM " ++ env.StatusMapName ++ " WHERE __key='"
    ++ migrationID ++ "'"

/-- The function `fetchMigrationStatus`. -/
def fetchMigrationStatus (env : Env) (ctx : Context) (migrationID : String) :
    Go (String × Err) := do
  let r ← querySingleRow env ctx (statusQuery env migrationID)
  match r.2 with
  | some _ => pure ("", some migrationStatusNotFoundErr)
  | none =>
    let rr ← rowGet r.1 0
    match rr.2 with
    | some _ => pure ("", some migrationStatusNotFoundErr)
    | none =>
      match rr.1 with
      | SQLValue.null => pure ("", some migrationStatusNotFoundErr)
      | v => do
        let data ← assertJSON v
        pure (TrimSuffix (TrimPrefix data "\"") "\"", none)

/-- The query text of `fetchOverallProgress`. -/
def progressQuery (env : Env) (migrationID : String) : String :=
  "SELECT JSON_QUERY(this, '$.remainingTime'), JSON_QUERY(this, '$.completionPercentage') FROM "
    ++ env.StatusMapName ++ " WHERE __key='" ++ migrationID ++ "'"

/-- The function `fetchOverallProgress`: the remaining time in nanoseconds,
the completion percentage, and the error. -/
def fetchOverallProgress (env : Env) (ctx : Context) (migrationID : String) :
    Go (Int × Decimal × Err) := do
  let r ← querySingleRow env ctx (progressQuery env migrationID)
  match r.2 with
  | some e => pure (0, Decimal.zero, some e)
  | none =>
    match r.1 with
    | none => pure (0, Decimal.zero, some (errorsNew "overall progress not found"))
    | some row =>
      let remainingTime ← rowGet (some row) 0
      match remainingTime.2 with
      | some e => pure (0, Decimal.zero, some e)
      | none =>
        let completionPercentage ← rowGet (some row) 1
        match completionPercentage.2 with
        | some e => pure (0, Decimal.zero, some e)
        | none =>
          if completionPercentage.1 = SQLValue.null then
            pure (0, Decimal.zero, some (errorsNew
              ("completionPercentage is not available in " ++ env.StatusMapName)))
          else if remainingTime.1 = SQLValue.null then
            pure (0, Decimal.zero, some (errorsNew
              ("remainingTime is not available in " ++ env.StatusMapName)))
          else do
            let rtStr ← assertJSON remainingTime.1
            match ParseInt64 rtStr with
            | Except.error e => pure (0, Decimal.zero, some e)
            | Except.ok rt =>
              let cpStr ← assertJSON completionPercentage.1
              match ParseFloat32 cpStr with
              | Except.error e => pure (0, Decimal.zero, some e)
              | Except.ok cp => pure (wrapInt64 (rt * Millisecond), cp, none)

/-- The query text of `fetchMigrationReport`. -/
def reportQuery (env : Env) (migrationID : String) : String :=
  "SELECT JSON_QUERY(this, '$.report') FROM " ++ env.StatusMapName ++ " WHERE __key='"
    ++ migrationID ++ "'"

/-- The function `fetchMigrationReport`. -/
def fetchMigrationReport (env : Env) (ctx : Context) (migrationID : String) :
    Go (String × Err) := do
  let r ← querySingleRow env ctx (reportQuery env migrationID)
  match r.2 with
  | some e => pure ("", some (Errorf_w "migration report cannot be found: " (some e)))
  | none =>
    match r.1 with
    | none => pure ("", some (errorsNew "migration report not found"))
    | some row =>
      let rr ← rowGet (some row) 0
      match rr.2 with
      | some e => pure ("", some (Errorf_w "migration report cannot be found: " (some e)))
      | none => do
        let data ← assertJSON rr.1
        pure ((UnmarshalString data "").1, none)

/-- The query text of `fetchMigrationErrors`. -/
def errorsQuery (env : Env) (migrationID : String) : String :=
  "SELECT JSON_QUERY(this, '$.errors' WITH WRAPPER) FROM " ++ env.StatusMapName
    ++ " WHERE __key='" ++ migrationID ++ "'"

/-- The function `fetchMigrationErrors`. -/
def fetchMigrationErrors (env : Env) (ctx : Context) (migrationID : String) :
    Go (String × Err) := do
  let r ← querySingleRow env ctx (errorsQuery env migrationID)
  match r.2 with
  | some e => pure ("", some e)
  | none =>
    match r.1 with
    | none => pure ("", some (errorsNew "could not fetch migration errors"))
    | some row =>
      let rr ← rowGet (some row) 0
      match rr.2 with
      | some e => pure ("", some e)
      | none => do
        let data ← assertJSON rr.1
        match UnmarshalStringSlice data [] with
        | (_, some e) => pure ("", some e)
        | (errs, none) => pure ("* " ++ stringsJoin errs "\n* ", none)

/-- The function `WaitForMigrationToBeInProgress`; the fuel bounds the number
of iterations of its loop. -/
def WaitForMigrationToBeInProgress (env : Env) (ctx : Context) (migrationID : String) :
    Nat → Go Err
  | 0 => Go.pending
  | fuel + 1 => do
    let st ← fetchMigrationStatus env ctx migrationID
    match st.2 with
    | some e =>
      if errorsIs (some e) Sentinel.migrationStatusNotFoundErr then
        -- migration status will not be available for a while, so we should wait for it
        WaitForMigrationToBeInProgress env ctx migrationID fuel
      else pure (some e)
    | none =>
      if st.1 = StatusFailed then do
        let errs ← fetchMigrationErrors env ctx migrationID
        match errs.2 with
        | some e =>
          pure (some (Errorf_w "migration failed and dmt cannot fetch migration errors: " (some e)))
        | none => pure (some (errorsNew errs.1))
      else if st.1 = StatusInProgress then pure none
      else WaitForMigrationToBeInProgress env ctx migrationID fuel

/-- How one iteration of the loop `statusReaderLoop` ends: the stage function
returns, the loop is left by `break statusReaderLoop` with the value `execErr`
has at that point, or the iteration comes to its end and the loop goes on. -/
inductive Step
  | ret (v : GoAny) (err : Err)
  | brk (execErr : Err)
  | next
  deriving DecidableEq, Repr

/-- The query text for the status object of the item at index `i`. -/
def itemQuery (env : Env) (i : Nat) (migrationID : String) : String :=
  "SELECT JSON_QUERY(this, '$.migrations[" ++ toString i ++ "]') FROM " ++ env.StatusMapName
    ++ " WHERE __key= '" ++ migrationID ++ "'"

/-- Lines 98 to 135 of `createMigrationStages`: the query for the status object
of the item, and the sleep that ends the iteration. -/
def itemCheck (env : Env) (ctx : Context) (migrationID : String) (i : Nat) : Go Step := do
  let res ← sqlExecute env ctx (itemQuery env i migrationID)
  match res with
  | QueryResult.execErr e => pure (Step.brk (some e))
  | QueryResult.iterErr e => pure (Step.brk (some e))
  | QueryResult.nextErr e => pure (Step.brk (some e))
  | QueryResult.empty => do
    timeSleep (1 * Second)
    pure Step.next
  | QueryResult.row row =>
    let rowStr ← rowGet row 0
    match rowStr.2 with
    | some e => pure (Step.brk (some e))
    | none => do
      let data ← assertJSON rowStr.1
      match UnmarshalItem data DataStructureMigrationStatus.zero with
      | (_, some e) => pure (Step.brk (some e))
      | (m, none) =>
        if m.Status = StatusComplete then pure (Step.ret GoAny.nil none)
        else if m.Status = StatusFailed then
          pure (Step.ret GoAny.nil (some (IgnoreError (errorsNew m.Error))))
        else if m.Status = StatusCanceled then pure (Step.brk (some ErrUserCancelled))
        else do
          timeSleep (1 * Second)
          pure Step.next

/-- Lines 58 to 97 of `createMigrationStages`: the check of the context and of
the overall status. `none` means that control reaches line 98, the query for
the status object of the item. The argument `err` is the variable `err` of
`createMigrationStages` that the function literal refers to on lines 59 and 63. -/
def overallCheck (env : Env) (ctx : Context) (migrationID : String)
    (d : DataStructureInfo) (err : Err) : Go (Option Step) := do
  let c ← Go.now
  match env.ctxErr ctx c with
  | some _ =>
    if errorsIs err Sentinel.DeadlineExceeded then pure (some (Step.brk (some timeoutErr)))
    else pure (some (Step.brk (some (Errorf_w "migration failed: " err))))
  | none =>
    let gs ← fetchMigrationStatus env ctx migrationID
    match gs.2 with
    | some e => pure (some (Step.brk (some (Errorf_w "reading migration status: " (some e)))))
    | none =>
      if gs.1 = StatusStarted then pure (some (Step.brk none))
      else if gs.1 = StatusComplete then pure (some (Step.ret GoAny.nil none))
      else if gs.1 = StatusFailed then do
        let errs ← fetchMigrationErrors env ctx migrationID
        match errs.2 with
        | some e => pure (some (Step.brk (some (Errorf_w "fetching migration errors: " (some e)))))
        | none => pure (some (Step.brk (some (errorsNew errs.1))))
      else if gs.1 = StatusCanceled ∨ gs.1 = StatusCanceling then
        pure (some (Step.brk (some ErrUserCancelled)))
      else if gs.1 = StatusInProgress then do
        let p ← fetchOverallProgress env ctx migrationID
        match p.2.2 with
        | some e => do
          Go.emit (Event.logError e)
          Go.emit (Event.setText "Unable to calculate remaining duration and progress")
          pure none
        | none => do
          Go.emit (Event.setText (progressMsg d.Typ d.Name))
          Go.emit (Event.setProgress p.2.1)
          Go.emit (Event.setRemainingDuration p.1)
          pure none
      else pure none

/-- One iteration of the loop `statusReaderLoop` (lines 57 to 136). -/
def pollIteration (env : Env) (ctx : Context) (migrationID : String) (i : Nat)
    (d : DataStructureInfo) (err : Err) : Go Step := do
  let r ← overallCheck env ctx migrationID d err
  match r with
  | some step => pure step
  | none => itemCheck env ctx migrationID i

/-- The stage function built by `createMigrationStages` for the item at index
`i` (lines 54 to 138); the fuel bounds the number of iterations of its loop. -/
def stageFunc (env : Env) (ctx : Context) (migrationID : String) (i : Nat)
    (d : DataStructureInfo) (err : Err) : Nat → Go (GoAny × Err)
  | 0 => Go.pending
  | fuel + 1 => do
    let step ← pollIteration env ctx migrationID i d err
    match step with
    | Step.ret v e => pure (v, e)
    | Step.brk execErr => pure (GoAny.nil, execErr)
    | Step.next => stageFunc env ctx migrationID i d err fuel

/-- The struct `stage.Stage`; the function of a stage takes the fuel for its loop. -/
structure Stage where
  ProgressMsg : String
  SuccessMsg : String
  FailureMsg : String
  Func : Nat → Go (GoAny × Err)

/-- The query text of `getDataStructuresToBeMigrated`. -/
def recordQuery (env : Env) (migrationID : String) : String :=
  "SELECT this FROM " ++ env.StatusMapName ++ " WHERE __key= '" ++ migrationID ++ "'"

/-- The call `ec.ClientInternal(ctx)`, of which the error matters. -/
def clientInternal (env : Env) (ctx : Context) : Go Err := do
  let c ← Go.now
  Go.emit (Event.clientInternal ctx)
  Go.tick
  pure (env.clientInternal ctx c)

/-- The function `getDataStructuresToBeMigrated`. -/
def getDataStructuresToBeMigrated (env : Env) (ctx : Context) (migrationID : String) :
    Go (List DataStructureInfo × Err) := do
  let err ← clientInternal env ctx
  match err with
  | some e => pure ([], some e)
  | none =>
    let r ← querySingleRow env ctx (recordQuery env migrationID)
    match r.2 with
    | some e => pure ([], some e)
    | none =>
      let rr ← rowGet r.1 0
      match rr.2 with
      | some e => pure ([], some e)
      | none =>
        match rr.1 with
        | SQLValue.null => pure ([], some noDataStructuresFoundErr)
        | v => do
          let data ← assertJSON v
          match UnmarshalOverall data OverallMigrationStatus.zero with
          | (_, some e) => pure ([], some e)
          | (status, none) =>
            if status.Migrations.length = 0 then pure ([], some noDataStructuresFoundErr)
            else pure (status.Migrations.map (fun m => DataStructureInfo.mk m.Name m.Typ), none)

/-- The stage appended for the item `d` at index `i` (lines 50 to 139). -/
def mkStage (env : Env) (ctx : Context) (migrationID : String) (err : Err)
    (i : Nat) (d : DataStructureInfo) : Stage :=
  { ProgressMsg := progressMsg d.Typ d.Name
    SuccessMsg := "Migrated " ++ d.Typ ++ ": " ++ d.Name
    FailureMsg := "Failed migrating " ++ d.Typ ++ ": " ++ d.Name
    Func := stageFunc env ctx migrationID i d err }

/-- The function `createMigrationStages`; the fuel bounds the wait for the
migration to be in progress. -/
def createMigrationStages (env : Env) (fuel : Nat) (ctx : Context) (migrationID : String) :
    Go (List Stage × Err) := do
  let c ← Go.now
  let werr ← WaitForMigrationToBeInProgress env (Context.withTimeout ctx (30 * Second) c)
    migrationID fuel
  match werr with
  | some e => pure ([], some (Errorf_w "waiting migration to be created: " (some e)))
  | none =>
    let r ← getDataStructuresToBeMigrated env ctx migrationID
    match r.2 with
    | some e => pure ([], some e)
    | none => pure (r.1.enum.map (fun id => mkStage env ctx migrationID r.2 id.1 id.2), none)

/-- The loop body of `saveMemberLogs` over the lines of one member. -/
def logMemberLines (migrationID uuid : String) : List GoAny → Go Unit
  | [] => pure ()
  | line :: rest =>
    match line with
    | GoAny.str l => do
      Go.emit (Event.logInfo ("[" ++ migrationID ++ "_" ++ uuid ++ "] " ++ l))
      logMemberLines migrationID uuid rest
    | _ => Go.panic "interface conversion: interface \x7b\x7d is not string"

/-- The loop of `saveMemberLogs` over the members. -/
def saveMemberLogsOf (env : Env) (ctx : Context) (migrationID : String) : List String → Go Err
  | [] => pure none
  | uuid :: rest => do
    let c ← Go.now
    Go.emit (Event.getList ctx (env.DebugLogsListPrefix ++ uuid))
    Go.tick
    match env.getList ctx c (env.DebugLogsListPrefix ++ uuid) with
    | some e => pure (some e)
    | none =>
      let c2 ← Go.now
      Go.emit (Event.getAll ctx (env.DebugLogsListPrefix ++ uuid))
      Go.tick
      match env.getAll ctx c2 (env.DebugLogsListPrefix ++ uuid) with
      | Except.error e => pure (some e)
      | Except.ok logs => do
        logMemberLines migrationID uuid logs
        saveMemberLogsOf env ctx migrationID rest

/-- The function `saveMemberLogs`. -/
def saveMemberLogs (env : Env) (ctx : Context) (migrationID : String) : Go Err := do
  let c ← Go.now
  saveMemberLogsOf env ctx migrationID (env.orderedMembers c)

/-- The call `os.WriteFile(name, data, perm)`. -/
def osWriteFile (env : Env) (name data : String) (perm : Nat) : Go Err := do
  let c ← Go.now
  Go.emit (Event.writeFile name data perm)
  Go.tick
  pure (env.writeFile c name data)

/-- The function `saveReportToFile`. -/
def saveReportToFile (env : Env) (ctx : Context) (migrationID fileName : String) : Go Err := do
  let r ← fetchMigrationReport env ctx migrationID
  match r.2 with
  | some e => pure (some e)
  | none =>
    if r.1 = "" then pure none
    else osWriteFile env fileName r.1 0o600

/-- Splits a path at its slashes. -/
def splitSlash : List Char → List (List Char)
  | [] => [[]]
  | c :: cs =>
    if c = '/' then [] :: splitSlash cs
    else
      match splitSlash cs with
      | [] => [[c]]
      | h :: t => (c :: h) :: t

/-- One element of a path met by `Clean`; the stack holds the elements kept so
far, the last one first. -/
def cleanStep (rooted : Bool) (stack : List (List Char)) (comp : List Char) :
    List (List Char) :=
  if comp = [] ∨ comp = ['.'] then stack
  else if comp = ['.', '.'] then
    match stack with
    | top :: rest => if top = ['.', '.'] then comp :: stack else rest
    | [] => if rooted then [] else [comp]
  else comp :: stack

/-- The function `filepath.Clean` for slash-separated paths. -/
def filepathClean (path : String) : String :=
  if path = "" then "."
  else
    let rooted : Bool := path.data.head? == some '/'
    let body : String :=
      "/".intercalate (((splitSlash path.data).foldl (cleanStep rooted) []).reverse.map String.mk)
    if rooted then "/" ++ body else if body = "" then "." else body

/-- The function `filepath.Join` for slash-separated paths. -/
def filepathJoin : List String → String
  | [] => ""
  | e :: rest => if e = "" then filepathJoin rest else filepathClean (stringsJoin (e :: rest) "/")

/-- The function `finalizeMigration`. -/
def finalizeMigration (env : Env) (ctx : Context) (migrationID reportOutputDir : String) :
    Go Err := do
  let err ← saveMemberLogs env ctx migrationID
  match err with
  | some e => pure (some e)
  | none =>
    let err2 ← saveReportToFile env ctx migrationID
      (filepathJoin [reportOutputDir, "migration_report_" ++ migrationID ++ ".txt"])
    match err2 with
    | some e => pure (some (Errorf_w "saving report to file: " (some e)))
    | none => pure none

/-! ## `migration_status.go` -/

/-- The parts of the package `clc/ux/stage` and of the status stages that
`StatusCmd.Exec` calls and that are not among the sources, taken as given:
`ExecuteStatusStages ctx` is `stage.Execute` over the stages of
`NewStatusStages`, and `Execute ctx stages` is `stage.Execute` over a fixed
provider of `stages`. -/
structure StagePkg where
  ExecuteStatusStages : Context → Go (GoAny × Err)
  Execute : Context → List Stage → Go (GoAny × Err)

/-- The type assertion `v.(string)`. -/
def assertString (v : GoAny) : Go String :=
  match v with
  | GoAny.str s => pure s
  | _ => Go.panic "interface conversion: interface \x7b\x7d is not string"

/-- The method `StatusCmd.Exec`; the fuel bounds the wait for the migration to
be in progress. -/
def StatusCmd.Exec (env : Env) (pkg : StagePkg) (fuel : Nat) (ctx : Context) : Go Err := do
  let cierr ← clientInternal env ctx
  match cierr with
  | some e => pure (some e)
  | none =>
    Go.emit (Event.println "")
    Go.emit (Event.println env.banner)
    let mID ← pkg.ExecuteStatusStages ctx
    match mID.2 with
    | some e => pure (some e)
    | none =>
      let id ← assertString mID.1
      let mStages ← createMigrationStages env fuel ctx id
      match mStages.2 with
      | some e => pure (some e)
      | none =>
        let res ← pkg.Execute ctx mStages.1
        let id2 ← assertString mID.1
        let err2 ← finalizeMigration env ctx id2 env.outputDir
        match err2 with
        | some e2 => pure (some (Errorf_w "finalizing migration: " (some e2)))
        | none =>
          match res.2 with
          | some e => pure (some e)
          | none => do
            Go.emit (Event.println "")
            Go.emit (Event.println "OK")
            pure none



/-! ## `maybePrintWarnings` -/

/-- The query text of `maybePrintWarnings`. -/
def warningsQuery (env : Env) (migrationID : String) : String :=
  "SELECT JSON_QUERY(this, '$.warnings' WITH WRAPPER) FROM " ++ env.StatusMapName
    ++ " WHERE __key='" ++ migrationID ++ "'"

/-- The line that `maybePrintWarnings` prints for a list of more than five warnings. -/
def warningsSummary (n : Nat) : String :=
  "You have " ++ toString n ++ " warnings that you can find in your migration report."

/-- The function `maybePrintWarnings`. -/
def maybePrintWarnings (env : Env) (ctx : Context) (migrationID : String) : Go Unit := do
  let r ← querySingleRow env ctx (warningsQuery env migrationID)
  match r.2 with
  | some e => Go.emit (Event.logError e)
  | none =>
    match r.1 with
    | none => Go.emit (Event.logInfo "could not find any warnings")
    | some row =>
      let rr ← rowGet (some row) 0
      match rr.2 with
      | some e => Go.emit (Event.logError e)
      | none =>
        match rr.1 with
        | SQLValue.null => pure ()
        | v => do
          let data ← assertJSON v
          match UnmarshalStringSlice data [] with
          | (_, some e) => Go.emit (Event.logError e)
          | (warnings, none) =>
            if warnings.length ≤ 5 then
              Go.emit (Event.println ("* " ++ stringsJoin warnings "\n* "))
            else Go.emit (Event.println (warningsSummary warnings.length))

/-! ## `migration_start.go` -/

/-- What `StartCmd.Exec` asks of its execution context. -/
structure StartEnv where
  autoYes : Bool                        -- `ec.Props().GetBool(clc.FlagAutoYes)`
  yesNo : Nat → String → Bool × Err     -- what `p.YesNo(question)` returns at a clock
  args : List String                    -- `ec.Args()`

/-- The functions that `StartCmd.Exec` calls and that are not among the
sources, taken as given: `makeMigrationID`, then `Build ctx id config` for
`NewStages(id, config).Build(ctx, ec)`, and `Execute ctx stages` for
`stage.Execute` over a fixed provider of `stages`. -/
structure StartPkg where
  makeMigrationID : Go String
  Build : Context → String → String → Go (List Stage)
  Execute : Context → List Stage → Go Err

/-- The text printed by `StartCmd.Exec` on lines 32 to 36. -/
def startBanner : String :=
  "Hazelcast Data Migration Tool v5.3.0\n(c) 2023 Hazelcast, Inc.\n\t\nSelected data structures in the source cluster will be migrated to the target cluster.\t\n"

/-- The expression `ec.Args()[0]`, which panics on an empty list. -/
def firstArg (args : List String) : Go String :=
  match args with
  | a :: _ => pure a
  | [] => Go.panic "index out of range [0] with length 0"

/-- Lines 37 to 46 of `StartCmd.Exec`: the confirmation. The result is the
error the command returns at once, or nil when it goes on. -/
def confirmStart (env : StartEnv) : Go Err :=
  if env.autoYes = false then do
    let c ← Go.now
    Go.emit (Event.prompt "Proceed?")
    Go.tick
    match env.yesNo c "Proceed?" with
    | (_, some _) => pure (some ErrUserCancelled)
    | (yes, none) => if yes = false then pure (some ErrUserCancelled) else pure none
  else pure none

/-- The method `StartCmd.Exec`. -/
def StartCmd.Exec (env : StartEnv) (pkg : StartPkg) (ctx : Context) : Go Err := do
  Go.emit (Event.println "")
  Go.emit (Event.println startBanner)
  let cancelled ← confirmStart env
  match cancelled with
  | some e => pure (some e)
  | none =>
    Go.emit (Event.println "")
    let id ← pkg.makeMigrationID
    let config ← firstArg env.args
    let stages ← pkg.Build ctx id config
    let err ← pkg.Execute ctx stages
    match err with
    | some e => pure (some e)
    | none => do
      Go.emit (Event.println "")
      Go.emit (Event.println "OK Migration completed successfully.")
      pure none

/-! ## `errors/utils.go`: `MakeString` -/

/-- The least magnitude that rounds beyond the largest `float64`: `2^1024 - 2^970`. -/
def float64Overflow : Nat := 2 ^ 1024 - 2 ^ 970

/-- Whether a number literal can be stored in a value of type `any`, which
holds it as a `float64`. -/
def numberFits (lit : String) : Bool :=
  match readFloat lit.data with
  | some l => decide (l.num < float64Overflow * l.den)
  | none => false

mutual
/-- Whether every number of a document can be stored in a value of type `any`. -/
def JVal.numbersFit : JVal → Bool
  | JVal.num lit => numberFits lit
  | JVal.arr xs => numbersFitElems xs
  | JVal.obj kvs => numbersFitMembers kvs
  | _ => true
/-- The check `JVal.numbersFit` on the elements of an array. -/
def numbersFitElems : List JVal → Bool
  | [] => true
  | x :: xs => x.numbersFit && numbersFitElems xs
/-- The check `JVal.numbersFit` on the members of an object. -/
def numbersFitMembers : List (String × JVal) → Bool
  | [] => true
  | kv :: rest => kv.2.numbersFit && numbersFitMembers rest
end

/-- The value a Go map holds under `key` once the members of an object were
stored in it in order: that of the last member with the key. -/
def mapGet (kvs : List (String × JVal)) (key : String) : Option JVal :=
  match kvs.reverse.find? (fun kv => kv.1 == key) with
  | some kv => some kv.2
  | none => none

/-- The function `makeErrorStringFromHTTPResponse`. The document `null` leaves
the map empty; a document that is not an object, or holds a number beyond
`float64`, makes `json.Unmarshal` fail. -/
def makeErrorStringFromHTTPResponse (text : String) : String :=
  match parseJSON text with
  | none => text
  | some v =>
    if v.numbersFit = false then text
    else
      match v with
      | JVal.obj kvs =>
        match mapGet kvs "errorCode" with
        | some (JVal.str "ClusterTokenNotFound") => "Discovery token is not valid for this cluster"
        | _ =>
          match mapGet kvs "message" with
          | some (JVal.str vs) => vs
          | _ => text
      | _ => text

/-- The conversion of the first character of the error string to upper case
(lines 32 to 38): a first rune between `a` and `z` is moved by `'a' - 'A'`,
every other string is left as it is. -/
def upperFirst (errStr : String) : String :=
  match errStr.data with
  | [] => errStr
  | r0 :: rest =>
    String.mk ((if 'a'.toNat ≤ r0.toNat ∧ r0.toNat ≤ 'z'.toNat
      then Char.ofNat (r0.toNat - ('a'.toNat - 'A'.toNat)) else r0) :: rest)

/-- The function `MakeString`. On a nil error the call `err.Error()` panics. -/
def MakeString (err : Err) : Run String :=
  if IsTimeout err then Run.ret "TIMEOUT"
  else
    match err with
    | none => Run.panic "invalid memory address or nil pointer dereference"
    | some e =>
      let errStr : String :=
        match e.asHTTP with
        | some text => makeErrorStringFromHTTPResponse text
        | none => e.Error
      Run.ret ("ERROR " ++ upperFirst errStr)

/-! ## `internal/viridian/api.go`

The HTTP client, the environment variables and the temporary files are an
environment `VEnv` of oracles, asked at the clock of the world. The functions
of the package that are declared outside the sources are the fields of a
`ViridianPkg`. The fuel of a helper bounds the depth of its calls. -/

/-- The struct `API`. -/
structure API where
  Token : String
  RefreshToken : String
  ExpiresIn : Int
  deriving DecidableEq, Repr

/-- The struct `RefreshTokenResponse`. -/
structure RefreshTokenResponse where
  AccessToken : String
  RefreshToken : String
  deriving DecidableEq, Repr

/-- The zero value `RefreshTokenResponse{}`. -/
def RefreshTokenResponse.zero : RefreshTokenResponse := RefreshTokenResponse.mk "" ""

/-- The struct `Cluster`, with the fields the sources read. -/
structure Cluster where
  ID : String
  Name : String
  deriving DecidableEq, Repr

/-- The struct `ClusterType`, with the field the sources read. -/
structure ClusterType where
  Name : String
  deriving DecidableEq, Repr

/-- The struct `CustomClass`, with the fields the sources read. -/
structure CustomClass where
  ID : Int
  Name : String
  deriving DecidableEq, Repr

/-- An `http.Response`: the status code, and what reading the body to its end
gives. -/
structure HTTPResponse where
  StatusCode : Int
  Body : Except GoError String

/-- The environment of the Viridian client. -/
structure VEnv where
  getenv : String → String                                  -- `os.Getenv`
  newRequestErr : String → String → Err                     -- the error of `http.NewRequest(method, url, _)`
  httpDo : Nat → Context → HTTPRequest → Except GoError HTTPResponse
  marshalRefreshTokenRequest : String → Except GoError String  -- `json.Marshal` of the request
  createTemp : Nat → String → Except GoError String         -- the name of the file of `os.CreateTemp`
  ioCopy : Nat → String → String → Err                      -- the error of writing in `io.Copy`
  ToUpper : String → String                                 -- `strings.ToUpper`

/-- The value of the parameter `targetInfo`, whose type is declared outside
the sources. -/
abbrev TargetInfo := String

/-- The functions of the package `viridian` that the sources call and do not
hold; `unmarshalCustomClasses` is `json.Unmarshal` into a `[]CustomClass`,
whose field tags are declared outside the sources. The progress callback of
`doCustomClassDownload` is left out. -/
structure ViridianPkg where
  ListClusters : Context → API → Go (List Cluster × Err)
  ListClusterTypes : Context → API → Go (List ClusterType × Err)
  doCustomClassDownload : Context → TargetInfo → String → String → API → Bool → Go Err
  unmarshalCustomClasses : String → List CustomClass → List CustomClass × Err

/-- The constant `EnvAPIBaseURL`. -/
def EnvAPIBaseURL : String := "HZ_CLOUD_COORDINATOR_BASE_URL"

/-- The constant `DefaultAPIBaseURL`. -/
def DefaultAPIBaseURL : String := "https://api.viridian.hazelcast.com"

/-- The status code `http.StatusOK`. -/
def StatusOK : Int := 200

/-- The status code `http.StatusNoContent`. -/
def StatusNoContent : Int := 204

/-- The status code `http.StatusUnauthorized`. -/
def StatusUnauthorized : Int := 401

/-- Modelled from the spec: `NewHTTPClientError`, declared outside the sources,
makes an error that implements `HTTPError` of a status code and a body. -/
def NewHTTPClientError (code : Int) (body : String) : GoError := GoError.http code body

/-- The function `APIBaseURL`. -/
def APIBaseURL (env : VEnv) : String :=
  if env.getenv EnvAPIBaseURL ≠ "" then env.getenv EnvAPIBaseURL else DefaultAPIBaseURL

/-- The call `strings.TrimLeft(path, "/")` on a character list. -/
def trimLeftSlash : List Char → List Char
  | [] => []
  | c :: r => if c = '/' then trimLeftSlash r else c :: r

/-- The function `makeUrl`. -/
def makeUrl (env : VEnv) (path : String) : String :=
  APIBaseURL env ++ ("/" ++ String.mk (trimLeftSlash path.data))

/-- The header `Authorization` of a request made for `api`: set only when the
token is not empty. -/
def authorizationOf (api : API) : Option String :=
  if api.Token ≠ "" then some ("Bearer " ++ api.Token) else none

/-- The call `http.DefaultClient.Do(req)` with the context of the request. -/
def httpClientDo (env : VEnv) (ctx : Context) (req : HTTPRequest) :
    Go (Except GoError HTTPResponse) := do
  let c ← Go.now
  Go.emit (Event.httpDo ctx req)
  Go.tick
  pure (env.httpDo c ctx req)

/-- The JSON names of the fields of `RefreshTokenResponse`. -/
def refreshFieldNames : List String := ["accessToken", "refreshToken"]

/-- Decodes one member of an object into `RefreshTokenResponse`. -/
def decodeRefreshField (k : String) (v : JVal) (m : RefreshTokenResponse) :
    RefreshTokenResponse × Err :=
  match matchField refreshFieldNames k with
  | some f =>
    if f = "accessToken" then
      ({ m with AccessToken := (decodeString v m.AccessToken).1 }, (decodeString v m.AccessToken).2)
    else
      ({ m with RefreshToken := (decodeString v m.RefreshToken).1 },
        (decodeString v m.RefreshToken).2)
  | none => (m, none)

/-- Decodes the members of an object into `RefreshTokenResponse`, in order. -/
def decodeRefreshFields : List (String × JVal) → RefreshTokenResponse →
    RefreshTokenResponse × Err
  | [], m => (m, none)
  | kv :: rest, m =>
    ((decodeRefreshFields rest (decodeRefreshField kv.1 kv.2 m).1).1,
      firstErr (decodeRefreshField kv.1 kv.2 m).2
        (decodeRefreshFields rest (decodeRefreshField kv.1 kv.2 m).1).2)

/-- The call `json.Unmarshal(b, &res)` for a `RefreshTokenResponse` target. -/
def UnmarshalRefreshTokenResponse (data : String) (cur : RefreshTokenResponse) :
    RefreshTokenResponse × Err :=
  match parseJSON data with
  | none => (cur, some jsonSyntaxError)
  | some JVal.null => (cur, none)
  | some (JVal.obj kvs) => decodeRefreshFields kvs cur
  | some other => (cur, some (jsonTypeError other.kindName "viridian.RefreshTokenResponse"))

mutual
/-- The function `doPostBytes`; a nil slice is the empty text. -/
def doPostBytes (env : VEnv) (ctx : Context) (url : String) (api : API) (body : String) :
    Nat → Bool → Go (String × Err)
  | 0, _ => Go.pending
  | fuel + 1, retryOnUnauthorized => do
    match env.newRequestErr "POST" url with
    | some e => pure ("", some (Errorf_w "creating request: " (some e)))
    | none =>
      let res ← httpClientDo env ctx
        { Method := "POST", URL := url, ContentType := some "application/json",
          Authorization := authorizationOf api, Body := some body }
      match res with
      | Except.error e => pure ("", some (Errorf_w "sending request: " (some e)))
      | Except.ok res =>
        match res.Body with
        | Except.error e => pure ("", some (Errorf_w "reading response: " (some e)))
        | Except.ok rb =>
          if res.StatusCode = StatusUnauthorized ∧ retryOnUnauthorized = true then do
            let r ← RefreshAccessToken env ctx api fuel
            match r.2.2 with
            | some e => pure ("", some e)
            | none => doPostBytes env ctx url api body fuel false
          else if res.StatusCode = 200 then pure (rb, none)
          else pure ("", some (NewHTTPClientError res.StatusCode rb))
/-- The method `API.RefreshAccessToken`. The receiver is passed by value: the
first component of the result is the copy `a` of the callee as it is when the
method returns, which no caller can see; then the response and the error. -/
def RefreshAccessToken (env : VEnv) (ctx : Context) (a : API) :
    Nat → Go (API × RefreshTokenResponse × Err)
  | 0 => Go.pending
  | fuel + 1 => do
    let resp ← doPost env ctx "/customers/api/token/refresh" a a.RefreshToken fuel false
    match resp.2 with
    | some e => pure (a, RefreshTokenResponse.zero, some (Errorf_w "refreshing token: " (some e)))
    | none =>
      pure ({ a with Token := resp.1.AccessToken, RefreshToken := resp.1.RefreshToken },
        resp.1, none)
/-- The function `doPost` at the one instance the sources have: the request
is a `refreshTokenRequest`, given by its field, and the response a
`RefreshTokenResponse`. -/
def doPost (env : VEnv) (ctx : Context) (path : String) (api : API) (request : String) :
    Nat → Bool → Go (RefreshTokenResponse × Err)
  | 0, _ => Go.pending
  | fuel + 1, retryOnUnauthorized => do
    match env.marshalRefreshTokenRequest request with
    | Except.error e =>
      pure (RefreshTokenResponse.zero, some (Errorf_w "creating payload: " (some e)))
    | Except.ok m =>
      let b ← doPostBytes env ctx (makeUrl env path) api m fuel retryOnUnauthorized
      match b.2 with
      | some e => pure (RefreshTokenResponse.zero, some e)
      | none =>
        match UnmarshalRefreshTokenResponse b.1 RefreshTokenResponse.zero with
        | (res, some e) => pure (res, some e)
        | (res, none) => pure (res, none)
end

/-- The function `doGet`; `unmarshal` is `json.Unmarshal` into the type of the
result and `zero` its zero value. -/
def doGet {Res : Type} (env : VEnv) (unmarshal : String → Res → Res × Err) (zero : Res)
    (ctx : Context) (path : String) (api : API) : Nat → Bool → Go (Res × Err)
  | 0, _ => Go.pending
  | fuel + 1, retryOnUnauthorized => do
    match env.newRequestErr "GET" (makeUrl env path) with
    | some e => pure (zero, some (Errorf_w "creating request: " (some e)))
    | none =>
      let rawRes ← httpClientDo env ctx
        { Method := "GET", URL := makeUrl env path, ContentType := some "application/json",
          Authorization := authorizationOf api, Body := none }
      match rawRes with
      | Except.error e => pure (zero, some (Errorf_w "sending request: " (some e)))
      | Except.ok rawRes =>
        match rawRes.Body with
        | Except.error e => pure (zero, some (Errorf_w "reading response: " (some e)))
        | Except.ok rb =>
          if rawRes.StatusCode = StatusOK then
            match unmarshal rb zero with
            | (res, some e) => pure (res, some e)
            | (res, none) => pure (res, none)
          else if rawRes.StatusCode = StatusUnauthorized ∧ retryOnUnauthorized = true then do
            let r ← RefreshAccessToken env ctx api fuel
            match r.2.2 with
            | some e => pure (zero, some e)
            | none => doGet env unmarshal zero ctx path api fuel false
          else pure (zero, some (NewHTTPClientError rawRes.StatusCode rb))

/-- The function `doGetRaw`; the reader it returns is given by what reading it
to its end gives, `none` being the nil reader. -/
def doGetRaw (env : VEnv) (ctx : Context) (path : String) (api : API) :
    Nat → Bool → Go (Option (Except GoError String) × Err)
  | 0, _ => Go.pending
  | fuel + 1, retryOnUnauthorized => do
    match env.newRequestErr "GET" (makeUrl env path) with
    | some e => pure (none, some (Errorf_w "creating request: " (some e)))
    | none =>
      let rawRes ← httpClientDo env ctx
        { Method := "GET", URL := makeUrl env path, ContentType := some "application/json",
          Authorization := authorizationOf api, Body := none }
      match rawRes with
      | Except.error e => pure (none, some (Errorf_w "sending request: " (some e)))
      | Except.ok rawRes =>
        if rawRes.StatusCode = StatusUnauthorized ∧ retryOnUnauthorized = true then do
          let r ← RefreshAccessToken env ctx api fuel
          match r.2.2 with
          | some e => pure (none, some e)
          | none => doGetRaw env ctx path api fuel false
        else if rawRes.StatusCode = 200 then pure (some rawRes.Body, none)
        else
          match rawRes.Body with
          | Except.error e => pure (none, some (Errorf_w "reading response: " (some e)))
          | Except.ok rb => pure (none, some (NewHTTPClientError rawRes.StatusCode rb))

/-- The function `doDelete`. -/
def doDelete (env : VEnv) (ctx : Context) (path : String) (api : API) : Nat → Bool → Go Err
  | 0, _ => Go.pending
  | fuel + 1, retryOnUnauthorized => do
    match env.newRequestErr "DELETE" (makeUrl env path) with
    | some e => pure (some (Errorf_w "creating request: " (some e)))
    | none =>
      let res ← httpClientDo env ctx
        { Method := "DELETE", URL := makeUrl env path, ContentType := some "application/json",
          Authorization := authorizationOf api, Body := none }
      match res with
      | Except.error e => pure (some (Errorf_w "sending request: " (some e)))
      | Except.ok res =>
        match res.Body with
        | Except.error e => pure (some (Errorf_w "reading response: " (some e)))
        | Except.ok rb =>
          if res.StatusCode = StatusUnauthorized ∧ retryOnUnauthorized = true then do
            let r ← RefreshAccessToken env ctx api fuel
            match r.2.2 with
            | some e => pure (some e)
            | none => doDelete env ctx path api fuel false
          else if res.StatusCode ≠ StatusOK ∧ res.StatusCode ≠ StatusNoContent then
            pure (some (NewHTTPClientError res.StatusCode rb))
          else pure none

/-- The call `os.CreateTemp("", pattern)`: the name of the new file, or the error. -/
def osCreateTemp (env : VEnv) (pattern : String) : Go (Except GoError String) := do
  let c ← Go.now
  Go.emit (Event.createTemp pattern)
  Go.tick
  pure (env.createTemp c pattern)

/-- The call `io.Copy(f, body)` into the file `name`: it fails when the body
cannot be read or the file cannot be written. -/
def ioCopy (env : VEnv) (name : String) (body : Except GoError String) : Go Err :=
  match body with
  | Except.error e => pure (some e)
  | Except.ok data => do
    let c ← Go.now
    Go.emit (Event.ioCopy name data)
    Go.tick
    pure (env.ioCopy c name data)

/-- The function `download`: the path, the name of the file that `stop`
removes (`none` for a nil `stop`), and the error. -/
def download (env : VEnv) (ctx : Context) (url : String) (api : API) :
    Nat → Bool → Go (String × Option String × Err)
  | 0, _ => Go.pending
  | fuel + 1, retryOnUnauthorized => do
    let f ← osCreateTemp env "clc-download-*"
    match f with
    | Except.error e => pure ("", none, some e)
    | Except.ok fName =>
      match env.newRequestErr "GET" url with
      | some e => pure ("", none, some (Errorf_w "creating request: " (some e)))
      | none =>
        let rawRes ← httpClientDo env ctx
          { Method := "GET", URL := url, ContentType := none,
            Authorization := authorizationOf api, Body := none }
        match rawRes with
        | Except.error e => pure ("", none, some (Errorf_w "sending request: " (some e)))
        | Except.ok rawRes =>
          if rawRes.StatusCode = StatusUnauthorized ∧ retryOnUnauthorized = true then do
            let r ← RefreshAccessToken env ctx api fuel
            match r.2.2 with
            | some e => pure ("", none, some e)
            | none => download env ctx url api fuel false
          else if rawRes.StatusCode = StatusOK then do
            let err ← ioCopy env fName rawRes.Body
            match err with
            | some e => pure ("", none, some (Errorf_w "downloading file: " (some e)))
            | none => pure (fName, some fName, none)
          else
            match rawRes.Body with
            | Except.error e =>
              pure ("", none, some (Errorf_w "reading error response: " (some e)))
            | Except.ok rb =>
              pure ("", none, some (GoError.fresh (toString rawRes.StatusCode ++ ": " ++ rb)))

/-- The loop of `API.FindCluster` over the clusters. -/
def findClusterLoop (idOrName : String) : List Cluster → Option Cluster
  | [] => none
  | c :: rest =>
    if c.ID = idOrName ∨ c.Name = idOrName then some c else findClusterLoop idOrName rest

/-- The method `API.FindCluster`. -/
def FindCluster (pkg : ViridianPkg) (ctx : Context) (a : API) (idOrName : String) :
    Go (Cluster × Err) := do
  let r ← pkg.ListClusters ctx a
  match r.2 with
  | some e => pure (Cluster.mk "" "", some e)
  | none =>
    match findClusterLoop idOrName r.1 with
    | some c => pure (c, none)
    | none => pure (Cluster.mk "" "", some (GoError.fresh ("no such cluster found: " ++ idOrName)))

/-- The loop of `API.FindClusterType` over the cluster types. -/
def findClusterTypeLoop (env : VEnv) (name : String) : List ClusterType → Option ClusterType
  | [] => none
  | ct :: rest =>
    if env.ToUpper ct.Name = env.ToUpper name then some ct else findClusterTypeLoop env name rest

/-- The method `API.FindClusterType`. -/
def FindClusterType (env : VEnv) (pkg : ViridianPkg) (ctx : Context) (a : API) (name : String) :
    Go (ClusterType × Err) := do
  let r ← pkg.ListClusterTypes ctx a
  match r.2 with
  | some e => pure (ClusterType.mk "", some e)
  | none =>
    match findClusterTypeLoop env name r.1 with
    | some ct => pure (ct, none)
    | none =>
      pure (ClusterType.mk "", some (GoError.fresh ("no such cluster type found: " ++ name)))

/-- The method `API.ListCustomClasses`. -/
def ListCustomClasses (env : VEnv) (pkg : ViridianPkg) (ctx : Context) (a : API)
    (cluster : String) (fuel : Nat) : Go (List CustomClass × Err) := do
  let c ← FindCluster pkg ctx a cluster
  match c.2 with
  | some e => pure ([], some e)
  | none =>
    let csw ← doGet env pkg.unmarshalCustomClasses [] ctx
      ("/cluster/" ++ c.1.ID ++ "/custom_classes") a fuel true
    match csw.2 with
    | some e => pure ([], some (Errorf_w "listing custom classes: " (some e)))
    | none => pure (csw.1, none)

/-- The loop of `findArtifactIDAndName` over the custom classes: the ID and
the name it leaves in `artifactID` and `artifactName`. -/
def findArtifactLoop (artifact : String) : List CustomClass → Int × String
  | [] => (0, "")
  | cc :: rest =>
    if cc.Name = artifact ∨ toString cc.ID = artifact then (cc.ID, cc.Name)
    else findArtifactLoop artifact rest

/-- The method `API.findArtifactIDAndName`. -/
def findArtifactIDAndName (env : VEnv) (pkg : ViridianPkg) (ctx : Context) (a : API)
    (clusterName artifact : String) (fuel : Nat) : Go (Int × String × Err) := do
  let customClasses ← ListCustomClasses env pkg ctx a clusterName fuel
  match customClasses.2 with
  | some e => pure (0, "", some e)
  | none =>
    pure ((findArtifactLoop artifact customClasses.1).1,
      (findArtifactLoop artifact customClasses.1).2, none)

/-- The text of the error for an artifact that was not found. -/
def noArtifactErr (artifact clusterID : String) : GoError :=
  GoError.fresh ("no custom class artifact found with name or ID " ++ artifact
    ++ " in cluster " ++ clusterID)

/-- The method `API.DownloadCustomClass`, without its progress callback. -/
def DownloadCustomClass (env : VEnv) (pkg : ViridianPkg) (ctx : Context) (a : API)
    (targetInfo : TargetInfo) (cluster artifact : String) (fuel : Nat) : Go Err := do
  let c ← FindCluster pkg ctx a cluster
  match c.2 with
  | some e => pure (some e)
  | none =>
    let r ← findArtifactIDAndName env pkg ctx a cluster artifact fuel
    match r.2.2 with
    | some e => pure (some e)
    | none =>
      if r.1 = 0 then pure (some (noArtifactErr artifact c.1.ID))
      else do
        let err ← pkg.doCustomClassDownload ctx targetInfo
          ("/cluster/" ++ c.1.ID ++ "/custom_classes/" ++ toString r.1) r.2.1 a true
        match err with
        | some e => pure (some e)
        | none => pure none

/-- The method `API.DeleteCustomClass`. -/
def DeleteCustomClass (env : VEnv) (pkg : ViridianPkg) (ctx : Context) (a : API)
    (cluster artifact : String) (fuel : Nat) : Go Err := do
  let c ← FindCluster pkg ctx a cluster
  match c.2 with
  | some e => pure (some e)
  | none =>
    let r ← findArtifactIDAndName env pkg ctx a cluster artifact fuel
    match r.2.2 with
    | some e => pure (some e)
    | none =>
      if r.1 = 0 then pure (some (noArtifactErr artifact c.1.ID))
      else do
        let err ← doDelete env ctx
          ("/cluster/" ++ c.1.ID ++ "/custom_classes/" ++ toString r.1) a fuel true
        match err with
        | some e => pure (some e)
        | none => pure none

/-! ## `base/commands/generate/project.go`

The file system is an environment `ProjectEnv` of oracles. The constants
`keepExt`, `hiddenFilePrefix`, `underscorePrefix` and `templateExt`, and the
functions `paths.TemplatePath`, `applyTemplateAndCopyToTarget` and
`copyToTarget`, are declared outside the sources and are fields of the
environment. -/

/-- An `fs.DirEntry`, as far as the callback of the walk reads it. -/
structure DirEntry where
  Name : String
  IsDir : Bool
  deriving DecidableEq, Repr

/-- One call of the callback by `filepath.WalkDir`: the path, the entry, and
the error of reading it. -/
structure WalkEntry where
  path : String
  d : DirEntry
  err : Err

/-- The environment of `createProject`. The field `walkDir` lists the calls
`filepath.WalkDir` makes for a root at a clock as long as the callback returns
nil. -/
structure ProjectEnv where
  keepExt : String
  hiddenFilePrefix : String
  underscorePrefix : String
  templateExt : String
  TemplatePath : String → String
  walkDir : Nat → String → List WalkEntry
  mkdirAll : Nat → String → Nat → Err
  applyTemplateAndCopyToTarget : Nat → String → String → String → Err
  copyToTarget : Nat → String → String → Bool → Err

/-- The scan of `path.Ext` from the end of the path: `rev` is what is left of
the reversed path, `acc` the characters passed so far. -/
def extScan : List Char → List Char → List Char
  | [], _ => []
  | c :: rev, acc =>
    if c = '/' then []
    else if c = '.' then c :: acc
    else extScan rev (c :: acc)

/-- The function `path.Ext`: the suffix from the last dot of the last element
of the path on, empty if there is no dot. -/
def pathExt (path : String) : String := String.mk (extScan path.data.reverse [])

/-- The function `strings.HasPrefix`. -/
def HasPrefix (s pre : String) : Bool := pre.data.isPrefixOf s.data

/-- The pieces of `strings.Split` for a separator that is not empty: `cur` is
the piece being read, reversed, and `skip` the number of characters of a
separator that are still to be passed over. -/
def splitPieces (sep : List Char) : List Char → List Char → Nat → List (List Char)
  | [], cur, _ => [cur.reverse]
  | _ :: cs, cur, skip + 1 => splitPieces sep cs cur skip
  | c :: cs, cur, 0 =>
    if sep.isPrefixOf (c :: cs) then cur.reverse :: splitPieces sep cs [] (sep.length - 1)
    else splitPieces sep cs (c :: cur) 0

/-- The function `strings.Split`; an empty separator splits after every character. -/
def stringsSplit (s sep : String) : List String :=
  if sep = "" then s.data.map fun c => String.mk [c]
  else (splitPieces sep.data s.data [] 0).map String.mk

/-- The call `os.MkdirAll(path, perm)`. -/
def osMkdirAll (env : ProjectEnv) (path : String) (perm : Nat) : Go Err := do
  let c ← Go.now
  Go.emit (Event.mkdirAll path perm)
  Go.tick
  pure (env.mkdirAll c path perm)

/-- The call `applyTemplateAndCopyToTarget(ec, sourceDir, p, target)`. -/
def applyTemplateAndCopyToTarget (env : ProjectEnv) (sourceDir p target : String) : Go Err := do
  let c ← Go.now
  Go.emit (Event.applyTemplate sourceDir p target)
  Go.tick
  pure (env.applyTemplateAndCopyToTarget c sourceDir p target)

/-- The call `copyToTarget(p, target, hasExt)`. -/
def copyToTarget (env : ProjectEnv) (p target : String) (hasExt : Bool) : Go Err := do
  let c ← Go.now
  Go.emit (Event.copyToTarget p target hasExt)
  Go.tick
  pure (env.copyToTarget c p target hasExt)

/-- The callback that `createProject` hands to `filepath.WalkDir`. The index
expression `strings.Split(p, templateName)[1]` panics when the split has one
piece only. -/
def walkFn (env : ProjectEnv) (outputDir templateName pName sourceDir : String)
    (p : String) (d : DirEntry) (err : Err) : Go Err :=
  match err with
  | some e => pure (some e)
  | none =>
    match (stringsSplit p templateName)[1]? with
    | none =>
      Go.panic ("index out of range [1] with length "
        ++ toString (stringsSplit p templateName).length)
    | some rel =>
      let target : String := filepathJoin [outputDir, pName, rel]
      if d.IsDir then do
        let err ← osMkdirAll env target 0o700
        match err with
        | some e => pure (some e)
        | none => pure none
      else
        let ext : String := pathExt d.Name
        -- skip files with . and _ prefix unless their extension is ".keep"
        if ext != env.keepExt
            && (HasPrefix d.Name env.hiddenFilePrefix || HasPrefix d.Name env.underscorePrefix)
            || d.Name == "default.properties" then
          pure none
        else if ext = env.templateExt then do
          let err ← applyTemplateAndCopyToTarget env sourceDir p target
          match err with
          | some e => pure (some e)
          | none => pure none
        else do
          -- copy everything else
          let err ← copyToTarget env p target (pathExt d.Name != "")
          match err with
          | some e => pure (some e)
          | none => pure none

/-- The walk of `filepath.WalkDir` over the calls it makes: it ends with the
first error of the callback. The errors `fs.SkipDir` and `fs.SkipAll`, which
the walk treats apart, are not among the errors of the model. -/
def walkEntries (env : ProjectEnv) (outputDir templateName pName sourceDir : String) :
    List WalkEntry → Go Err
  | [] => pure none
  | e :: rest => do
    let err ← walkFn env outputDir templateName pName sourceDir e.path e.d e.err
    match err with
    | some x => pure (some x)
    | none => walkEntries env outputDir templateName pName sourceDir rest

/-- The function `createProject`. -/
def createProject (env : ProjectEnv) (outputDir templateName pName : String) : Go Err := do
  let c ← Go.now
  walkEntries env outputDir templateName pName (env.TemplatePath templateName)
    (env.walkDir c (env.TemplatePath templateName))

/-! ## `internal/proto/codec`

The package `proto` is that of the Hazelcast Go client, outside the sources. A
client message is held as its frames and its retryable flag, a frame as its
content, a list of bytes, and its flags. The offset `PartitionIDOffset` of
the library is a parameter of the encoders; the sizes are those of the Go
types `int32`, `int64` and `bool`. -/

/-- The constant `proto.IntSizeInBytes`. -/
def IntSizeInBytes : Nat := 4

/-- The constant `proto.LongSizeInBytes`. -/
def LongSizeInBytes : Nat := 8

/-- The constant `proto.BooleanSizeInBytes`. -/
def BooleanSizeInBytes : Nat := 1

/-- The constant `proto.TypeFieldOffset`. -/
def TypeFieldOffset : Nat := 0

/-- The flags `proto.UnfragmentedMessage`: begin and end of a fragment. -/
def UnfragmentedMessage : Nat := 0xC000

/-- The flags of a frame made by `proto.NewFrame`. -/
def DefaultFlags : Nat := 0

/-- A `proto.Frame`. -/
structure Frame where
  Content : List Nat
  Flags : Nat
  deriving DecidableEq, Repr

/-- A `proto.ClientMessage`. -/
structure ClientMessage where
  Frames : List Frame
  Retryable : Bool
  deriving DecidableEq, Repr

/-- Runs `f` on the result of a call that returned. -/
def Run.bind {α β : Type} (r : Run α) (f : α → Run β) : Run β :=
  match r with
  | Run.ret a => f a
  | Run.panic msg => Run.panic msg
  | Run.pending => Run.pending

/-- The `n` low bytes of `v`, the least significant first. -/
def leBytes : Nat → Nat → List Nat
  | 0, _ => []
  | n + 1, v => v % 256 :: leBytes n (v / 256)

/-- The number the bytes `bs` stand for, the least significant first. -/
def leValue : List Nat → Nat
  | [] => 0
  | b :: bs => b + 256 * leValue bs

/-- The conversion `uint64(v)` of an `int64`. -/
def uint64 (v : Int) : Nat := (v % 2 ^ 64).toNat

/-- The conversion `uint32(v)` of an `int32`. -/
def uint32 (v : Int) : Nat := (v % 2 ^ 32).toNat

/-- Writes the bytes `bs` into the buffer from the offset on; the write panics
when it does not fit the buffer. -/
def putBytes (buffer : List Nat) (offset : Nat) (bs : List Nat) : Run (List Nat) :=
  if offset + bs.length ≤ buffer.length then
    Run.ret (buffer.take offset ++ bs ++ buffer.drop (offset + bs.length))
  else Run.panic "runtime error: index out of range"

/-- Modelled from the spec: `EncodeLong`, declared outside the sources, writes
the value as an 8-byte long at the offset, in the little-endian order of the
Hazelcast protocol. -/
def EncodeLong (buffer : List Nat) (offset : Nat) (value : Int) : Run (List Nat) :=
  putBytes buffer offset (leBytes 8 (uint64 value))

/-- Modelled from the spec: `EncodeBoolean`, declared outside the sources,
writes the value as one byte at the offset, 1 for true and 0 for false. -/
def EncodeBoolean (buffer : List Nat) (offset : Nat) (value : Bool) : Run (List Nat) :=
  putBytes buffer offset [if value then 1 else 0]

/-- The bytes of a string in UTF-8. -/
def utf8Bytes (s : String) : List Nat :=
  s.data.flatMap fun c => (String.utf8EncodeChar c).map UInt8.toNat

/-- The function `proto.NewClientMessageForEncode`. -/
def NewClientMessageForEncode : ClientMessage := ClientMessage.mk [] false

/-- The method `SetRetryable`. -/
def ClientMessage.SetRetryable (m : ClientMessage) (v : Bool) : ClientMessage :=
  { m with Retryable := v }

/-- The method `AddFrame`. -/
def ClientMessage.AddFrame (m : ClientMessage) (f : Frame) : ClientMessage :=
  { m with Frames := m.Frames ++ [f] }

/-- A write into the content of the first frame of a message; without a frame
the access panics. -/
def ClientMessage.putStart (m : ClientMessage) (offset : Nat) (bs : List Nat) :
    Run ClientMessage :=
  match m.Frames with
  | [] => Run.panic "runtime error: index out of range"
  | f :: rest =>
    (putBytes f.Content offset bs).bind fun c =>
      Run.ret { m with Frames := { f with Content := c } :: rest }

/-- The method `SetMessageType`, which writes an `int32` at `TypeFieldOffset`. -/
def ClientMessage.SetMessageType (m : ClientMessage) (v : Int) : Run ClientMessage :=
  m.putStart TypeFieldOffset (leBytes 4 (uint32 v))

/-- The method `SetPartitionId`, which writes an `int32` at `PartitionIDOffset`. -/
def ClientMessage.SetPartitionId (m : ClientMessage) (PartitionIDOffset : Nat) (v : Int) :
    Run ClientMessage :=
  m.putStart PartitionIDOffset (leBytes 4 (uint32 v))

/-- Modelled from the spec: `EncodeString`, declared outside the sources, adds
a frame that holds the bytes of the string. -/
def EncodeString (m : ClientMessage) (s : String) : ClientMessage :=
  m.AddFrame (Frame.mk (utf8Bytes s) DefaultFlags)

/-- Modelled from the spec: `EncodeData`, declared outside the sources, adds a
frame that holds the bytes of the data. -/
def EncodeData (m : ClientMessage) (data : List Nat) : ClientMessage :=
  m.AddFrame (Frame.mk data DefaultFlags)

/-- The constant `MultiMapLockCodecRequestMessageType`. -/
def MultiMapLockCodecRequestMessageType : Int := 0x021000

/-- The constant `MultiMapLockCodecRequestThreadIdOffset`. -/
def MultiMapLockCodecRequestThreadIdOffset (PartitionIDOffset : Nat) : Nat :=
  PartitionIDOffset + IntSizeInBytes

/-- The constant `MultiMapLockCodecRequestTtlOffset`. -/
def MultiMapLockCodecRequestTtlOffset (PartitionIDOffset : Nat) : Nat :=
  MultiMapLockCodecRequestThreadIdOffset PartitionIDOffset + LongSizeInBytes

/-- The constant `MultiMapLockCodecRequestReferenceIdOffset`. -/
def MultiMapLockCodecRequestReferenceIdOffset (PartitionIDOffset : Nat) : Nat :=
  MultiMapLockCodecRequestTtlOffset PartitionIDOffset + LongSizeInBytes

/-- The constant `MultiMapLockCodecRequestInitialFrameSize`. -/
def MultiMapLockCodecRequestInitialFrameSize (PartitionIDOffset : Nat) : Nat :=
  MultiMapLockCodecRequestReferenceIdOffset PartitionIDOffset + LongSizeInBytes

/-- The function `EncodeMultiMapLockRequest`. -/
def EncodeMultiMapLockRequest (PartitionIDOffset : Nat) (name : String) (key : List Nat)
    (threadId ttl referenceId : Int) : Run ClientMessage :=
  let clientMessage : ClientMessage := NewClientMessageForEncode.SetRetryable true
  (EncodeLong (List.replicate (MultiMapLockCodecRequestInitialFrameSize PartitionIDOffset) 0)
      (MultiMapLockCodecRequestThreadIdOffset PartitionIDOffset) threadId).bind fun c1 =>
  (EncodeLong c1 (MultiMapLockCodecRequestTtlOffset PartitionIDOffset) ttl).bind fun c2 =>
  (EncodeLong c2 (MultiMapLockCodecRequestReferenceIdOffset PartitionIDOffset)
      referenceId).bind fun c3 =>
  ((clientMessage.AddFrame (Frame.mk c3 UnfragmentedMessage)).SetMessageType
      MultiMapLockCodecRequestMessageType).bind fun m1 =>
  (m1.SetPartitionId PartitionIDOffset (-1)).bind fun m2 =>
  Run.ret (EncodeData (EncodeString m2 name) key)

/-- The constant `TopicAddMessageListenerCodecRequestMessageType`. -/
def TopicAddMessageListenerCodecRequestMessageType : Int := 0x040200

/-- The constant `TopicAddMessageListenerCodecRequestLocalOnlyOffset`. -/
def TopicAddMessageListenerCodecRequestLocalOnlyOffset (PartitionIDOffset : Nat) : Nat :=
  PartitionIDOffset + IntSizeInBytes

/-- The constant `TopicAddMessageListenerCodecRequestInitialFrameSize`. -/
def TopicAddMessageListenerCodecRequestInitialFrameSize (PartitionIDOffset : Nat) : Nat :=
  TopicAddMessageListenerCodecRequestLocalOnlyOffset PartitionIDOffset + BooleanSizeInBytes

/-- The function `EncodeTopicAddMessageListenerRequest`. -/
def EncodeTopicAddMessageListenerRequest (PartitionIDOffset : Nat) (name : String)
    (localOnly : Bool) : Run ClientMessage :=
  let clientMessage : ClientMessage := NewClientMessageForEncode.SetRetryable false
  (EncodeBoolean
      (List.replicate (TopicAddMessageListenerCodecRequestInitialFrameSize PartitionIDOffset) 0)
      (TopicAddMessageListenerCodecRequestLocalOnlyOffset PartitionIDOffset) localOnly).bind
    fun c1 =>
  ((clientMessage.AddFrame (Frame.mk c1 UnfragmentedMessage)).SetMessageType
      TopicAddMessageListenerCodecRequestMessageType).bind fun m1 =>
  (m1.SetPartitionId PartitionIDOffset (-1)).bind fun m2 =>
  Run.ret (EncodeString m2 name)

/-! ## Observations on runs -/

/-- The file writes recorded in a trace: name and content, in order. -/
def fileWrites (trace : List Event) : List (String × String) :=
  trace.filterMap fun e =>
    match e with
    | Event.writeFile name data _ => some (name, data)
    | _ => none

/-- The first `n` outcomes of `fetchMigrationStatus` when it is called again
and again from the world `w` on, as the loop of `WaitForMigrationToBeInProgress`
does while it goes on. -/
def statusResponses (env : Env) (ctx : Context) (migrationID : String) :
    Nat → World → List (Run (String × Err))
  | 0, _ => []
  | n + 1, w =>
    (fetchMigrationStatus env ctx migrationID w).1
      :: statusResponses env ctx migrationID n (fetchMigrationStatus env ctx migrationID w).2

/-- What the check of the overall status IN_PROGRESS tells the logger and the
status reporter once `fetchOverallProgress` has returned `p` (lines 89 to 96). -/
def progressEvents (d : DataStructureInfo) (p : Int × Decimal × Err) : List Event :=
  match p.2.2 with
  | some e =>
    [Event.logError e, Event.setText "Unable to calculate remaining duration and progress"]
  | none =>
    [Event.setText (progressMsg d.Typ d.Name), Event.setProgress p.2.1,
      Event.setRemainingDuration p.1]

/-- The values passed to `status.SetProgress` that a trace records, in order. -/
def progressWrites (trace : List Event) : List Decimal :=
  trace.filterMap fun e =>
    match e with
    | Event.setProgress p => some p
    | _ => none

/-- The text in which every entry of a list stands on a line of its own
behind the bullet `* `, as the spec words the printing of warnings. -/
def bulletLines (ws : List String) : String :=
  "\n".intercalate (ws.map fun x => "* " ++ x)

/-- Whether a `float32` value lies between 0 and 1, both included. -/
def Decimal.inUnitInterval : Decimal → Bool
  | Decimal.mk mant exp =>
    decide (0 ≤ mant) &&
      (if 0 ≤ exp then decide (mant * 10 ^ exp.toNat ≤ 1)
        else decide (mant ≤ 10 ^ (-exp).toNat))
  | Decimal.negZero => true
  | Decimal.inf _ => false
  | Decimal.nan => false

/-- The HTTP requests recorded in a trace, in order. -/
def httpRequests (trace : List Event) : List HTTPRequest :=
  trace.filterMap fun e =>
    match e with
    | Event.httpDo _ req => some req
    | _ => none

/-- The HTTP requests a run sent that led from the world `w` to the world `w1`. -/
def sentRequests (w w1 : World) : List HTTPRequest :=
  (httpRequests w1.trace).drop (httpRequests w.trace).length

/-- The request a helper of the Viridian client makes for `api`: the header
`Content-Type` is `application/json` in every helper but `download`. -/
def targetRequest (method url : String) (json : Bool) (api : API) (body : Option String) :
    HTTPRequest :=
  { Method := method, URL := url,
    ContentType := if json then some "application/json" else none,
    Authorization := authorizationOf api, Body := body }

/-- The request by which `API.RefreshAccessToken` asks for a new token, given
the payload. -/
def refreshRequest (env : VEnv) (api : API) (payload : String) : HTTPRequest :=
  { Method := "POST", URL := makeUrl env "/customers/api/token/refresh",
    ContentType := some "application/json", Authorization := authorizationOf api,
    Body := some payload }

/-- The requests one call of `API.RefreshAccessToken` sends: one, if the
payload and the request can be made, and none otherwise. -/
def refreshRequests (env : VEnv) (a : API) : List HTTPRequest :=
  match env.marshalRefreshTokenRequest a.RefreshToken with
  | Except.ok m =>
    if env.newRequestErr "POST" (makeUrl env "/customers/api/token/refresh") = none then
      [refreshRequest env a m]
    else []
  | Except.error _ => []

/-- The world after the requests `reqs` were sent from the world `w`. -/
def World.afterRequests (w : World) (ctx : Context) (reqs : List HTTPRequest) : World :=
  World.mk (w.clock + reqs.length) (w.trace ++ reqs.map (Event.httpDo ctx))

/-- The trace of `w1` is the trace of `w` followed by events among which the
HTTP requests are `reqs`, in this order. -/
def World.Extends (w w1 : World) (reqs : List HTTPRequest) : Prop :=
  ∃ evs, w1.trace = w.trace ++ evs ∧ httpRequests evs = reqs

/-- The requests of a helper that retries at most once: none, the request `t`
alone, or, in a call that may retry, `t` followed by one request `r` for a new
token and then possibly `t` once more. -/
def RetriesOnce (retry : Bool) (t : HTTPRequest) (isRefresh : HTTPRequest → Prop)
    (sent : List HTTPRequest) : Prop :=
  sent = [] ∨ sent = [t]
    ∨ (retry = true ∧ ∃ r, isRefresh r ∧ (sent = [t, r] ∨ sent = [t, r, t]))

/-! ## Environments for the examples -/

/-- The world at the start of a run. -/
def World.init : World := World.mk 0 []

/-- A query result of one row with one column holding the JSON document `data`. -/
def jsonRow (data : String) : QueryResult :=
  QueryResult.row (some (Row.mk [Except.ok (SQLValue.json data)]))

/-- A query result of one row with two columns holding the JSON documents `a` and `b`. -/
def jsonRow2 (a b : String) : QueryResult :=
  QueryResult.row (some (Row.mk [Except.ok (SQLValue.json a), Except.ok (SQLValue.json b)]))

/-- A query result of one row with one column holding SQL NULL. -/
def nullRow : QueryResult :=
  QueryResult.row (some (Row.mk [Except.ok SQLValue.null]))

/-- An environment in which the remote call made at clock `c` is answered by
the entry `c` of `answers`, and by `rest` beyond the list; contexts are never
done, the cluster has no members and file writes succeed. -/
def Env.scripted (answers : List QueryResult) (rest : QueryResult) : Env :=
  { StatusMapName := "__datamigration_migrations"
    DebugLogsListPrefix := "__datamigration_debug_logs_"
    banner := "Hazelcast Data Migration Tool"
    outputDir := "out"
    ctxErr := fun _ _ => none
    sqlExecute := fun _ c _ => answers.getD c rest
    clientInternal := fun _ _ => none
    orderedMembers := fun _ => []
    getList := fun _ _ _ => none
    getAll := fun _ _ _ => Except.ok []
    writeFile := fun _ _ _ => none }

/-- The environment `env` with the context of the command, and every context
derived from it, past its deadline at every clock. -/
def Env.pastDeadline (env : Env) : Env :=
  { env with ctxErr := fun _ _ => some (GoError.sentinel Sentinel.DeadlineExceeded) }

/-- The environment `env` with contexts that are never done and an SQL service
that answers every query with `r`. -/
def Env.answering (env : Env) (r : QueryResult) : Env :=
  { env with
    ctxErr := fun _ _ => none
    sqlExecute := fun _ _ _ => r }

/-- The environment `env` with an SQL service that finds no row until the clock
reaches `deadline` and fails with `context.DeadlineExceeded` from then on. -/
def Env.expiring (env : Env) (deadline : Nat) : Env :=
  { env with sqlExecute := fun _ c _ =>
      if c < deadline then QueryResult.empty
      else QueryResult.execErr (GoError.sentinel Sentinel.DeadlineExceeded) }

/-- The item of the examples. -/
def imap5 : DataStructureInfo := DataStructureInfo.mk "imap5" "IMAP"

/-- The status query of the examples. -/
def statusQueryM1 : String :=
  "SELECT JSON_QUERY(this, '$.status') FROM __datamigration_migrations WHERE __key='m1'"

/-- The progress query of the examples. -/
def progressQueryM1 : String :=
  "SELECT JSON_QUERY(this, '$.remainingTime'), JSON_QUERY(this, '$.completionPercentage') FROM __datamigration_migrations WHERE __key='m1'"

/-- The errors query of the examples. -/
def errorsQueryM1 : String :=
  "SELECT JSON_QUERY(this, '$.errors' WITH WRAPPER) FROM __datamigration_migrations WHERE __key='m1'"

/-- The report query of the examples. -/
def reportQueryM1 : String :=
  "SELECT JSON_QUERY(this, '$.report') FROM __datamigration_migrations WHERE __key='m1'"

/-- The query of the examples for the status object of the first item. -/
def itemQueryM1 : String :=
  "SELECT JSON_QUERY(this, '$.migrations[0]') FROM __datamigration_migrations WHERE __key= 'm1'"

/-- The query of the examples for the whole record. -/
def recordQueryM1 : String :=
  "SELECT this FROM __datamigration_migrations WHERE __key= 'm1'"

/-- A status object of an item that has failed. -/
def failedItemJSON : String :=
  "\x7b\"name\":\"imap5\",\"type\":\"IMAP\",\"status\":\"FAILED\",\"completionPercentage\":12.5,\"error\":\"some error\"\x7d"

/-- A status record with one item, in progress. -/
def recordJSON : String :=
  "\x7b\"status\":\"IN_PROGRESS\",\"migrations\":[\x7b\"name\":\"imap5\",\"type\":\"IMAP\",\"status\":\"IN_PROGRESS\"\x7d]\x7d"

/-- An environment for a run of the status command. The clocks 0 and 2 fall on
calls of `ec.ClientInternal`; the status query of the wait, at clock 1, finds
the migration in progress, the query for the record, at clock 3, finds one
item, the status query of the stage of that item, at clock 4, finds the overall
status CANCELED, and the query for the report finds `done`. -/
def envCanceled : Env :=
  Env.scripted [QueryResult.empty, jsonRow "\"IN_PROGRESS\"", QueryResult.empty,
    jsonRow recordJSON, jsonRow "\"CANCELED\""] (jsonRow "\"done\"")

/-- The environment `envCanceled` with one member whose list of debug logs
cannot be opened. -/
def envCanceledNoLogs : Env :=
  { envCanceled with
    orderedMembers := fun _ => ["member-1"]
    getList := fun _ _ _ => some (GoError.fresh "list unavailable") }

/-- A stage package for the examples: the status stages give the migration
identifier `m1`, and the executor runs the function of the first stage with
fuel for one iteration and returns what it returns. -/
def pkgFirstStage : StagePkg :=
  { ExecuteStatusStages := fun _ => Go.pure (GoAny.str "m1", none)
    Execute := fun _ stages =>
      match stages with
      | [] => Go.pure (GoAny.nil, none)
      | st :: _ => st.Func 1 }

/-- The trace of the status command in the examples up to the stages being built. -/
def traceBuilt : List Event :=
  [Event.clientInternal Context.command,
    Event.println "",
    Event.println "Hazelcast Data Migration Tool",
    Event.query (Context.withTimeout Context.command (30 * Second) 1) statusQueryM1,
    Event.clientInternal Context.command,
    Event.query Context.command recordQueryM1]

/-- A status object of an item that is complete. -/
def completeItemJSON : String :=
  "\x7b\"name\":\"imap5\",\"type\":\"IMAP\",\"status\":\"COMPLETE\",\"completionPercentage\":100\x7d"

/-- A status object of an item that is canceled. -/
def canceledItemJSON : String :=
  "\x7b\"name\":\"imap5\",\"type\":\"IMAP\",\"status\":\"CANCELED\",\"completionPercentage\":40\x7d"

/-- A status object of an item that is in progress. -/
def runningItemJSON : String :=
  "\x7b\"name\":\"imap5\",\"type\":\"IMAP\",\"status\":\"IN_PROGRESS\",\"completionPercentage\":40\x7d"

/-- A query result of one row with two columns holding SQL NULL. -/
def nullRow2 : QueryResult :=
  QueryResult.row (some (Row.mk [Except.ok SQLValue.null, Except.ok SQLValue.null]))

/-- An environment for a run of the status command that succeeds: as
`envCanceled`, with the overall status COMPLETE when the stage of the item
looks at it. -/
def envComplete : Env :=
  Env.scripted [QueryResult.empty, jsonRow "\"IN_PROGRESS\"", QueryResult.empty,
    jsonRow recordJSON, jsonRow "\"COMPLETE\""] (jsonRow "\"done\"")

/-- An environment with three members, of which the second has a list of debug
logs that cannot be read; the report reads `done`. -/
def envSecondMemberFails : Env :=
  { Env.scripted [] (jsonRow "\"done\"") with
    orderedMembers := fun _ => ["member-1", "member-2", "member-3"]
    getAll := fun _ _ name =>
      if name = "__datamigration_debug_logs_member-2" then
        Except.error (GoError.fresh "list unavailable")
      else Except.ok [GoAny.str "line 1"] }

/-- The warnings query of the examples. -/
def warningsQueryM1 : String :=
  "SELECT JSON_QUERY(this, '$.warnings' WITH WRAPPER) FROM __datamigration_migrations WHERE __key='m1'"

/-- A status record with two items. -/
def recordJSON2 : String :=
  "\x7b\"status\":\"IN_PROGRESS\",\"migrations\":[\x7b\"name\":\"imap5\",\"type\":\"IMAP\"\x7d,\x7b\"name\":\"rmap4\",\"type\":\"REPLICATED_MAP\"\x7d]\x7d"

/-- A stage package of the start command for the examples: the identifier is
`m1`, building the stages and executing them each leave a line in the log. -/
def startPkgLogging : StartPkg :=
  { makeMigrationID := Go.pure "m1"
    Build := fun _ id config => do
      Go.emit (Event.logInfo ("stages built for " ++ id ++ " from " ++ config))
      pure []
    Execute := fun _ _ => do
      Go.emit (Event.logInfo "stages executed")
      pure none }

/-- An execution context of the start command without `--yes`, in which the
confirmation is declined. -/
def startEnvDeclined : StartEnv :=
  { autoYes := false
    yesNo := fun _ _ => (false, none)
    args := ["dmt-config"] }

/-- An execution context of the start command with `--yes`. -/
def startEnvAutoYes : StartEnv :=
  { autoYes := true
    yesNo := fun _ _ => (false, none)
    args := ["dmt-config"] }

/-- A Viridian environment whose server answers 401 to the request sent at
clock 0, a new pair of tokens to every POST, and a JSON string to every other
request. -/
def venvExpired : VEnv :=
  { getenv := fun _ => ""
    newRequestErr := fun _ _ => none
    httpDo := fun c _ req =>
      if req.Method = "POST" then
        Except.ok (HTTPResponse.mk 200
          (Except.ok "\x7b\"accessToken\":\"new\",\"refreshToken\":\"r2\"\x7d"))
      else if c = 0 then Except.ok (HTTPResponse.mk 401 (Except.ok "expired"))
      else Except.ok (HTTPResponse.mk 200 (Except.ok "\"done\""))
    marshalRefreshTokenRequest := fun r =>
      Except.ok ("\x7b\"refreshToken\":\"" ++ r ++ "\"\x7d")
    createTemp := fun _ _ => Except.ok "/tmp/clc-download-1"
    ioCopy := fun _ _ _ => none
    ToUpper := fun s => String.mk (s.data.map Char.toUpper) }

/-- An API value with an access token that the server no longer accepts. -/
def apiOld : API := API.mk "old" "r1" 3600

/-- A package whose cluster list holds two clusters of the name `prod`, and
whose custom classes are three, one of them with the ID 0; a download is
recorded in the log. -/
def pkgClusters : ViridianPkg :=
  { ListClusters := fun _ _ =>
      Go.pure ([Cluster.mk "c1" "dev", Cluster.mk "c2" "prod", Cluster.mk "c3" "prod"], none)
    ListClusterTypes := fun _ _ =>
      Go.pure ([ClusterType.mk "Serverless", ClusterType.mk "Dedicated",
        ClusterType.mk "DEDICATED"], none)
    doCustomClassDownload := fun _ _ url name _ _ => do
      Go.emit (Event.logInfo ("download " ++ name ++ " from " ++ url))
      pure none
    unmarshalCustomClasses := fun _ _ =>
      ([CustomClass.mk 7 "a.jar", CustomClass.mk 0 "zero.jar", CustomClass.mk 8 "a.jar"], none) }

/-- A Viridian environment whose server answers 200 with an empty list to
every request. -/
def venvOK : VEnv :=
  { venvExpired with
    httpDo := fun _ _ _ => Except.ok (HTTPResponse.mk 200 (Except.ok "[]")) }

/-- A file system with the template `simple`, whose constants are those the
comment of `createProject` names: hidden files start with a dot, the
extension `.keep` keeps a file, and templates end in `.template`. -/
def projectEnv : ProjectEnv :=
  { keepExt := ".keep"
    hiddenFilePrefix := "."
    underscorePrefix := "_"
    templateExt := ".template"
    TemplatePath := fun t => "/home/templates/" ++ t
    walkDir := fun _ _ =>
      [WalkEntry.mk "/home/templates/simple" (DirEntry.mk "simple" true) none,
        WalkEntry.mk "/home/templates/simple/.gitignore" (DirEntry.mk ".gitignore" false) none,
        WalkEntry.mk "/home/templates/simple/.keep" (DirEntry.mk ".keep" false) none,
        WalkEntry.mk "/home/templates/simple/README.md" (DirEntry.mk "README.md" false) none,
        WalkEntry.mk "/home/templates/simple/_defs.keep" (DirEntry.mk "_defs.keep" false) none,
        WalkEntry.mk "/home/templates/simple/_helper.go" (DirEntry.mk "_helper.go" false) none,
        WalkEntry.mk "/home/templates/simple/default.properties"
          (DirEntry.mk "default.properties" false) none,
        WalkEntry.mk "/home/templates/simple/main.go.template"
          (DirEntry.mk "main.go.template" false) none]
    mkdirAll := fun _ _ _ => none
    applyTemplateAndCopyToTarget := fun _ _ _ _ => none
    copyToTarget := fun _ _ _ _ => none }

/-! ## The computation monad -/

@[simp] theorem Go.bind_eq {α β : Type} (m : Go α) (f : α → Go β) : (m >>= f) = Go.bind m f := rfl

@[simp] theorem Go.pure_eq {α : Type} (a : α) : (Pure.pure a : Go α) = Go.pure a := rfl

@[simp] theorem Go.pure_apply {α : Type} (a : α) (w : World) : Go.pure a w = (Run.ret a, w) := rfl

@[simp] theorem Go.panic_apply {α : Type} (msg : String) (w : World) :
    (Go.panic msg : Go α) w = (Run.panic msg, w) := rfl

@[simp] theorem Go.pending_apply {α : Type} (w : World) :
    (Go.pending : Go α) w = (Run.pending, w) := rfl

@[simp] theorem Go.emit_apply (e : Event) (w : World) :
    Go.emit e w = (Run.ret (), World.mk w.clock (w.trace ++ [e])) := rfl

@[simp] theorem Go.tick_apply (w : World) :
    Go.tick w = (Run.ret (), World.mk (w.clock + 1) w.trace) := rfl

@[simp] theorem Go.now_apply (w : World) : Go.now w = (Run.ret w.clock, w) := rfl

@[simp] theorem Go.bind_apply {α β : Type} (m : Go α) (f : α → Go β) (w : World) :
    Go.bind m f w
      = match m w with
        | (Run.ret a, w1) => f a w1
        | (Run.panic msg, w1) => (Run.panic msg, w1)
        | (Run.pending, w1) => (Run.pending, w1) := rfl

/-! ## The status fetch -/

/-- Whatever the service answers, `querySingleRow` returns. -/
theorem querySingleRow_eq (env : Env) (ctx : Context) (q : String) (w : World) :
    querySingleRow env ctx q w
      = (Run.ret (match env.sqlExecute ctx w.clock q with
          | QueryResult.execErr e => (none, some e)
          | QueryResult.iterErr e => (none, some e)
          | QueryResult.nextErr e => (none, some e)
          | QueryResult.row r => (r, none)
          | QueryResult.empty => (none, some (errorsNew "no rows found"))),
        World.mk (w.clock + 1) (w.trace ++ [Event.query ctx q])) := by
  simp only [querySingleRow, sqlExecute, Go.bind_eq, Go.pure_eq, Go.bind_apply, Go.pure_apply,
    Go.now_apply, Go.emit_apply, Go.tick_apply]
  cases env.sqlExecute ctx w.clock q <;> rfl

/-- Every error of `fetchMigrationStatus` is `migrationStatusNotFoundErr`. -/
theorem fetchMigrationStatus_err (env : Env) (ctx : Context) (id : String) (w : World)
    (s : String) (e : GoError)
    (h : (fetchMigrationStatus env ctx id w).1 = Run.ret (s, some e)) :
    e = migrationStatusNotFoundErr := by
  simp only [fetchMigrationStatus, Go.bind_eq, Go.bind_apply, querySingleRow_eq] at h
  revert h
  cases env.sqlExecute ctx w.clock (statusQuery env id) with
  | row r =>
    cases r with
    | none => simp [rowGet]
    | some row =>
      simp only [rowGet]
      cases row.cols[0]? with
      | none => simp; intro _ h; exact h.symm
      | some c =>
        cases c with
        | error e => simp; intro _ h; exact h.symm
        | ok v =>
          cases v with
          | null => simp; intro _ h; exact h.symm
          | json data => simp [assertJSON]
          | other => simp [assertJSON]
  | _ => simp; intro _ h; exact h.symm

/-- The world after `fetchMigrationStatus`: one query more. -/
theorem fetchMigrationStatus_world (env : Env) (ctx : Context) (id : String) (w : World) :
    (fetchMigrationStatus env ctx id w).2
      = World.mk (w.clock + 1) (w.trace ++ [Event.query ctx (statusQuery env id)]) := by
  simp only [fetchMigrationStatus, Go.bind_eq, Go.bind_apply, querySingleRow_eq]
  cases env.sqlExecute ctx w.clock (statusQuery env id) with
  | row r =>
    cases r with
    | none => simp [rowGet]
    | some row =>
      simp only [rowGet]
      cases row.cols[0]? with
      | none => simp
      | some c =>
        cases c with
        | error e => simp
        | ok v => cases v <;> simp [assertJSON]
  | _ => simp



/-! ## The stages built by `createMigrationStages` -/

/-- The stages that `createMigrationStages` returns refer to a variable `err`
that is nil: each is `mkStage` with `none` for it. -/
theorem createMigrationStages_stages (env : Env) (fuel : Nat) (ctx : Context) (id : String)
    (w w1 : World) (stages : List Stage)
    (h : createMigrationStages env fuel ctx id w = (Run.ret (stages, none), w1)) :
    ∃ dss : List DataStructureInfo,
      stages = dss.enum.map (fun p => mkStage env ctx id none p.1 p.2) := by
  simp only [createMigrationStages, Go.bind_eq, Go.bind_apply, Go.now_apply] at h
  rcases hw : WaitForMigrationToBeInProgress env (Context.withTimeout ctx (30 * Second) w.clock)
    id fuel w with ⟨r, w2⟩
  rw [hw] at h
  cases r with
  | panic msg => simp at h
  | pending => simp at h
  | ret werr =>
    cases werr with
    | some e => simp at h
    | none =>
      simp only [Go.bind_apply] at h
      rcases hg : getDataStructuresToBeMigrated env ctx id w2 with ⟨r2, w3⟩
      rw [hg] at h
      cases r2 with
      | panic msg => simp at h
      | pending => simp at h
      | ret r3 =>
        obtain ⟨dss, err⟩ := r3
        cases err with
        | some e => simp at h
        | none =>
          simp at h
          exact ⟨dss, h.1.symm⟩

/-- C1 (code defect). When an iteration of a stage built by
`createMigrationStages` begins with the context of the command past its
deadline, the stage returns an error with the text `migration failed:
%!w(<nil>)`, which is not `timeoutErr`, wraps nothing and is not classified as
a timeout: line 59 tests the variable `err` of the enclosing function, which is
nil, instead of `ctx.Err()`. -/
theorem C1_deadline_gives_migration_failed (env : Env) (ctx : Context) (id : String) (i : Nat)
    (d : DataStructureInfo) (fuel : Nat) (w : World) :
    (mkStage env.pastDeadline ctx id none i d).Func (fuel + 1) w
      = (Run.ret (GoAny.nil, some (GoError.fresh "migration failed: %!w(<nil>)")), w)
    ∧ GoError.fresh "migration failed: %!w(<nil>)" ≠ timeoutErr
    ∧ IsTimeout (some (GoError.fresh "migration failed: %!w(<nil>)")) = false
    ∧ IsTimeout (some timeoutErr) = true := by
  refine ⟨?_, ?_, ?_, ?_⟩
  · simp [mkStage, stageFunc, pollIteration, overallCheck, errorsIs, Errorf_w, Env.pastDeadline]
  · simp [timeoutErr, Errorf_w]
  · rfl
  · rfl

/-- The loop of `WaitForMigrationToBeInProgress` goes on for ever when the
status query only ever fails. -/
theorem wait_expiring_pending (env : Env) (deadline : Nat) (ctx : Context) (id : String)
    (fuel : Nat) (w : World) :
    (WaitForMigrationToBeInProgress (env.expiring deadline) ctx id fuel w).1 = Run.pending := by
  induction fuel generalizing w with
  | zero => rfl
  | succ n ih =>
    have h := ih (World.mk (w.clock + 1)
      (w.trace ++ [Event.query ctx (statusQuery (env.expiring deadline) id)]))
    by_cases hc : w.clock < deadline
    · simpa [WaitForMigrationToBeInProgress, fetchMigrationStatus, querySingleRow_eq, hc,
        errorsIs, migrationStatusNotFoundErr, GoError.Is, Env.expiring] using h
    · simpa [WaitForMigrationToBeInProgress, fetchMigrationStatus, querySingleRow_eq, hc,
        errorsIs, migrationStatusNotFoundErr, GoError.Is, Env.expiring] using h

/-- C2 (code defect). When the status query finds no row until the clock
reaches `deadline` and fails with `context.DeadlineExceeded` from then on,
`WaitForMigrationToBeInProgress` does not return, whatever the fuel, and so
neither does `createMigrationStages`: `fetchMigrationStatus` turns the error of
the expired context into `migrationStatusNotFoundErr`, on which the loop goes on. -/
theorem C2_wait_never_returns (env : Env) (ctx : Context) (id : String)
    (deadline fuel : Nat) (w : World) :
    (WaitForMigrationToBeInProgress (env.expiring deadline)
        (Context.withTimeout ctx (30 * Second) w.clock) id fuel w).1 = Run.pending
    ∧ (createMigrationStages (env.expiring deadline) fuel ctx id w).1 = Run.pending := by
  have h := wait_expiring_pending env deadline (Context.withTimeout ctx (30 * Second) w.clock)
    id fuel w
  refine ⟨h, ?_⟩
  simp only [createMigrationStages, Go.bind_eq, Go.bind_apply, Go.now_apply]
  rcases hw : WaitForMigrationToBeInProgress (env.expiring deadline)
    (Context.withTimeout ctx (30 * Second) w.clock) id fuel w with ⟨r, w2⟩
  rw [hw] at h
  simp only [] at h
  subst h
  rfl

/-- C4 (code defect). In every iteration in which the overall status is
STARTED, the stage function returns at once with a nil result and a nil error,
after the status query alone: `break statusReaderLoop` on line 73 leaves the
loop, not the `switch`, so the query for the status object of the item is not
made. -/
theorem C4_started_ends_stage (env : Env) (ctx : Context) (id : String) (i : Nat)
    (d : DataStructureInfo) (fuel : Nat) (w : World) :
    (mkStage (env.answering (jsonRow "\"STARTED\"")) ctx id none i d).Func (fuel + 1) w
      = (Run.ret (GoAny.nil, none),
          World.mk (w.clock + 1)
            (w.trace ++ [Event.query ctx (statusQuery (env.answering (jsonRow "\"STARTED\"")) id)])) := by
  have hs : TrimSuffix (TrimPrefix "\"STARTED\"" "\"") "\"" = StatusStarted := by decide
  simp [mkStage, stageFunc, pollIteration, overallCheck, fetchMigrationStatus, querySingleRow_eq,
    Env.answering, jsonRow, rowGet, assertJSON, hs]

/-- C5 (code defect). On a row whose column is SQL NULL, `fetchMigrationErrors`
and `fetchMigrationReport` panic on the type assertion
`rr.(serialization.JSON)`, and so does the stage function on the row of the
status object of its item, here after an overall status IN_PROGRESS. -/
theorem C5_null_column_panics (fuel : Nat) :
    (fetchMigrationErrors (Env.scripted [nullRow] QueryResult.empty) Context.command "m1"
        World.init).1
      = Run.panic "interface conversion: interface \x7b\x7d is nil, not serialization.JSON"
    ∧ (fetchMigrationReport (Env.scripted [nullRow] QueryResult.empty) Context.command "m1"
        World.init).1
      = Run.panic "interface conversion: interface \x7b\x7d is nil, not serialization.JSON"
    ∧ ((mkStage (Env.scripted [jsonRow "\"IN_PROGRESS\"", jsonRow2 "1000" "12.5", nullRow]
          QueryResult.empty) Context.command "m1" none 0 imap5).Func (fuel + 1) World.init).1
      = Run.panic "interface conversion: interface \x7b\x7d is nil, not serialization.JSON" := by
  refine ⟨?_, ?_, ?_⟩
  · rfl
  · rfl
  · rfl

/-! ## The check of the overall status -/

/-- The check of the overall status lets the iteration go on, without any
effect but the status query, when the context is not done and the status is
none of the six statuses of the `switch`. -/
theorem overallCheck_unknown_status (env : Env) (ctx : Context) (id : String)
    (d : DataStructureInfo) (err : Err) (w w1 : World) (s : String)
    (hctx : env.ctxErr ctx w.clock = none)
    (hst : fetchMigrationStatus env ctx id w = (Run.ret (s, none), w1))
    (h1 : s ≠ StatusStarted) (h2 : s ≠ StatusComplete) (h3 : s ≠ StatusFailed)
    (h4 : s ≠ StatusCanceled) (h5 : s ≠ StatusCanceling) (h6 : s ≠ StatusInProgress) :
    overallCheck env ctx id d err w = (Run.ret none, w1) := by
  simp [overallCheck, hctx, hst, h1, h2, h3, h4, h5, h6]

/-! ## The per-item check -/

/-- The per-item check on a row that holds a status object with status FAILED. -/
theorem itemCheck_failed (env : Env) (ctx : Context) (id : String) (i : Nat) (w : World)
    (row : Row) (data : String) (m : DataStructureMigrationStatus)
    (hq : env.sqlExecute ctx w.clock (itemQuery env i id) = QueryResult.row (some row))
    (hcol : row.cols[0]? = some (Except.ok (SQLValue.json data)))
    (hdec : UnmarshalItem data DataStructureMigrationStatus.zero = (m, none))
    (hst : m.Status = StatusFailed) :
    itemCheck env ctx id i w
      = (Run.ret (Step.ret GoAny.nil (some (IgnoreError (errorsNew m.Error)))),
          World.mk (w.clock + 1) (w.trace ++ [Event.query ctx (itemQuery env i id)])) := by
  simp [itemCheck, sqlExecute, hq, rowGet, hcol, assertJSON, hdec, hst, StatusFailed,
    StatusComplete]

/-- C6. When the check of the overall status lets the iteration go on to the
status object of the item, and that object is present with status FAILED, the
stage function returns `stage.IgnoreError` of the error made by `errors.New`
from the field `error` of the object, whose text is that field. -/
theorem C6_item_failed_is_ignorable (env : Env) (ctx : Context) (id : String) (i : Nat)
    (d : DataStructureInfo) (fuel : Nat) (w w1 : World) (row : Row) (data : String)
    (m : DataStructureMigrationStatus)
    (hov : overallCheck env ctx id d none w = (Run.ret none, w1))
    (hq : env.sqlExecute ctx w1.clock (itemQuery env i id) = QueryResult.row (some row))
    (hcol : row.cols[0]? = some (Except.ok (SQLValue.json data)))
    (hdec : UnmarshalItem data DataStructureMigrationStatus.zero = (m, none))
    (hst : m.Status = StatusFailed) :
    (mkStage env ctx id none i d).Func (fuel + 1) w
      = (Run.ret (GoAny.nil, some (IgnoreError (errorsNew m.Error))),
          World.mk (w1.clock + 1) (w1.trace ++ [Event.query ctx (itemQuery env i id)]))
    ∧ (IgnoreError (errorsNew m.Error)).isIgnorable = true
    ∧ (errorsNew m.Error).Error = m.Error := by
  refine ⟨?_, rfl, rfl⟩
  simp [mkStage, stageFunc, pollIteration, hov, itemCheck_failed env ctx id i w1 row data m hq hcol hdec hst]

/-- An instance of C6: the overall status is IN_PROGRESS and the first item has failed. -/
theorem C6_item_failed_is_ignorable_witness :
    (mkStage (Env.scripted [jsonRow "\"IN_PROGRESS\"", jsonRow2 "1000" "12.5",
        jsonRow failedItemJSON] QueryResult.empty) Context.command "m1" none 0 imap5).Func 1
        World.init
      = (Run.ret (GoAny.nil, some (IgnoreError (errorsNew "some error"))),
          World.mk 3 [Event.query Context.command statusQueryM1,
            Event.query Context.command progressQueryM1,
            Event.setText "Migrating IMAP: imap5",
            Event.setProgress (Decimal.mk 125 (-1)),
            Event.setRemainingDuration 1000000000,
            Event.query Context.command itemQueryM1]) :=
  (C6_item_failed_is_ignorable
    (Env.scripted [jsonRow "\"IN_PROGRESS\"", jsonRow2 "1000" "12.5", jsonRow failedItemJSON]
      QueryResult.empty)
    Context.command "m1" 0 imap5 0 World.init
    (World.mk 2 [Event.query Context.command statusQueryM1,
      Event.query Context.command progressQueryM1,
      Event.setText "Migrating IMAP: imap5",
      Event.setProgress (Decimal.mk 125 (-1)),
      Event.setRemainingDuration 1000000000])
    (Row.mk [Except.ok (SQLValue.json failedItemJSON)]) failedItemJSON
    (DataStructureMigrationStatus.mk "imap5" "IMAP" "FAILED" (Decimal.mk 125 (-1)) "some error")
    (by decide) (by rfl) (by rfl) (by decide) (by decide)).1

/-! ## The overall status FAILED -/

/-- What `fetchMigrationErrors` returns on a row that holds a list of strings. -/
theorem fetchMigrationErrors_list (env : Env) (ctx : Context) (id : String) (w : World)
    (row : Row) (data : String) (es : List String)
    (hq : env.sqlExecute ctx w.clock (errorsQuery env id) = QueryResult.row (some row))
    (hcol : row.cols[0]? = some (Except.ok (SQLValue.json data)))
    (hdec : UnmarshalStringSlice data [] = (es, none)) :
    fetchMigrationErrors env ctx id w
      = (Run.ret ("* " ++ "\n* ".intercalate es, none),
          World.mk (w.clock + 1) (w.trace ++ [Event.query ctx (errorsQuery env id)])) := by
  simp [fetchMigrationErrors, querySingleRow_eq, hq, rowGet, hcol, assertJSON, hdec, stringsJoin]

/-- C7. When the overall status is FAILED and the error list of the record is
`es`, the stage function fails with an error that is not wrapped by
`stage.IgnoreError` and whose text is `"* "` followed by the entries of `es`
joined with `"\n* "`. -/
theorem C7_overall_failed_lists_errors (env : Env) (ctx : Context) (id : String) (i : Nat)
    (d : DataStructureInfo) (fuel : Nat) (w w1 : World) (row : Row) (data : String)
    (es : List String)
    (hctx : env.ctxErr ctx w.clock = none)
    (hst : fetchMigrationStatus env ctx id w = (Run.ret (StatusFailed, none), w1))
    (hq : env.sqlExecute ctx w1.clock (errorsQuery env id) = QueryResult.row (some row))
    (hcol : row.cols[0]? = some (Except.ok (SQLValue.json data)))
    (hdec : UnmarshalStringSlice data [] = (es, none)) :
    (mkStage env ctx id none i d).Func (fuel + 1) w
      = (Run.ret (GoAny.nil, some (errorsNew ("* " ++ "\n* ".intercalate es))),
          World.mk (w1.clock + 1) (w1.trace ++ [Event.query ctx (errorsQuery env id)]))
    ∧ (errorsNew ("* " ++ "\n* ".intercalate es)).isIgnorable = false
    ∧ (errorsNew ("* " ++ "\n* ".intercalate es)).Error = "* " ++ "\n* ".intercalate es := by
  refine ⟨?_, rfl, rfl⟩
  simp [mkStage, stageFunc, pollIteration, overallCheck, hctx, hst,
    fetchMigrationErrors_list env ctx id w1 row data es hq hcol hdec, StatusFailed, StatusStarted,
    StatusComplete]

/-- An instance of C7: the error list `["e1","e2"]` gives the text `* e1\n* e2`. -/
theorem C7_overall_failed_lists_errors_witness :
    (mkStage (Env.scripted [jsonRow "\"FAILED\"", jsonRow "[\"e1\",\"e2\"]"] QueryResult.empty)
        Context.command "m1" none 0 imap5).Func 1 World.init
      = (Run.ret (GoAny.nil, some (GoError.fresh "* e1\n* e2")),
          World.mk 2 [Event.query Context.command statusQueryM1,
            Event.query Context.command errorsQueryM1]) :=
  (C7_overall_failed_lists_errors
    (Env.scripted [jsonRow "\"FAILED\"", jsonRow "[\"e1\",\"e2\"]"] QueryResult.empty)
    Context.command "m1" 0 imap5 0 World.init
    (World.mk 1 [Event.query Context.command statusQueryM1])
    (Row.mk [Except.ok (SQLValue.json "[\"e1\",\"e2\"]")]) "[\"e1\",\"e2\"]" ["e1", "e2"]
    (by rfl) (by decide) (by rfl) (by rfl) (by decide)).1

/-! ## The status command -/

/-- C3 (as stated, refuted). In a run in which the pipeline returns
`ErrUserCancelled` and `finalizeMigration` returns `list unavailable`, the
command returns `finalizing migration: list unavailable`, which wraps the error
of the finalizer and not the error of the pipeline; the same run with a
finalizer that succeeds returns the error of the pipeline. -/
theorem C3_finalize_error_replaces_pipeline_error :
    (pkgFirstStage.Execute Context.command [mkStage envCanceledNoLogs Context.command "m1" none 0 imap5]
        (World.mk 4 traceBuilt)).1 = Run.ret (GoAny.nil, some ErrUserCancelled)
    ∧ (finalizeMigration envCanceledNoLogs Context.command "m1" "out"
        (World.mk 5 (traceBuilt ++ [Event.query Context.command statusQueryM1]))).1
        = Run.ret (some (GoError.fresh "list unavailable"))
    ∧ (StatusCmd.Exec envCanceledNoLogs pkgFirstStage 1 Context.command World.init).1
        = Run.ret (some (GoError.wrap "finalizing migration: list unavailable"
            (GoError.fresh "list unavailable")))
    ∧ errorsIs (some (GoError.wrap "finalizing migration: list unavailable"
        (GoError.fresh "list unavailable"))) Sentinel.ErrUserCancelled = false
    ∧ (StatusCmd.Exec envCanceled pkgFirstStage 1 Context.command World.init).1
        = Run.ret (some ErrUserCancelled) := by
  refine ⟨?_, ?_, ?_, ?_, ?_⟩ <;> rfl

/-- C3 (amended). Once the pipeline of the item stages has returned an error
`e1`, the command returns what `finalizeMigration` decides: if the finalizer
returns an error `e2`, the command returns `finalizing migration: ` followed by
the text of `e2`, wrapping `e2`; only if the finalizer returns nil does the
command return `e1`. -/
theorem C3_finalize_error_first (env : Env) (pkg : StagePkg) (fuel : Nat) (ctx : Context)
    (w w1 w2 w3 w4 w5 : World) (id : String) (stages : List Stage) (v : GoAny) (e1 : GoError)
    (err2 : Err)
    (h1 : clientInternal env ctx w = (Run.ret none, w1))
    (h2 : pkg.ExecuteStatusStages ctx
      (World.mk w1.clock (w1.trace ++ [Event.println "", Event.println env.banner]))
        = (Run.ret (GoAny.str id, none), w2))
    (h3 : createMigrationStages env fuel ctx id w2 = (Run.ret (stages, none), w3))
    (h4 : pkg.Execute ctx stages w3 = (Run.ret (v, some e1), w4))
    (h5 : finalizeMigration env ctx id env.outputDir w4 = (Run.ret err2, w5)) :
    StatusCmd.Exec env pkg fuel ctx w
      = (Run.ret (match err2 with
          | some e2 => some (GoError.wrap ("finalizing migration: " ++ e2.Error) e2)
          | none => some e1), w5) := by
  cases err2 with
  | some e2 => simp [StatusCmd.Exec, h1, h2, h3, h4, h5, assertString, Errorf_w]
  | none => simp [StatusCmd.Exec, h1, h2, h3, h4, h5, assertString]

/-- An instance of the amended C3: the pipeline is cancelled and the logs of
the member cannot be fetched. -/
theorem C3_finalize_error_first_witness :
    StatusCmd.Exec envCanceledNoLogs pkgFirstStage 1 Context.command World.init
      = (Run.ret (some (GoError.wrap "finalizing migration: list unavailable"
            (GoError.fresh "list unavailable"))),
          World.mk 6 (traceBuilt ++ [Event.query Context.command statusQueryM1,
            Event.getList Context.command "__datamigration_debug_logs_member-1"])) :=
  C3_finalize_error_first envCanceledNoLogs pkgFirstStage 1 Context.command World.init
    (World.mk 1 [Event.clientInternal Context.command])
    (World.mk 1 [Event.clientInternal Context.command, Event.println "",
      Event.println "Hazelcast Data Migration Tool"])
    (World.mk 4 traceBuilt)
    (World.mk 5 (traceBuilt ++ [Event.query Context.command statusQueryM1]))
    (World.mk 6 (traceBuilt ++ [Event.query Context.command statusQueryM1,
      Event.getList Context.command "__datamigration_debug_logs_member-1"]))
    "m1" [mkStage envCanceledNoLogs Context.command "m1" none 0 imap5] GoAny.nil ErrUserCancelled
    (some (GoError.fresh "list unavailable"))
    (by rfl) (by rfl) (by rfl) (by rfl) (by rfl)

/-! ## The finalizer -/

/-- The world after `fetchMigrationReport`: one query more. -/
theorem fetchMigrationReport_world (env : Env) (ctx : Context) (id : String) (w : World) :
    (fetchMigrationReport env ctx id w).2
      = World.mk (w.clock + 1) (w.trace ++ [Event.query ctx (reportQuery env id)]) := by
  simp only [fetchMigrationReport, Go.bind_eq, Go.bind_apply, querySingleRow_eq]
  cases env.sqlExecute ctx w.clock (reportQuery env id) with
  | row r =>
    cases r with
    | none => simp
    | some row =>
      simp only [rowGet]
      cases row.cols[0]? with
      | none => simp
      | some c =>
        cases c with
        | error e => simp
        | ok v => cases v <;> simp [assertJSON]
  | _ => simp

/-- Logging the lines of a member writes no file. -/
theorem logMemberLines_fileWrites (id uuid : String) (lines : List GoAny) (w : World) :
    fileWrites (logMemberLines id uuid lines w).2.trace = fileWrites w.trace := by
  induction lines generalizing w with
  | nil => rfl
  | cons line rest ih =>
    cases line with
    | str l =>
      simp only [logMemberLines, Go.bind_eq, Go.bind_apply, Go.emit_apply]
      rw [ih]
      simp [fileWrites]
    | nil => rfl
    | other => rfl

/-- Fetching the logs of the members writes no file. -/
theorem saveMemberLogsOf_fileWrites (env : Env) (ctx : Context) (id : String)
    (members : List String) (w : World) :
    fileWrites (saveMemberLogsOf env ctx id members w).2.trace = fileWrites w.trace := by
  induction members generalizing w with
  | nil => rfl
  | cons uuid rest ih =>
    simp only [saveMemberLogsOf, Go.bind_eq, Go.bind_apply, Go.now_apply, Go.emit_apply,
      Go.tick_apply]
    cases env.getList ctx w.clock (env.DebugLogsListPrefix ++ uuid) with
    | some e => simp [fileWrites]
    | none =>
      simp only [Go.bind_apply, Go.now_apply, Go.emit_apply, Go.tick_apply]
      cases env.getAll ctx (w.clock + 1) (env.DebugLogsListPrefix ++ uuid) with
      | error e => simp [fileWrites]
      | ok logs =>
        simp only [Go.bind_eq, Go.bind_apply]
        have hl := logMemberLines_fileWrites id uuid logs
          (World.mk (w.clock + 1 + 1) (w.trace ++ [Event.getList ctx (env.DebugLogsListPrefix ++ uuid)]
            ++ [Event.getAll ctx (env.DebugLogsListPrefix ++ uuid)]))
        rcases hr : logMemberLines id uuid logs
          (World.mk (w.clock + 1 + 1) (w.trace ++ [Event.getList ctx (env.DebugLogsListPrefix ++ uuid)]
            ++ [Event.getAll ctx (env.DebugLogsListPrefix ++ uuid)])) with ⟨r, w2⟩
        rw [hr] at hl
        cases r with
        | ret u =>
          simp only []
          rw [ih]
          simpa [fileWrites] using hl
        | panic msg => simpa [fileWrites] using hl
        | pending => simpa [fileWrites] using hl

/-- C8. After the logs of the members have been fetched and the report has been
fetched as `report`, `finalizeMigration` writes a file if and only if `report`
is not empty: the file writes of the run are then the one write of `report` to
the file `migration_report_<migrationID>.txt` joined to the output directory,
and the result is the outcome of that write; with an empty report nothing is
written and the result is nil. -/
theorem C8_report_written_iff_nonempty (env : Env) (ctx : Context) (id dir : String)
    (w w1 w2 : World) (report : String)
    (hlogs : saveMemberLogs env ctx id w = (Run.ret none, w1))
    (hrep : fetchMigrationReport env ctx id w1 = (Run.ret (report, none), w2)) :
    fileWrites (finalizeMigration env ctx id dir w).2.trace
      = fileWrites w.trace
        ++ (if report = "" then []
            else [(filepathJoin [dir, "migration_report_" ++ id ++ ".txt"], report)])
    ∧ (report = "" → (finalizeMigration env ctx id dir w).1 = Run.ret none)
    ∧ (report ≠ "" → (finalizeMigration env ctx id dir w).1
        = Run.ret (match env.writeFile w2.clock
            (filepathJoin [dir, "migration_report_" ++ id ++ ".txt"]) report with
          | some e => some (GoError.wrap ("saving report to file: " ++ e.Error) e)
          | none => none)) := by
  have hw1 : fileWrites w1.trace = fileWrites w.trace := by
    have h := saveMemberLogsOf_fileWrites env ctx id (env.orderedMembers w.clock) w
    simp only [saveMemberLogs, Go.bind_eq, Go.bind_apply, Go.now_apply] at hlogs
    rw [hlogs] at h
    exact h
  have hw2 : fileWrites w2.trace = fileWrites w1.trace := by
    have h := fetchMigrationReport_world env ctx id w1
    rw [hrep] at h
    simp only [] at h
    rw [h]
    simp [fileWrites]
  by_cases hempty : report = ""
  · subst hempty
    simp [finalizeMigration, hlogs, saveReportToFile, hrep, hw2, hw1]
  · simp only [finalizeMigration, Go.bind_eq, Go.bind_apply, hlogs, saveReportToFile, hrep,
      osWriteFile, Go.now_apply, Go.emit_apply, Go.tick_apply, hempty, if_false, Go.pure_eq,
      Go.pure_apply]
    cases env.writeFile w2.clock (filepathJoin [dir, "migration_report_" ++ id ++ ".txt"]) report with
    | none =>
      have h := hw2.trans hw1
      simp only [fileWrites] at h
      simp [fileWrites, h]
    | some e =>
      have h := hw2.trans hw1
      simp only [fileWrites] at h
      simp [fileWrites, h, Errorf_w]

/-- An instance of C8: the report `done` is written to `out/migration_report_m1.txt`. -/
theorem C8_report_written_iff_nonempty_witness :
    fileWrites (finalizeMigration (Env.scripted [jsonRow "\"done\""] QueryResult.empty)
        Context.command "m1" "out" World.init).2.trace
      = [("out/migration_report_m1.txt", "done")] :=
  (C8_report_written_iff_nonempty (Env.scripted [jsonRow "\"done\""] QueryResult.empty)
    Context.command "m1" "out" World.init World.init
    (World.mk 1 [Event.query Context.command reportQueryM1]) "done" (by rfl) (by rfl)).1

/-! ## The wait for the migration to be in progress -/

/-- One more iteration of the wait after a status fetch that failed. -/
theorem wait_retry_on_error (env : Env) (ctx : Context) (id : String) (fuel : Nat)
    (w w1 : World) (s : String) (e : GoError)
    (h : fetchMigrationStatus env ctx id w = (Run.ret (s, some e), w1)) :
    WaitForMigrationToBeInProgress env ctx id (fuel + 1) w
      = WaitForMigrationToBeInProgress env ctx id fuel w1 := by
  have he : e = migrationStatusNotFoundErr :=
    fetchMigrationStatus_err env ctx id w s e (by rw [h])
  subst he
  simp [WaitForMigrationToBeInProgress, h, errorsIs, migrationStatusNotFoundErr, GoError.Is]

/-- One more iteration of the wait after a status that is neither FAILED nor IN_PROGRESS. -/
theorem wait_retry_on_other (env : Env) (ctx : Context) (id : String) (fuel : Nat)
    (w w1 : World) (s : String)
    (h : fetchMigrationStatus env ctx id w = (Run.ret (s, none), w1))
    (hf : s ≠ StatusFailed) (hp : s ≠ StatusInProgress) :
    WaitForMigrationToBeInProgress env ctx id (fuel + 1) w
      = WaitForMigrationToBeInProgress env ctx id fuel w1 := by
  simp [WaitForMigrationToBeInProgress, h, hf, hp]

/-- The wait ends with success on the status IN_PROGRESS. -/
theorem wait_done_in_progress (env : Env) (ctx : Context) (id : String) (fuel : Nat)
    (w w1 : World)
    (h : fetchMigrationStatus env ctx id w = (Run.ret (StatusInProgress, none), w1)) :
    WaitForMigrationToBeInProgress env ctx id (fuel + 1) w = (Run.ret none, w1) := by
  simp [WaitForMigrationToBeInProgress, h, StatusInProgress, StatusFailed]

/-- C9. When the status fetches of the loop give a finite sequence `rs` of
outcomes, each a failure (not found) or a status other than FAILED and
IN_PROGRESS, and then the status IN_PROGRESS, `WaitForMigrationToBeInProgress`
returns nil, given fuel for more iterations than `rs` has entries. -/
theorem C9_wait_succeeds_on_in_progress (env : Env) (ctx : Context) (id : String)
    (rs : List (String × Err)) (w : World) (fuel : Nat)
    (hnd : ∀ r ∈ rs, r.2 ≠ none ∨ (r.1 ≠ StatusFailed ∧ r.1 ≠ StatusInProgress))
    (hobs : statusResponses env ctx id (rs.length + 1) w
      = (rs ++ [(StatusInProgress, none)]).map Run.ret)
    (hfuel : rs.length < fuel) :
    (WaitForMigrationToBeInProgress env ctx id fuel w).1 = Run.ret none := by
  induction rs generalizing w fuel with
  | nil =>
    obtain ⟨n, rfl⟩ : ∃ n, fuel = n + 1 := ⟨fuel - 1, by simp at hfuel; omega⟩
    simp only [statusResponses, List.length_nil, List.nil_append, List.map_cons, List.map_nil,
      List.cons.injEq, and_true] at hobs
    rcases hf : fetchMigrationStatus env ctx id w with ⟨r, w1⟩
    rw [hf] at hobs
    simp only [] at hobs
    subst hobs
    rw [wait_done_in_progress env ctx id n w w1 hf]
  | cons r rest ih =>
    obtain ⟨n, rfl⟩ : ∃ n, fuel = n + 1 := ⟨fuel - 1, by simp at hfuel; omega⟩
    simp only [List.length_cons, statusResponses, List.cons_append, List.map_cons,
      List.cons.injEq] at hobs
    obtain ⟨hhead, htail⟩ := hobs
    rcases hf : fetchMigrationStatus env ctx id w with ⟨r0, w1⟩
    rw [hf] at hhead htail
    simp only [] at hhead htail
    subst hhead
    have hrest : ∀ r ∈ rest, r.2 ≠ none ∨ (r.1 ≠ StatusFailed ∧ r.1 ≠ StatusInProgress) :=
      fun r' hr' => hnd r' (List.mem_cons_of_mem _ hr')
    have hlen : rest.length < n := by simp at hfuel; omega
    have hthis := hnd r (List.mem_cons_self _ _)
    obtain ⟨s, err⟩ := r
    cases err with
    | some e =>
      rw [wait_retry_on_error env ctx id n w w1 s e hf]
      exact ih w1 n hrest htail hlen
    | none =>
      rcases hthis with hne | ⟨hf1, hp1⟩
      · exact absurd rfl hne
      · rw [wait_retry_on_other env ctx id n w w1 s hf hf1 hp1]
        exact ih w1 n hrest htail hlen

/-- An instance of C9: no row, then STARTED, then IN_PROGRESS. -/
theorem C9_wait_succeeds_on_in_progress_witness :
    (WaitForMigrationToBeInProgress
        (Env.scripted [QueryResult.empty, jsonRow "\"STARTED\"", jsonRow "\"IN_PROGRESS\""]
          QueryResult.empty)
        Context.command "m1" 3 World.init).1 = Run.ret none :=
  C9_wait_succeeds_on_in_progress
    (Env.scripted [QueryResult.empty, jsonRow "\"STARTED\"", jsonRow "\"IN_PROGRESS\""]
      QueryResult.empty)
    Context.command "m1"
    [("", some migrationStatusNotFoundErr), ("STARTED", none)] World.init 3
    (by decide) (by decide) (by decide)

/-- What `WaitForMigrationToBeInProgress` returns on the status FAILED when
`fetchMigrationErrors` returns: the text of the error list as an error, or the
error of the fetch, wrapped. -/
theorem wait_failed_returns_error (env : Env) (ctx : Context) (id : String) (fuel : Nat)
    (w w1 w2 : World) (errs : String) (err : Err)
    (h : fetchMigrationStatus env ctx id w = (Run.ret (StatusFailed, none), w1))
    (he : fetchMigrationErrors env ctx id w1 = (Run.ret (errs, err), w2)) :
    WaitForMigrationToBeInProgress env ctx id (fuel + 1) w
      = (Run.ret (match err with
          | some e => some (GoError.wrap
              ("migration failed and dmt cannot fetch migration errors: " ++ e.Error) e)
          | none => some (GoError.fresh errs)), w2) := by
  cases err with
  | some e => simp [WaitForMigrationToBeInProgress, h, he, Errorf_w]
  | none => simp [WaitForMigrationToBeInProgress, h, he, errorsNew]

/-- C10 (code defect). When the first status observed is FAILED and the column
of the error list is SQL NULL, `WaitForMigrationToBeInProgress` does not return
an error: it panics on the type assertion of `fetchMigrationErrors`, and so
does `createMigrationStages`. -/
theorem C10_failed_with_null_errors_panics (fuel : Nat) :
    (WaitForMigrationToBeInProgress (Env.scripted [jsonRow "\"FAILED\"", nullRow] QueryResult.empty)
        Context.command "m1" (fuel + 1) World.init).1
      = Run.panic "interface conversion: interface \x7b\x7d is nil, not serialization.JSON"
    ∧ (createMigrationStages (Env.scripted [jsonRow "\"FAILED\"", nullRow] QueryResult.empty)
        (fuel + 1) Context.command "m1" World.init).1
      = Run.panic "interface conversion: interface \x7b\x7d is nil, not serialization.JSON" := by
  refine ⟨?_, ?_⟩ <;> rfl

/-! ## Cancellation and completion -/

/-- The stage function ends with what the check of the overall status decides. -/
theorem stageFunc_of_overall (env : Env) (ctx : Context) (id : String) (i : Nat)
    (d : DataStructureInfo) (err : Err) (fuel : Nat) (w w1 : World) (step : Step)
    (hov : overallCheck env ctx id d err w = (Run.ret (some step), w1)) :
    stageFunc env ctx id i d err (fuel + 1) w
      = (match step with
        | Step.ret v e => Go.pure (v, e)
        | Step.brk execErr => Go.pure (GoAny.nil, execErr)
        | Step.next => stageFunc env ctx id i d err fuel) w1 := by
  simp [stageFunc, pollIteration, hov]

/-- The stage function goes on with the per-item check when the check of the
overall status lets it. -/
theorem stageFunc_of_item (env : Env) (ctx : Context) (id : String) (i : Nat)
    (d : DataStructureInfo) (err : Err) (fuel : Nat) (w w1 w2 : World) (step : Step)
    (hov : overallCheck env ctx id d err w = (Run.ret none, w1))
    (hit : itemCheck env ctx id i w1 = (Run.ret step, w2)) :
    stageFunc env ctx id i d err (fuel + 1) w
      = (match step with
        | Step.ret v e => Go.pure (v, e)
        | Step.brk execErr => Go.pure (GoAny.nil, execErr)
        | Step.next => stageFunc env ctx id i d err fuel) w2 := by
  simp [stageFunc, pollIteration, hov, hit]

/-- The check of the overall status on a status that was fetched: the `switch`
of lines 71 to 97 without the cases that fetch more. -/
theorem overallCheck_canceled (env : Env) (ctx : Context) (id : String)
    (d : DataStructureInfo) (err : Err) (w w1 : World) (s : String)
    (hctx : env.ctxErr ctx w.clock = none)
    (hst : fetchMigrationStatus env ctx id w = (Run.ret (s, none), w1))
    (hs : s = StatusCanceled ∨ s = StatusCanceling) :
    overallCheck env ctx id d err w
      = (Run.ret (some (Step.brk (some ErrUserCancelled))), w1) := by
  rcases hs with hs | hs <;> subst hs <;>
    simp [overallCheck, hctx, hst, StatusCanceled, StatusCanceling, StatusStarted,
      StatusComplete, StatusFailed]

/-- The check of the overall status COMPLETE. -/
theorem overallCheck_complete (env : Env) (ctx : Context) (id : String)
    (d : DataStructureInfo) (err : Err) (w w1 : World)
    (hctx : env.ctxErr ctx w.clock = none)
    (hst : fetchMigrationStatus env ctx id w = (Run.ret (StatusComplete, none), w1)) :
    overallCheck env ctx id d err w = (Run.ret (some (Step.ret GoAny.nil none)), w1) := by
  simp [overallCheck, hctx, hst, StatusStarted, StatusComplete]

/-- The per-item check on a row that holds a status object: the `switch` of
lines 125 to 133 and the sleep of line 135. -/
theorem itemCheck_row (env : Env) (ctx : Context) (id : String) (i : Nat) (w : World)
    (row : Row) (data : String) (m : DataStructureMigrationStatus)
    (hq : env.sqlExecute ctx w.clock (itemQuery env i id) = QueryResult.row (some row))
    (hcol : row.cols[0]? = some (Except.ok (SQLValue.json data)))
    (hdec : UnmarshalItem data DataStructureMigrationStatus.zero = (m, none)) :
    itemCheck env ctx id i w
      = if m.Status = StatusComplete then
          (Run.ret (Step.ret GoAny.nil none),
            World.mk (w.clock + 1) (w.trace ++ [Event.query ctx (itemQuery env i id)]))
        else if m.Status = StatusFailed then
          (Run.ret (Step.ret GoAny.nil (some (IgnoreError (errorsNew m.Error)))),
            World.mk (w.clock + 1) (w.trace ++ [Event.query ctx (itemQuery env i id)]))
        else if m.Status = StatusCanceled then
          (Run.ret (Step.brk (some ErrUserCancelled)),
            World.mk (w.clock + 1) (w.trace ++ [Event.query ctx (itemQuery env i id)]))
        else
          (Run.ret Step.next,
            World.mk (w.clock + 2)
              (w.trace ++ [Event.query ctx (itemQuery env i id), Event.sleep (1 * Second)])) := by
  simp only [itemCheck, sqlExecute, Go.bind_eq, Go.bind_apply, Go.now_apply, Go.emit_apply,
    Go.tick_apply, Go.pure_eq, Go.pure_apply, hq, rowGet, hcol, assertJSON, hdec, timeSleep]
  split_ifs <;> simp

/-- The per-item check when the query finds no row. -/
theorem itemCheck_empty (env : Env) (ctx : Context) (id : String) (i : Nat) (w : World)
    (hq : env.sqlExecute ctx w.clock (itemQuery env i id) = QueryResult.empty) :
    itemCheck env ctx id i w
      = (Run.ret Step.next,
          World.mk (w.clock + 2)
            (w.trace ++ [Event.query ctx (itemQuery env i id), Event.sleep (1 * Second)])) := by
  simp [itemCheck, sqlExecute, hq, timeSleep]

/-- C11. When the overall status is CANCELED or CANCELING, and when the check
of the overall status lets the iteration go on and the status object of the
item is present with status CANCELED, the stage function fails with
`ErrUserCancelled`, for which `IsUserCancelled` holds and which is not wrapped
by `stage.IgnoreError`. -/
theorem C11_cancel_is_user_cancelled (env : Env) (ctx : Context) (id : String) (i : Nat)
    (d : DataStructureInfo) (fuel : Nat) (w w1 : World) (s : String) (row : Row)
    (data : String) (m : DataStructureMigrationStatus) :
    (env.ctxErr ctx w.clock = none →
      fetchMigrationStatus env ctx id w = (Run.ret (s, none), w1) →
      (s = StatusCanceled ∨ s = StatusCanceling) →
      (mkStage env ctx id none i d).Func (fuel + 1) w
        = (Run.ret (GoAny.nil, some ErrUserCancelled), w1))
    ∧ (overallCheck env ctx id d none w = (Run.ret none, w1) →
      env.sqlExecute ctx w1.clock (itemQuery env i id) = QueryResult.row (some row) →
      row.cols[0]? = some (Except.ok (SQLValue.json data)) →
      UnmarshalItem data DataStructureMigrationStatus.zero = (m, none) →
      m.Status = StatusCanceled →
      (mkStage env ctx id none i d).Func (fuel + 1) w
        = (Run.ret (GoAny.nil, some ErrUserCancelled),
            World.mk (w1.clock + 1) (w1.trace ++ [Event.query ctx (itemQuery env i id)])))
    ∧ IsUserCancelled (some ErrUserCancelled) = true
    ∧ ErrUserCancelled.isIgnorable = false := by
  refine ⟨?_, ?_, rfl, rfl⟩
  · intro hctx hst hs
    have hov := overallCheck_canceled env ctx id d none w w1 s hctx hst hs
    simp [mkStage, stageFunc_of_overall env ctx id i d none fuel w w1 _ hov]
  · intro hov hq hcol hdec hm
    have hit := itemCheck_row env ctx id i w1 row data m hq hcol hdec
    simp only [hm, StatusCanceled, StatusComplete, StatusFailed] at hit
    simp [mkStage, stageFunc_of_item env ctx id i d none fuel w w1 _ _ hov hit]

/-- An instance of C11: the overall status CANCELING, and an item that is
CANCELED while the overall status is IN_PROGRESS. -/
theorem C11_cancel_is_user_cancelled_witness :
    (mkStage (Env.scripted [jsonRow "\"CANCELING\""] QueryResult.empty) Context.command "m1"
        none 0 imap5).Func 1 World.init
      = (Run.ret (GoAny.nil, some ErrUserCancelled),
          World.mk 1 [Event.query Context.command statusQueryM1])
    ∧ ((mkStage (Env.scripted [jsonRow "\"IN_PROGRESS\"", jsonRow2 "1000" "12.5",
        jsonRow canceledItemJSON] QueryResult.empty) Context.command "m1" none 0 imap5).Func 1
        World.init).1
      = Run.ret (GoAny.nil, some ErrUserCancelled) :=
  ⟨(C11_cancel_is_user_cancelled (Env.scripted [jsonRow "\"CANCELING\""] QueryResult.empty)
      Context.command "m1" 0 imap5 0 World.init
      (World.mk 1 [Event.query Context.command statusQueryM1]) "CANCELING"
      (Row.mk []) "" DataStructureMigrationStatus.zero).1 (by rfl) (by rfl) (by decide),
    by
      rw [(C11_cancel_is_user_cancelled
        (Env.scripted [jsonRow "\"IN_PROGRESS\"", jsonRow2 "1000" "12.5",
          jsonRow canceledItemJSON] QueryResult.empty)
        Context.command "m1" 0 imap5 0 World.init
        (World.mk 2 [Event.query Context.command statusQueryM1,
          Event.query Context.command progressQueryM1,
          Event.setText "Migrating IMAP: imap5",
          Event.setProgress (Decimal.mk 125 (-1)),
          Event.setRemainingDuration 1000000000]) ""
        (Row.mk [Except.ok (SQLValue.json canceledItemJSON)]) canceledItemJSON
        (DataStructureMigrationStatus.mk "imap5" "IMAP" "CANCELED" (Decimal.mk 40 0) "")).2.1
        (by rfl) (by rfl) (by rfl) (by decide) (by decide)]⟩

/-- C12. When the overall status is COMPLETE, the stage function returns a nil
result and a nil error right after the status query; when the check of the
overall status lets the iteration go on and the status object of the item is
present with status COMPLETE, it returns them right after the query for that
object. In neither case is there a sleep or a further query. -/
theorem C12_complete_returns_success (env : Env) (ctx : Context) (id : String) (i : Nat)
    (d : DataStructureInfo) (fuel : Nat) (w w1 : World) (row : Row)
    (data : String) (m : DataStructureMigrationStatus) :
    (env.ctxErr ctx w.clock = none →
      fetchMigrationStatus env ctx id w = (Run.ret (StatusComplete, none), w1) →
      (mkStage env ctx id none i d).Func (fuel + 1) w = (Run.ret (GoAny.nil, none), w1))
    ∧ (overallCheck env ctx id d none w = (Run.ret none, w1) →
      env.sqlExecute ctx w1.clock (itemQuery env i id) = QueryResult.row (some row) →
      row.cols[0]? = some (Except.ok (SQLValue.json data)) →
      UnmarshalItem data DataStructureMigrationStatus.zero = (m, none) →
      m.Status = StatusComplete →
      (mkStage env ctx id none i d).Func (fuel + 1) w
        = (Run.ret (GoAny.nil, none),
            World.mk (w1.clock + 1) (w1.trace ++ [Event.query ctx (itemQuery env i id)]))) := by
  refine ⟨?_, ?_⟩
  · intro hctx hst
    have hov := overallCheck_complete env ctx id d none w w1 hctx hst
    simp [mkStage, stageFunc_of_overall env ctx id i d none fuel w w1 _ hov]
  · intro hov hq hcol hdec hm
    have hit := itemCheck_row env ctx id i w1 row data m hq hcol hdec
    simp only [hm, if_true] at hit
    simp [mkStage, stageFunc_of_item env ctx id i d none fuel w w1 _ _ hov hit]

/-- An instance of C12: the overall status COMPLETE, and an item that is
COMPLETE while the overall status is IN_PROGRESS. -/
theorem C12_complete_returns_success_witness :
    (mkStage (Env.scripted [jsonRow "\"COMPLETE\""] QueryResult.empty) Context.command "m1"
        none 0 imap5).Func 1 World.init
      = (Run.ret (GoAny.nil, none), World.mk 1 [Event.query Context.command statusQueryM1])
    ∧ ((mkStage (Env.scripted [jsonRow "\"IN_PROGRESS\"", jsonRow2 "1000" "12.5",
        jsonRow completeItemJSON] QueryResult.empty) Context.command "m1" none 0 imap5).Func 1
        World.init).1
      = Run.ret (GoAny.nil, none) :=
  ⟨(C12_complete_returns_success (Env.scripted [jsonRow "\"COMPLETE\""] QueryResult.empty)
      Context.command "m1" 0 imap5 0 World.init
      (World.mk 1 [Event.query Context.command statusQueryM1])
      (Row.mk []) "" DataStructureMigrationStatus.zero).1 (by rfl) (by rfl),
    by
      rw [(C12_complete_returns_success
        (Env.scripted [jsonRow "\"IN_PROGRESS\"", jsonRow2 "1000" "12.5",
          jsonRow completeItemJSON] QueryResult.empty)
        Context.command "m1" 0 imap5 0 World.init
        (World.mk 2 [Event.query Context.command statusQueryM1,
          Event.query Context.command progressQueryM1,
          Event.setText "Migrating IMAP: imap5",
          Event.setProgress (Decimal.mk 125 (-1)),
          Event.setRemainingDuration 1000000000])
        (Row.mk [Except.ok (SQLValue.json completeItemJSON)]) completeItemJSON
        (DataStructureMigrationStatus.mk "imap5" "IMAP" "COMPLETE" (Decimal.mk 100 0) "")).2
        (by rfl) (by rfl) (by rfl) (by decide) (by decide)]⟩

/-! ## The overall status IN_PROGRESS -/

/-- The check of the overall status IN_PROGRESS, once `fetchOverallProgress`
has returned: the logger and the status reporter are told, and the iteration
goes on to the per-item check. -/
theorem overallCheck_in_progress (env : Env) (ctx : Context) (id : String)
    (d : DataStructureInfo) (err : Err) (w w1 w2 : World) (p : Int × Decimal × Err)
    (hctx : env.ctxErr ctx w.clock = none)
    (hst : fetchMigrationStatus env ctx id w = (Run.ret (StatusInProgress, none), w1))
    (hp : fetchOverallProgress env ctx id w1 = (Run.ret p, w2)) :
    overallCheck env ctx id d err w
      = (Run.ret none, World.mk w2.clock (w2.trace ++ progressEvents d p)) := by
  obtain ⟨rt, cp, perr⟩ := p
  cases perr with
  | some e =>
    simp [overallCheck, hctx, hst, hp, progressEvents, StatusInProgress, StatusStarted,
      StatusComplete, StatusFailed, StatusCanceled, StatusCanceling]
  | none =>
    simp [overallCheck, hctx, hst, hp, progressEvents, StatusInProgress, StatusStarted,
      StatusComplete, StatusFailed, StatusCanceled, StatusCanceling]

/-- C13. In an iteration in which the overall status is IN_PROGRESS and the
query for the status object of the item finds no row, or finds the object with
a status other than COMPLETE, FAILED and CANCELED, the stage function does not
return: the iteration ends with the sleep of one second, and the loop goes on
with the next iteration in the world after that sleep. -/
theorem C13_poll_again_after_sleep (env : Env) (ctx : Context) (id : String) (i : Nat)
    (d : DataStructureInfo) (fuel : Nat) (w w1 w2 : World) (p : Int × Decimal × Err)
    (hctx : env.ctxErr ctx w.clock = none)
    (hst : fetchMigrationStatus env ctx id w = (Run.ret (StatusInProgress, none), w1))
    (hp : fetchOverallProgress env ctx id w1 = (Run.ret p, w2))
    (hitem : env.sqlExecute ctx w2.clock (itemQuery env i id) = QueryResult.empty
      ∨ ∃ row data m,
          env.sqlExecute ctx w2.clock (itemQuery env i id) = QueryResult.row (some row)
          ∧ row.cols[0]? = some (Except.ok (SQLValue.json data))
          ∧ UnmarshalItem data DataStructureMigrationStatus.zero = (m, none)
          ∧ m.Status ≠ StatusComplete ∧ m.Status ≠ StatusFailed ∧ m.Status ≠ StatusCanceled) :
    pollIteration env ctx id i d none w
      = (Run.ret Step.next,
          World.mk (w2.clock + 2)
            (w2.trace ++ progressEvents d p
              ++ [Event.query ctx (itemQuery env i id), Event.sleep (1 * Second)]))
    ∧ (mkStage env ctx id none i d).Func (fuel + 1) w
      = (mkStage env ctx id none i d).Func fuel
          (World.mk (w2.clock + 2)
            (w2.trace ++ progressEvents d p
              ++ [Event.query ctx (itemQuery env i id), Event.sleep (1 * Second)])) := by
  have hov := overallCheck_in_progress env ctx id d none w w1 w2 p hctx hst hp
  have hit : itemCheck env ctx id i (World.mk w2.clock (w2.trace ++ progressEvents d p))
      = (Run.ret Step.next,
          World.mk (w2.clock + 2)
            (w2.trace ++ progressEvents d p
              ++ [Event.query ctx (itemQuery env i id), Event.sleep (1 * Second)])) := by
    rcases hitem with hq | ⟨row, data, m, hq, hcol, hdec, h1, h2, h3⟩
    · exact itemCheck_empty env ctx id i
        (World.mk w2.clock (w2.trace ++ progressEvents d p)) hq
    · rw [itemCheck_row env ctx id i (World.mk w2.clock (w2.trace ++ progressEvents d p))
        row data m hq hcol hdec]
      simp [h1, h2, h3]
  refine ⟨?_, ?_⟩
  · simp [pollIteration, hov, hit]
  · simp [mkStage, stageFunc_of_item env ctx id i d none fuel w _ _ _ hov hit]

/-- An instance of C13: the overall status and the item are IN_PROGRESS. -/
theorem C13_poll_again_after_sleep_witness :
    pollIteration (Env.scripted [jsonRow "\"IN_PROGRESS\"", jsonRow2 "1000" "12.5",
        jsonRow runningItemJSON] QueryResult.empty) Context.command "m1" 0 imap5 none World.init
      = (Run.ret Step.next,
          World.mk 4 [Event.query Context.command statusQueryM1,
            Event.query Context.command progressQueryM1,
            Event.setText "Migrating IMAP: imap5",
            Event.setProgress (Decimal.mk 125 (-1)),
            Event.setRemainingDuration 1000000000,
            Event.query Context.command itemQueryM1,
            Event.sleep 1000000000]) :=
  (C13_poll_again_after_sleep
    (Env.scripted [jsonRow "\"IN_PROGRESS\"", jsonRow2 "1000" "12.5", jsonRow runningItemJSON]
      QueryResult.empty)
    Context.command "m1" 0 imap5 0 World.init
    (World.mk 1 [Event.query Context.command statusQueryM1])
    (World.mk 2 [Event.query Context.command statusQueryM1,
      Event.query Context.command progressQueryM1])
    (1000000000, Decimal.mk 125 (-1), none)
    (by rfl) (by rfl) (by rfl)
    (Or.inr ⟨Row.mk [Except.ok (SQLValue.json runningItemJSON)], runningItemJSON,
      DataStructureMigrationStatus.mk "imap5" "IMAP" "IN_PROGRESS" (Decimal.mk 40 0) "",
      by rfl, by rfl, by decide, by decide, by decide, by decide⟩)).1

/-- What `fetchOverallProgress` returns on a row that holds an integer and a
number that `ParseFloat32` reads. -/
theorem fetchOverallProgress_numbers (env : Env) (ctx : Context) (id : String) (w : World)
    (row : Row) (rtStr cpStr : String) (r : Int) (c : Decimal)
    (hq : env.sqlExecute ctx w.clock (progressQuery env id) = QueryResult.row (some row))
    (hrt : row.cols[0]? = some (Except.ok (SQLValue.json rtStr)))
    (hcp : row.cols[1]? = some (Except.ok (SQLValue.json cpStr)))
    (hr : ParseInt64 rtStr = Except.ok r)
    (hc : ParseFloat32 cpStr = Except.ok c) :
    fetchOverallProgress env ctx id w
      = (Run.ret (wrapInt64 (r * Millisecond), c, none),
          World.mk (w.clock + 1) (w.trace ++ [Event.query ctx (progressQuery env id)])) := by
  simp [fetchOverallProgress, querySingleRow_eq, hq, rowGet, hrt, hcp, assertJSON, hr, hc]

/-- C14 (as stated, refuted). With an overall status IN_PROGRESS and a record
that holds the remaining time 9223372036855 milliseconds, the stage function
sets the remaining duration to -9223372036854551616 nanoseconds: the product
`time.Duration(rt) * time.Millisecond` does not fit 64 bits. -/
theorem C14_remaining_duration_overflows :
    overallCheck (Env.scripted [jsonRow "\"IN_PROGRESS\"", jsonRow2 "9223372036855" "50"]
        QueryResult.empty) Context.command "m1" imap5 none World.init
      = (Run.ret none,
          World.mk 2 [Event.query Context.command statusQueryM1,
            Event.query Context.command progressQueryM1,
            Event.setText "Migrating IMAP: imap5",
            Event.setProgress (Decimal.mk 50 0),
            Event.setRemainingDuration (-9223372036854551616)])
    ∧ ParseInt64 "9223372036855" = Except.ok 9223372036855
    ∧ (9223372036855 : Int) * Millisecond ≠ -9223372036854551616 := by
  refine ⟨?_, ?_, ?_⟩
  · rfl
  · rfl
  · decide

/-- C14 (amended). When the overall status is IN_PROGRESS and the record holds
the remaining time `r`, an integer number of milliseconds that fits a
`time.Duration`, and the completion percentage `c`, the stage function sets the
text of the status reporter to `Migrating <Type>: <Name>` of its item, the
progress to `c` and the remaining duration to `r` milliseconds, and goes on to
the per-item check. -/
theorem C14_progress_is_reported (env : Env) (ctx : Context) (id : String) (i : Nat)
    (d : DataStructureInfo) (w w1 : World) (row : Row) (rtStr cpStr : String) (r : Int)
    (c : Decimal)
    (hctx : env.ctxErr ctx w.clock = none)
    (hst : fetchMigrationStatus env ctx id w = (Run.ret (StatusInProgress, none), w1))
    (hq : env.sqlExecute ctx w1.clock (progressQuery env id) = QueryResult.row (some row))
    (hrt : row.cols[0]? = some (Except.ok (SQLValue.json rtStr)))
    (hcp : row.cols[1]? = some (Except.ok (SQLValue.json cpStr)))
    (hr : ParseInt64 rtStr = Except.ok r)
    (hc : ParseFloat32 cpStr = Except.ok c)
    (hlo : -2 ^ 63 ≤ r * Millisecond) (hhi : r * Millisecond < 2 ^ 63) :
    pollIteration env ctx id i d none w
      = itemCheck env ctx id i
          (World.mk (w1.clock + 1)
            (w1.trace ++ [Event.query ctx (progressQuery env id),
              Event.setText ("Migrating " ++ d.Typ ++ ": " ++ d.Name),
              Event.setProgress c,
              Event.setRemainingDuration (r * Millisecond)])) := by
  have hp := fetchOverallProgress_numbers env ctx id w1 row rtStr cpStr r c hq hrt hcp hr hc
  have hov := overallCheck_in_progress env ctx id d none w w1 _ _ hctx hst hp
  have hwrap : wrapInt64 (r * Millisecond) = r * Millisecond := by
    unfold wrapInt64
    omega
  simp [pollIteration, hov, progressEvents, progressMsg, hwrap]

/-- An instance of the amended C14: 1000 milliseconds and 12.5 percent. -/
theorem C14_progress_is_reported_witness :
    pollIteration (Env.scripted [jsonRow "\"IN_PROGRESS\"", jsonRow2 "1000" "12.5"]
        QueryResult.empty) Context.command "m1" 0 imap5 none World.init
      = itemCheck (Env.scripted [jsonRow "\"IN_PROGRESS\"", jsonRow2 "1000" "12.5"]
          QueryResult.empty) Context.command "m1" 0
          (World.mk 2 [Event.query Context.command statusQueryM1,
            Event.query Context.command progressQueryM1,
            Event.setText "Migrating IMAP: imap5",
            Event.setProgress (Decimal.mk 125 (-1)),
            Event.setRemainingDuration (1000 * Millisecond)]) :=
  C14_progress_is_reported
    (Env.scripted [jsonRow "\"IN_PROGRESS\"", jsonRow2 "1000" "12.5"] QueryResult.empty)
    Context.command "m1" 0 imap5 World.init
    (World.mk 1 [Event.query Context.command statusQueryM1])
    (Row.mk [Except.ok (SQLValue.json "1000"), Except.ok (SQLValue.json "12.5")])
    "1000" "12.5" 1000 (Decimal.mk 125 (-1))
    (by rfl) (by rfl) (by rfl) (by rfl) (by rfl) (by rfl) (by rfl) (by decide) (by decide)

/-- What `fetchOverallProgress` returns when the completion percentage or the
remaining time is absent from the row (SQL NULL) or cannot be parsed: an error. -/
theorem fetchOverallProgress_fails (env : Env) (ctx : Context) (id : String) (w : World)
    (row : Row) (v0 v1 : SQLValue)
    (hq : env.sqlExecute ctx w.clock (progressQuery env id) = QueryResult.row (some row))
    (hrt : row.cols[0]? = some (Except.ok v0))
    (hcp : row.cols[1]? = some (Except.ok v1))
    (hbad : v1 = SQLValue.null
      ∨ (v1 ≠ SQLValue.null ∧ v0 = SQLValue.null)
      ∨ (∃ rtStr e, v0 = SQLValue.json rtStr ∧ v1 ≠ SQLValue.null
          ∧ ParseInt64 rtStr = Except.error e)
      ∨ (∃ rtStr cpStr r e, v0 = SQLValue.json rtStr ∧ v1 = SQLValue.json cpStr
          ∧ ParseInt64 rtStr = Except.ok r ∧ ParseFloat32 cpStr = Except.error e)) :
    ∃ e : GoError,
      fetchOverallProgress env ctx id w
        = (Run.ret (0, Decimal.zero, some e),
            World.mk (w.clock + 1) (w.trace ++ [Event.query ctx (progressQuery env id)])) := by
  rcases hbad with h | ⟨h1, h0⟩ | ⟨rtStr, e, h0, h1, hr⟩ | ⟨rtStr, cpStr, r, e, h0, h1, hr, hc⟩
  · subst h
    exact ⟨errorsNew ("completionPercentage is not available in " ++ env.StatusMapName),
      by simp [fetchOverallProgress, querySingleRow_eq, hq, rowGet, hrt, hcp]⟩
  · subst h0
    exact ⟨errorsNew ("remainingTime is not available in " ++ env.StatusMapName),
      by simp [fetchOverallProgress, querySingleRow_eq, hq, rowGet, hrt, hcp, h1]⟩
  · subst h0
    exact ⟨e, by simp [fetchOverallProgress, querySingleRow_eq, hq, rowGet, hrt, hcp, h1,
      assertJSON, hr]⟩
  · subst h0 h1
    exact ⟨e, by simp [fetchOverallProgress, querySingleRow_eq, hq, rowGet, hrt, hcp,
      assertJSON, hr, hc]⟩

/-- C15 (as stated, refuted). With an overall status IN_PROGRESS and a record
without completion percentage and remaining time, the stage function does not
fail: it logs the error, goes on to the per-item check, sleeps, and in the next
iteration, on the overall status COMPLETE, returns a nil error. -/
theorem C15_missing_progress_is_not_fatal :
    (mkStage (Env.scripted [jsonRow "\"IN_PROGRESS\"", nullRow2, QueryResult.empty,
        QueryResult.empty, jsonRow "\"COMPLETE\""] QueryResult.empty)
        Context.command "m1" none 0 imap5).Func 2 World.init
      = (Run.ret (GoAny.nil, none),
          World.mk 5 [Event.query Context.command statusQueryM1,
            Event.query Context.command progressQueryM1,
            Event.logError (GoError.fresh
              "completionPercentage is not available in __datamigration_migrations"),
            Event.setText "Unable to calculate remaining duration and progress",
            Event.query Context.command itemQueryM1,
            Event.sleep 1000000000,
            Event.query Context.command statusQueryM1]) := by
  rfl

/-- C15 (amended). A missing overall status ends the stage function with the
error `reading migration status: migration status not found`, which is not
wrapped by `stage.IgnoreError`. When the overall status is IN_PROGRESS and the
completion percentage or the remaining time is absent or cannot be parsed, the
stage function does not end: it logs the error of the fetch, sets the text of
the status reporter to `Unable to calculate remaining duration and progress`
and goes on to the per-item check. -/
theorem C15_missing_progress_is_logged (env : Env) (ctx : Context) (id : String) (i : Nat)
    (d : DataStructureInfo) (fuel : Nat) (w w1 : World) (s : String) (e0 : GoError)
    (row : Row) (v0 v1 : SQLValue) :
    (env.ctxErr ctx w.clock = none →
      fetchMigrationStatus env ctx id w = (Run.ret (s, some e0), w1) →
      (mkStage env ctx id none i d).Func (fuel + 1) w
        = (Run.ret (GoAny.nil, some (GoError.wrap
            "reading migration status: migration status not found"
            migrationStatusNotFoundErr)), w1))
    ∧ (GoError.wrap "reading migration status: migration status not found"
        migrationStatusNotFoundErr).isIgnorable = false
    ∧ (env.ctxErr ctx w.clock = none →
      fetchMigrationStatus env ctx id w = (Run.ret (StatusInProgress, none), w1) →
      env.sqlExecute ctx w1.clock (progressQuery env id) = QueryResult.row (some row) →
      row.cols[0]? = some (Except.ok v0) →
      row.cols[1]? = some (Except.ok v1) →
      (v1 = SQLValue.null
        ∨ (v1 ≠ SQLValue.null ∧ v0 = SQLValue.null)
        ∨ (∃ rtStr e, v0 = SQLValue.json rtStr ∧ v1 ≠ SQLValue.null
            ∧ ParseInt64 rtStr = Except.error e)
        ∨ (∃ rtStr cpStr r e, v0 = SQLValue.json rtStr ∧ v1 = SQLValue.json cpStr
            ∧ ParseInt64 rtStr = Except.ok r ∧ ParseFloat32 cpStr = Except.error e)) →
      ∃ e : GoError,
        pollIteration env ctx id i d none w
          = itemCheck env ctx id i
              (World.mk (w1.clock + 1)
                (w1.trace ++ [Event.query ctx (progressQuery env id), Event.logError e,
                  Event.setText "Unable to calculate remaining duration and progress"]))) := by
  refine ⟨?_, rfl, ?_⟩
  · intro hctx hst
    have he : e0 = migrationStatusNotFoundErr :=
      fetchMigrationStatus_err env ctx id w s e0 (by rw [hst])
    subst he
    have hov : overallCheck env ctx id d none w
        = (Run.ret (some (Step.brk (some (GoError.wrap
            "reading migration status: migration status not found"
            migrationStatusNotFoundErr)))), w1) := by
      simp [overallCheck, hctx, hst, Errorf_w, migrationStatusNotFoundErr, GoError.Error,
        Sentinel.Error]
    simp [mkStage, stageFunc_of_overall env ctx id i d none fuel w w1 _ hov]
  · intro hctx hst hq hrt hcp hbad
    obtain ⟨e, hp⟩ := fetchOverallProgress_fails env ctx id w1 row v0 v1 hq hrt hcp hbad
    have hov := overallCheck_in_progress env ctx id d none w w1 _ _ hctx hst hp
    exact ⟨e, by simp [pollIteration, hov, progressEvents]⟩

/-- An instance of the amended C15: a status query that finds no row, and a
record without completion percentage and remaining time. -/
theorem C15_missing_progress_is_logged_witness :
    (mkStage (Env.scripted [] QueryResult.empty) Context.command "m1" none 0 imap5).Func 1
        World.init
      = (Run.ret (GoAny.nil, some (GoError.wrap
          "reading migration status: migration status not found" migrationStatusNotFoundErr)),
          World.mk 1 [Event.query Context.command statusQueryM1])
    ∧ ∃ e : GoError,
        pollIteration (Env.scripted [jsonRow "\"IN_PROGRESS\"", nullRow2] QueryResult.empty)
            Context.command "m1" 0 imap5 none World.init
          = itemCheck (Env.scripted [jsonRow "\"IN_PROGRESS\"", nullRow2] QueryResult.empty)
              Context.command "m1" 0
              (World.mk 2 [Event.query Context.command statusQueryM1,
                Event.query Context.command progressQueryM1, Event.logError e,
                Event.setText "Unable to calculate remaining duration and progress"]) :=
  ⟨(C15_missing_progress_is_logged (Env.scripted [] QueryResult.empty) Context.command "m1" 0
      imap5 0 World.init (World.mk 1 [Event.query Context.command statusQueryM1]) ""
      migrationStatusNotFoundErr (Row.mk []) SQLValue.null SQLValue.null).1 (by rfl) (by rfl),
    (C15_missing_progress_is_logged
      (Env.scripted [jsonRow "\"IN_PROGRESS\"", nullRow2] QueryResult.empty) Context.command
      "m1" 0 imap5 0 World.init (World.mk 1 [Event.query Context.command statusQueryM1]) ""
      migrationStatusNotFoundErr
      (Row.mk [Except.ok SQLValue.null, Except.ok SQLValue.null]) SQLValue.null
      SQLValue.null).2.2 (by rfl) (by rfl) (by rfl) (by rfl) (by rfl) (Or.inl rfl)⟩

/-! ## The logs of the members -/

/-- The loop over the members, once the members of `pre` have been dealt with
without an error, goes on with the members after them. -/
theorem saveMemberLogsOf_append (env : Env) (ctx : Context) (id : String)
    (pre rest : List String) (w w1 : World)
    (h : saveMemberLogsOf env ctx id pre w = (Run.ret none, w1)) :
    saveMemberLogsOf env ctx id (pre ++ rest) w = saveMemberLogsOf env ctx id rest w1 := by
  induction pre generalizing w with
  | nil =>
    simp only [saveMemberLogsOf, Go.pure_eq, Go.pure_apply, Prod.mk.injEq, true_and] at h
    subst h
    rfl
  | cons uuid more ih =>
    simp only [saveMemberLogsOf, List.cons_append, Go.bind_eq, Go.bind_apply, Go.now_apply,
      Go.emit_apply, Go.tick_apply] at h ⊢
    cases hgl : env.getList ctx w.clock (env.DebugLogsListPrefix ++ uuid) with
    | some e => simp [hgl] at h
    | none =>
      simp only [hgl, Go.bind_apply, Go.now_apply, Go.emit_apply, Go.tick_apply] at h ⊢
      cases hga : env.getAll ctx (w.clock + 1) (env.DebugLogsListPrefix ++ uuid) with
      | error e => simp [hga] at h
      | ok logs =>
        simp only [hga, Go.bind_eq, Go.bind_apply, List.append_assoc, List.cons_append,
          List.nil_append] at h ⊢
        generalize logMemberLines id uuid logs
          (World.mk (w.clock + 1 + 1)
            (w.trace ++ [Event.getList ctx (env.DebugLogsListPrefix ++ uuid),
              Event.getAll ctx (env.DebugLogsListPrefix ++ uuid)])) = res at h ⊢
        obtain ⟨r, w2⟩ := res
        cases r with
        | ret u => exact ih w2 h
        | panic msg => simp at h
        | pending => simp at h

/-- C16. When the lists of debug logs of the members before `uuid` have been
fetched without an error and `GetList` or `GetAll` fails with `e` for `uuid`,
`finalizeMigration` returns `e` right after the failing call: nothing is fetched
for the members after `uuid`, the report is not fetched, and no file is
written. -/
theorem C16_log_failure_aborts (env : Env) (ctx : Context) (id dir : String)
    (w w1 : World) (pre post : List String) (uuid : String) (e : GoError)
    (hmem : env.orderedMembers w.clock = pre ++ uuid :: post)
    (hpre : saveMemberLogsOf env ctx id pre w = (Run.ret none, w1)) :
    (env.getList ctx w1.clock (env.DebugLogsListPrefix ++ uuid) = some e →
      finalizeMigration env ctx id dir w
        = (Run.ret (some e),
            World.mk (w1.clock + 1)
              (w1.trace ++ [Event.getList ctx (env.DebugLogsListPrefix ++ uuid)])))
    ∧ (env.getList ctx w1.clock (env.DebugLogsListPrefix ++ uuid) = none →
      env.getAll ctx (w1.clock + 1) (env.DebugLogsListPrefix ++ uuid) = Except.error e →
      finalizeMigration env ctx id dir w
        = (Run.ret (some e),
            World.mk (w1.clock + 2)
              (w1.trace ++ [Event.getList ctx (env.DebugLogsListPrefix ++ uuid),
                Event.getAll ctx (env.DebugLogsListPrefix ++ uuid)])))
    ∧ fileWrites w1.trace = fileWrites w.trace := by
  have happ := saveMemberLogsOf_append env ctx id pre (uuid :: post) w w1 hpre
  refine ⟨?_, ?_, ?_⟩
  · intro hgl
    simp [finalizeMigration, saveMemberLogs, hmem, happ, saveMemberLogsOf, hgl]
  · intro hgl hga
    simp [finalizeMigration, saveMemberLogs, hmem, happ, saveMemberLogsOf, hgl, hga]
  · have h := saveMemberLogsOf_fileWrites env ctx id pre w
    rw [hpre] at h
    exact h

/-- An instance of C16: the logs of the second of three members cannot be read. -/
theorem C16_log_failure_aborts_witness :
    finalizeMigration envSecondMemberFails Context.command "m1" "out" World.init
      = (Run.ret (some (GoError.fresh "list unavailable")),
          World.mk 4 [Event.getList Context.command "__datamigration_debug_logs_member-1",
            Event.getAll Context.command "__datamigration_debug_logs_member-1",
            Event.logInfo "[m1_member-1] line 1",
            Event.getList Context.command "__datamigration_debug_logs_member-2",
            Event.getAll Context.command "__datamigration_debug_logs_member-2"]) :=
  (C16_log_failure_aborts envSecondMemberFails Context.command "m1" "out" World.init
    (World.mk 2 [Event.getList Context.command "__datamigration_debug_logs_member-1",
      Event.getAll Context.command "__datamigration_debug_logs_member-1",
      Event.logInfo "[m1_member-1] line 1"])
    ["member-1"] ["member-3"] "member-2" (GoError.fresh "list unavailable")
    (by rfl) (by rfl)).2.1 (by rfl) (by rfl)

/-! ## The order of the steps of the status command -/

/-- C17. Once the pipeline of the item stages has returned, with an error or
without, the status command runs `finalizeMigration` once, in the world the
pipeline left, and ends in the world the finalizer left, to which it adds the
empty line and the line `OK` if and only if neither the pipeline nor the
finalizer returned an error. -/
theorem C17_finalize_runs_once_before_ok (env : Env) (pkg : StagePkg) (fuel : Nat)
    (ctx : Context) (w w1 w2 w3 w4 w5 : World) (id : String) (stages : List Stage) (v : GoAny)
    (err err2 : Err)
    (h1 : clientInternal env ctx w = (Run.ret none, w1))
    (h2 : pkg.ExecuteStatusStages ctx
      (World.mk w1.clock (w1.trace ++ [Event.println "", Event.println env.banner]))
        = (Run.ret (GoAny.str id, none), w2))
    (h3 : createMigrationStages env fuel ctx id w2 = (Run.ret (stages, none), w3))
    (h4 : pkg.Execute ctx stages w3 = (Run.ret (v, err), w4))
    (h5 : finalizeMigration env ctx id env.outputDir w4 = (Run.ret err2, w5)) :
    (StatusCmd.Exec env pkg fuel ctx w).2
      = (if err = none ∧ err2 = none then
          World.mk w5.clock (w5.trace ++ [Event.println "", Event.println "OK"])
        else w5)
    ∧ ((StatusCmd.Exec env pkg fuel ctx w).1 = Run.ret none ↔ err = none ∧ err2 = none) := by
  cases err2 with
  | some e2 => simp [StatusCmd.Exec, h1, h2, h3, h4, h5, assertString]
  | none =>
    cases err with
    | some e => simp [StatusCmd.Exec, h1, h2, h3, h4, h5, assertString]
    | none => simp [StatusCmd.Exec, h1, h2, h3, h4, h5, assertString]

/-- An instance of C17: a run in which the pipeline and the finalizer succeed. -/
theorem C17_finalize_runs_once_before_ok_witness :
    (StatusCmd.Exec envComplete pkgFirstStage 1 Context.command World.init).2
      = World.mk 7 (traceBuilt ++ [Event.query Context.command statusQueryM1,
          Event.query Context.command reportQueryM1,
          Event.writeFile "out/migration_report_m1.txt" "done" 384,
          Event.println "", Event.println "OK"]) :=
  (C17_finalize_runs_once_before_ok envComplete pkgFirstStage 1 Context.command World.init
    (World.mk 1 [Event.clientInternal Context.command])
    (World.mk 1 [Event.clientInternal Context.command, Event.println "",
      Event.println "Hazelcast Data Migration Tool"])
    (World.mk 4 traceBuilt)
    (World.mk 5 (traceBuilt ++ [Event.query Context.command statusQueryM1]))
    (World.mk 7 (traceBuilt ++ [Event.query Context.command statusQueryM1,
      Event.query Context.command reportQueryM1,
      Event.writeFile "out/migration_report_m1.txt" "done" 384]))
    "m1" [mkStage envComplete Context.command "m1" none 0 imap5] GoAny.nil none none
    (by rfl) (by rfl) (by rfl) (by rfl) (by rfl)).1

/-! ## The warnings -/

/-- A text put before the result of the loop of `String.intercalate` can be
put before its accumulator. -/
theorem intercalate_go_append (s : String) (l : List String) (head acc : String) :
    head ++ String.intercalate.go acc s l = String.intercalate.go (head ++ acc) s l := by
  induction l generalizing acc with
  | nil => rfl
  | cons a rest ih =>
    simp only [String.intercalate.go]
    rw [ih]
    simp [String.append_assoc]

/-- Joining with a newline and a bullet is joining the bulleted entries with a newline. -/
theorem intercalate_go_bullets (l : List String) (acc : String) :
    String.intercalate.go acc "\n* " l
      = String.intercalate.go acc "\n" (l.map fun x => "* " ++ x) := by
  induction l generalizing acc with
  | nil => rfl
  | cons a rest ih =>
    simp only [String.intercalate.go, List.map_cons]
    rw [ih]
    have h : acc ++ "\n* " ++ a = acc ++ "\n" ++ ("* " ++ a) := by
      have h2 : ("\n* " : String) = "\n" ++ "* " := by decide
      rw [String.append_assoc, String.append_assoc, ← String.append_assoc "\n" "* " a]
      exact congrArg (fun t => acc ++ (t ++ a)) h2
    rw [h]

/-- The text of `maybePrintWarnings` for a list that is not empty has every
warning on a line of its own behind a bullet. -/
theorem bullets_eq_bulletLines (ws : List String) (h : ws ≠ []) :
    "* " ++ "\n* ".intercalate ws = bulletLines ws := by
  cases ws with
  | nil => exact absurd rfl h
  | cons a rest =>
    simp only [bulletLines, String.intercalate, List.map_cons]
    rw [intercalate_go_append, intercalate_go_bullets]

/-- C18. When the record holds the warning list `ws`, `maybePrintWarnings`
prints one text: for five warnings or fewer, `* ` followed by the warnings
joined with a newline and `* `, which for a list that is not empty is every
warning on a line of its own behind a bullet; for more than five warnings, the
line `You have N warnings that you can find in your migration report.` with the
number of warnings for `N`, and nothing else. -/
theorem C18_warnings_by_count (env : Env) (ctx : Context) (id : String) (w : World)
    (row : Row) (data : String) (ws : List String)
    (hq : env.sqlExecute ctx w.clock (warningsQuery env id) = QueryResult.row (some row))
    (hcol : row.cols[0]? = some (Except.ok (SQLValue.json data)))
    (hdec : UnmarshalStringSlice data [] = (ws, none)) :
    (ws.length ≤ 5 →
      maybePrintWarnings env ctx id w
        = (Run.ret (),
            World.mk (w.clock + 1)
              (w.trace ++ [Event.query ctx (warningsQuery env id),
                Event.println ("* " ++ "\n* ".intercalate ws)])))
    ∧ (ws ≠ [] → "* " ++ "\n* ".intercalate ws = bulletLines ws)
    ∧ (5 < ws.length →
      maybePrintWarnings env ctx id w
        = (Run.ret (),
            World.mk (w.clock + 1)
              (w.trace ++ [Event.query ctx (warningsQuery env id),
                Event.println ("You have " ++ toString ws.length
                  ++ " warnings that you can find in your migration report.")]))) := by
  refine ⟨?_, bullets_eq_bulletLines ws, ?_⟩
  · intro hle
    simp [maybePrintWarnings, querySingleRow_eq, hq, rowGet, hcol, assertJSON, hdec, hle,
      stringsJoin]
  · intro hgt
    have hnot : ¬ ws.length ≤ 5 := by omega
    simp [maybePrintWarnings, querySingleRow_eq, hq, rowGet, hcol, assertJSON, hdec, hnot,
      warningsSummary]

/-- An instance of C18: two warnings are printed behind bullets, six are counted. -/
theorem C18_warnings_by_count_witness :
    maybePrintWarnings (Env.scripted [jsonRow "[\"w1\",\"w2\"]"] QueryResult.empty)
        Context.command "m1" World.init
      = (Run.ret (),
          World.mk 1 [Event.query Context.command warningsQueryM1, Event.println "* w1\n* w2"])
    ∧ maybePrintWarnings
        (Env.scripted [jsonRow "[\"a\",\"b\",\"c\",\"d\",\"e\",\"f\"]"] QueryResult.empty)
        Context.command "m1" World.init
      = (Run.ret (),
          World.mk 1 [Event.query Context.command warningsQueryM1,
            Event.println "You have 6 warnings that you can find in your migration report."]) :=
  ⟨(C18_warnings_by_count (Env.scripted [jsonRow "[\"w1\",\"w2\"]"] QueryResult.empty)
      Context.command "m1" World.init (Row.mk [Except.ok (SQLValue.json "[\"w1\",\"w2\"]")])
      "[\"w1\",\"w2\"]" ["w1", "w2"] (by rfl) (by rfl) (by decide)).1 (by decide),
    (C18_warnings_by_count
      (Env.scripted [jsonRow "[\"a\",\"b\",\"c\",\"d\",\"e\",\"f\"]"] QueryResult.empty)
      Context.command "m1" World.init
      (Row.mk [Except.ok (SQLValue.json "[\"a\",\"b\",\"c\",\"d\",\"e\",\"f\"]")])
      "[\"a\",\"b\",\"c\",\"d\",\"e\",\"f\"]" ["a", "b", "c", "d", "e", "f"]
      (by rfl) (by rfl) (by decide)).2.2 (by decide)⟩

/-! ## One stage for every item of the record -/

/-- What `getDataStructuresToBeMigrated` returns on a record that was read and decoded. -/
theorem getDataStructuresToBeMigrated_record (env : Env) (ctx : Context) (id : String)
    (w : World) (row : Row) (data : String) (st : OverallMigrationStatus)
    (hci : env.clientInternal ctx w.clock = none)
    (hq : env.sqlExecute ctx (w.clock + 1) (recordQuery env id) = QueryResult.row (some row))
    (hcol : row.cols[0]? = some (Except.ok (SQLValue.json data)))
    (hdec : UnmarshalOverall data OverallMigrationStatus.zero = (st, none)) :
    getDataStructuresToBeMigrated env ctx id w
      = (Run.ret (if st.Migrations.length = 0 then ([], some noDataStructuresFoundErr)
          else (st.Migrations.map (fun m => DataStructureInfo.mk m.Name m.Typ), none)),
          World.mk (w.clock + 2)
            (w.trace ++ [Event.clientInternal ctx, Event.query ctx (recordQuery env id)])) := by
  by_cases hnil : st.Migrations = []
  · simp [getDataStructuresToBeMigrated, clientInternal, hci, querySingleRow_eq, hq, rowGet,
      hcol, assertJSON, hdec, hnil]
  · simp [getDataStructuresToBeMigrated, clientInternal, hci, querySingleRow_eq, hq, rowGet,
      hcol, assertJSON, hdec, hnil]

/-- What `getDataStructuresToBeMigrated` returns on a record that is SQL NULL. -/
theorem getDataStructuresToBeMigrated_null (env : Env) (ctx : Context) (id : String)
    (w : World) (row : Row)
    (hci : env.clientInternal ctx w.clock = none)
    (hq : env.sqlExecute ctx (w.clock + 1) (recordQuery env id) = QueryResult.row (some row))
    (hcol : row.cols[0]? = some (Except.ok SQLValue.null)) :
    getDataStructuresToBeMigrated env ctx id w
      = (Run.ret ([], some noDataStructuresFoundErr),
          World.mk (w.clock + 2)
            (w.trace ++ [Event.clientInternal ctx, Event.query ctx (recordQuery env id)])) := by
  simp [getDataStructuresToBeMigrated, clientInternal, hci, querySingleRow_eq, hq, rowGet, hcol]

/-- C19. Once the migration is in progress, `createMigrationStages` reads the
record. For a record whose array `migrations` is not empty it returns one stage
for every entry, in the order of the array: the stage at index `k` carries the
messages `Migrating`, `Migrated` and `Failed migrating` with the type and the
name of the entry at index `k`, and its function is the stage function for the
index `k`, which asks for `$.migrations[k]`. For a record without migrations,
and for a record that is SQL NULL, it returns `noDataStructuresFoundErr`. -/
theorem C19_one_stage_per_item (env : Env) (fuel : Nat) (ctx : Context) (id : String)
    (w w1 : World) (row : Row) (v : SQLValue)
    (hwait : WaitForMigrationToBeInProgress env (Context.withTimeout ctx (30 * Second) w.clock)
      id fuel w = (Run.ret none, w1))
    (hci : env.clientInternal ctx w1.clock = none)
    (hq : env.sqlExecute ctx (w1.clock + 1) (recordQuery env id) = QueryResult.row (some row))
    (hcol : row.cols[0]? = some (Except.ok v)) :
    (∀ data st, v = SQLValue.json data →
      UnmarshalOverall data OverallMigrationStatus.zero = (st, none) →
      st.Migrations ≠ [] →
      ∃ stages : List Stage,
        createMigrationStages env fuel ctx id w
          = (Run.ret (stages, none),
              World.mk (w1.clock + 2)
                (w1.trace ++ [Event.clientInternal ctx, Event.query ctx (recordQuery env id)]))
        ∧ stages.length = st.Migrations.length
        ∧ ∀ k m, st.Migrations[k]? = some m →
            ∃ stg, stages[k]? = some stg
              ∧ stg.ProgressMsg = "Migrating " ++ m.Typ ++ ": " ++ m.Name
              ∧ stg.SuccessMsg = "Migrated " ++ m.Typ ++ ": " ++ m.Name
              ∧ stg.FailureMsg = "Failed migrating " ++ m.Typ ++ ": " ++ m.Name
              ∧ stg.Func = stageFunc env ctx id k (DataStructureInfo.mk m.Name m.Typ) none)
    ∧ (∀ data st, v = SQLValue.json data →
      UnmarshalOverall data OverallMigrationStatus.zero = (st, none) →
      st.Migrations = [] →
      createMigrationStages env fuel ctx id w
        = (Run.ret ([], some noDataStructuresFoundErr),
            World.mk (w1.clock + 2)
              (w1.trace ++ [Event.clientInternal ctx, Event.query ctx (recordQuery env id)])))
    ∧ (v = SQLValue.null →
      createMigrationStages env fuel ctx id w
        = (Run.ret ([], some noDataStructuresFoundErr),
            World.mk (w1.clock + 2)
              (w1.trace ++ [Event.clientInternal ctx, Event.query ctx (recordQuery env id)]))) := by
  refine ⟨?_, ?_, ?_⟩
  · intro data st hv hdec hne
    subst hv
    have hlen : st.Migrations.length ≠ 0 := by
      intro h0
      exact hne (List.length_eq_zero.mp h0)
    have hg := getDataStructuresToBeMigrated_record env ctx id w1 row data st hci hq hcol hdec
    simp only [hlen, if_false] at hg
    refine ⟨(st.Migrations.map (fun m => DataStructureInfo.mk m.Name m.Typ)).enum.map
      (fun p => mkStage env ctx id none p.1 p.2), ?_, ?_, ?_⟩
    · simp [createMigrationStages, hwait, hg]
    · simp
    · intro k m hk
      refine ⟨mkStage env ctx id none k (DataStructureInfo.mk m.Name m.Typ), ?_, rfl, rfl, rfl,
        rfl⟩
      simp [List.getElem?_enum, hk]
  · intro data st hv hdec hnil
    subst hv
    have hg := getDataStructuresToBeMigrated_record env ctx id w1 row data st hci hq hcol hdec
    simp only [hnil, List.length_nil, if_true] at hg
    simp [createMigrationStages, hwait, hg]
  · intro hv
    subst hv
    have hg := getDataStructuresToBeMigrated_null env ctx id w1 row hci hq hcol
    simp [createMigrationStages, hwait, hg]

/-- An instance of C19: a record with two items gives two stages, in order. -/
theorem C19_one_stage_per_item_witness :
    ∃ stages : List Stage,
      createMigrationStages
          (Env.scripted [jsonRow "\"IN_PROGRESS\"", QueryResult.empty, jsonRow recordJSON2]
            QueryResult.empty) 1 Context.command "m1" World.init
        = (Run.ret (stages, none),
            World.mk 3 [Event.query (Context.withTimeout Context.command (30 * Second) 0)
                statusQueryM1,
              Event.clientInternal Context.command,
              Event.query Context.command recordQueryM1])
      ∧ stages.length = 2
      ∧ stages.map (fun stg => stg.ProgressMsg)
          = ["Migrating IMAP: imap5", "Migrating REPLICATED_MAP: rmap4"] := by
  obtain ⟨stages, hrun, hlen, hk⟩ :=
    (C19_one_stage_per_item
      (Env.scripted [jsonRow "\"IN_PROGRESS\"", QueryResult.empty, jsonRow recordJSON2]
        QueryResult.empty) 1 Context.command "m1" World.init
      (World.mk 1 [Event.query (Context.withTimeout Context.command (30 * Second) 0)
        statusQueryM1])
      (Row.mk [Except.ok (SQLValue.json recordJSON2)]) (SQLValue.json recordJSON2)
      (by rfl) (by rfl) (by rfl) (by rfl)).1 recordJSON2
      (OverallMigrationStatus.mk "IN_PROGRESS" [] [] "" Decimal.zero Decimal.zero
        [DataStructureMigrationStatus.mk "imap5" "IMAP" "" Decimal.zero "",
          DataStructureMigrationStatus.mk "rmap4" "REPLICATED_MAP" "" Decimal.zero ""])
      rfl (by decide) (by decide)
  refine ⟨stages, hrun, hlen, ?_⟩
  obtain ⟨s0, h0, p0, _, _, _⟩ := hk 0 _ rfl
  obtain ⟨s1, h1, p1, _, _, _⟩ := hk 1 _ rfl
  match stages, hlen, h0, h1 with
  | [a, b], _, h0, h1 =>
    simp only [List.getElem?_cons_zero, List.getElem?_cons_succ, Option.some.injEq] at h0 h1
    subst h0 h1
    simp [p0, p1]

/-! ## The start command -/

/-- C20. Without `--yes`, when the prompt fails or the confirmation is declined,
the start command returns `ErrUserCancelled` right after the prompt, whatever
the functions that build and execute the stages are: none of them is run. With
`--yes` there is no prompt, and the command makes the identifier, builds the
stages, executes them and returns the error of the execution, after the lines
of success if that error is nil. -/
theorem C20_start_needs_confirmation (env : StartEnv) (pkg : StartPkg) (ctx : Context)
    (w w2 w3 w4 : World) (id config : String) (rest : List String) (stages : List Stage)
    (err : Err) :
    (env.autoYes = false →
      ((env.yesNo w.clock "Proceed?").2 ≠ none ∨ (env.yesNo w.clock "Proceed?").1 = false) →
      StartCmd.Exec env pkg ctx w
        = (Run.ret (some ErrUserCancelled),
            World.mk (w.clock + 1)
              (w.trace ++ [Event.println "", Event.println startBanner,
                Event.prompt "Proceed?"])))
    ∧ (env.autoYes = true →
      pkg.makeMigrationID (World.mk w.clock
          (w.trace ++ [Event.println "", Event.println startBanner, Event.println ""]))
        = (Run.ret id, w2) →
      env.args = config :: rest →
      pkg.Build ctx id config w2 = (Run.ret stages, w3) →
      pkg.Execute ctx stages w3 = (Run.ret err, w4) →
      StartCmd.Exec env pkg ctx w
        = (Run.ret err,
            if err = none then
              World.mk w4.clock (w4.trace ++ [Event.println "",
                Event.println "OK Migration completed successfully."])
            else w4))
    ∧ IsUserCancelled (some ErrUserCancelled) = true := by
  refine ⟨?_, ?_, rfl⟩
  · intro hyes hdecl
    rcases hyn : env.yesNo w.clock "Proceed?" with ⟨yes, perr⟩
    rw [hyn] at hdecl
    cases perr with
    | some e => simp [StartCmd.Exec, confirmStart, hyes, hyn]
    | none =>
      rcases hdecl with h | h
      · exact absurd rfl h
      · simp only [] at h
        subst h
        simp [StartCmd.Exec, confirmStart, hyes, hyn]
  · intro hyes hid hargs hbuild hexec
    cases err with
    | some e => simp [StartCmd.Exec, confirmStart, hyes, hid, hargs, firstArg, hbuild, hexec]
    | none => simp [StartCmd.Exec, confirmStart, hyes, hid, hargs, firstArg, hbuild, hexec]

/-- An instance of C20: a declined confirmation, and a run with `--yes`. -/
theorem C20_start_needs_confirmation_witness :
    StartCmd.Exec startEnvDeclined startPkgLogging Context.command World.init
      = (Run.ret (some ErrUserCancelled),
          World.mk 1 [Event.println "", Event.println startBanner, Event.prompt "Proceed?"])
    ∧ StartCmd.Exec startEnvAutoYes startPkgLogging Context.command World.init
      = (Run.ret none,
          World.mk 0 [Event.println "", Event.println startBanner, Event.println "",
            Event.logInfo "stages built for m1 from dmt-config",
            Event.logInfo "stages executed",
            Event.println "", Event.println "OK Migration completed successfully."]) :=
  ⟨(C20_start_needs_confirmation startEnvDeclined startPkgLogging Context.command World.init
      World.init World.init World.init "" "" [] [] none).1 (by rfl) (Or.inr (by rfl)),
    (C20_start_needs_confirmation startEnvAutoYes startPkgLogging Context.command World.init
      (World.mk 0 [Event.println "", Event.println startBanner, Event.println ""])
      (World.mk 0 [Event.println "", Event.println startBanner, Event.println "",
        Event.logInfo "stages built for m1 from dmt-config"])
      (World.mk 0 [Event.println "", Event.println startBanner, Event.println "",
        Event.logInfo "stages built for m1 from dmt-config",
        Event.logInfo "stages executed"])
      "m1" "dmt-config" [] [] none).2.1 (by rfl) (by rfl) (by rfl) (by rfl) (by rfl)⟩

/-! ## The progress value -/

/-- C21 (as stated, refuted). With an overall status IN_PROGRESS and a record
whose completion percentage reads 50, which `fetchOverallProgress` parses
successfully, the check of the overall status passes 50 to `SetProgress`, a
value that is not between 0 and 1. -/
theorem C21_progress_outside_unit_interval :
    overallCheck (Env.scripted [jsonRow "\"IN_PROGRESS\"", jsonRow2 "1000" "50"]
        QueryResult.empty) Context.command "m1" imap5 none World.init
      = (Run.ret none,
          World.mk 2 [Event.query Context.command statusQueryM1,
            Event.query Context.command progressQueryM1,
            Event.setText "Migrating IMAP: imap5",
            Event.setProgress (Decimal.mk 50 0),
            Event.setRemainingDuration (1000 * Millisecond)])
    ∧ ParseFloat32 "50" = Except.ok (Decimal.mk 50 0)
    ∧ Decimal.inUnitInterval (Decimal.mk 50 0) = false := by
  refine ⟨?_, ?_, ?_⟩
  · rfl
  · rfl
  · decide

/-- The progress values of a trace put together from two. -/
theorem progressWrites_append (s t : List Event) :
    progressWrites (s ++ t) = progressWrites s ++ progressWrites t := by
  simp [progressWrites, List.filterMap_append]

/-- The world after `fetchMigrationErrors`: one query more. -/
theorem fetchMigrationErrors_world (env : Env) (ctx : Context) (id : String) (w : World) :
    (fetchMigrationErrors env ctx id w).2
      = World.mk (w.clock + 1) (w.trace ++ [Event.query ctx (errorsQuery env id)]) := by
  simp only [fetchMigrationErrors, Go.bind_eq, Go.bind_apply, querySingleRow_eq]
  cases env.sqlExecute ctx w.clock (errorsQuery env id) with
  | row r =>
    cases r with
    | none => simp
    | some row =>
      simp only [rowGet]
      cases row.cols[0]? with
      | none => simp
      | some c =>
        cases c with
        | error e => simp
        | ok v =>
          cases v with
          | json data =>
            simp only [assertJSON, Go.pure_eq, Go.pure_apply, Go.bind_apply]
            cases hu : UnmarshalStringSlice data [] with
            | mk es e => cases e <;> simp
          | null => simp [assertJSON]
          | other => simp [assertJSON]
  | _ => simp

/-- The world after `fetchOverallProgress`: one query more. -/
theorem fetchOverallProgress_world (env : Env) (ctx : Context) (id : String) (w : World) :
    (fetchOverallProgress env ctx id w).2
      = World.mk (w.clock + 1) (w.trace ++ [Event.query ctx (progressQuery env id)]) := by
  simp only [fetchOverallProgress, Go.bind_eq, Go.bind_apply, querySingleRow_eq]
  cases env.sqlExecute ctx w.clock (progressQuery env id) with
  | row r =>
    cases r with
    | none => simp
    | some row =>
      simp only [rowGet]
      cases row.cols[0]? with
      | none => simp
      | some c0 =>
        cases c0 with
        | error e => simp
        | ok v0 =>
          cases row.cols[1]? with
          | none => simp
          | some c1 =>
            cases c1 with
            | error e => simp
            | ok v1 =>
              cases v1 with
              | null => simp
              | other =>
                cases v0 with
                | null => simp
                | other => simp [assertJSON]
                | json rtStr => cases hr : ParseInt64 rtStr <;> simp [assertJSON, hr]
              | json cpStr =>
                cases v0 with
                | null => simp
                | other => simp [assertJSON]
                | json rtStr =>
                  simp only [assertJSON, Go.bind_apply, Go.pure_apply]
                  cases hr : ParseInt64 rtStr with
                  | error e => simp [hr]
                  | ok rt => cases hp : ParseFloat32 cpStr <;> simp [hr, hp]
  | _ => simp

/-- A completion percentage that `fetchOverallProgress` returns without an
error is what `ParseFloat32` reads in the second column of the row found. -/
theorem fetchOverallProgress_parsed (env : Env) (ctx : Context) (id : String) (w : World)
    (r : Int) (x : Decimal)
    (h : (fetchOverallProgress env ctx id w).1 = Run.ret (r, x, none)) :
    ∃ (row : Row) (cpStr : String),
      env.sqlExecute ctx w.clock (progressQuery env id) = QueryResult.row (some row)
      ∧ row.cols[1]? = some (Except.ok (SQLValue.json cpStr))
      ∧ ParseFloat32 cpStr = Except.ok x := by
  simp only [fetchOverallProgress, Go.bind_eq, Go.bind_apply, querySingleRow_eq] at h
  revert h
  cases hq : env.sqlExecute ctx w.clock (progressQuery env id) with
  | row ro =>
    cases ro with
    | none => simp
    | some row =>
      simp only [rowGet]
      cases row.cols[0]? with
      | none => simp
      | some c0 =>
        cases c0 with
        | error e => simp
        | ok v0 =>
          cases hc1 : row.cols[1]? with
          | none => simp
          | some c1 =>
            cases c1 with
            | error e => simp
            | ok v1 =>
              cases v1 with
              | null => simp
              | other =>
                cases v0 with
                | null => simp
                | other => simp [assertJSON]
                | json rtStr => cases hr : ParseInt64 rtStr <;> simp [assertJSON, hr]
              | json cpStr =>
                cases v0 with
                | null => simp
                | other => simp [assertJSON]
                | json rtStr =>
                  simp only [assertJSON, Go.bind_apply, Go.pure_apply]
                  cases hr : ParseInt64 rtStr with
                  | error e => simp [hr]
                  | ok rt =>
                    cases hp : ParseFloat32 cpStr with
                    | error e => simp [hr, hp]
                    | ok cp =>
                      intro h
                      simp [hr, hp] at h
                      exact ⟨row, cpStr, rfl, hc1, by rw [hp, h.2]⟩
  | _ => simp

/-- The per-item check writes no progress value. -/
theorem itemCheck_progressWrites (env : Env) (ctx : Context) (id : String) (i : Nat)
    (w : World) :
    progressWrites (itemCheck env ctx id i w).2.trace = progressWrites w.trace := by
  simp only [itemCheck, sqlExecute, Go.bind_eq, Go.bind_apply, Go.now_apply, Go.emit_apply,
    Go.tick_apply, Go.pure_eq, Go.pure_apply, timeSleep]
  cases env.sqlExecute ctx w.clock (itemQuery env i id) with
  | row r =>
    cases r with
    | none => simp [rowGet, progressWrites]
    | some row =>
      simp only [rowGet]
      cases row.cols[0]? with
      | none => simp [progressWrites]
      | some c =>
        cases c with
        | error e => simp [progressWrites]
        | ok v =>
          cases v with
          | json data =>
            simp only [assertJSON, Go.pure_eq, Go.pure_apply, Go.bind_apply]
            cases hu : UnmarshalItem data DataStructureMigrationStatus.zero with
            | mk m e =>
              cases e with
              | some e => simp [progressWrites]
              | none =>
                simp only []
                split_ifs <;> simp [progressWrites]
          | null => simp [assertJSON, progressWrites]
          | other => simp [assertJSON, progressWrites]
  | _ => simp [progressWrites]

/-- The check of the overall status writes no progress value, or the one that
`fetchOverallProgress` has returned without an error. -/
theorem overallCheck_progressWrites (env : Env) (ctx : Context) (id : String)
    (d : DataStructureInfo) (err : Err) (w : World) :
    progressWrites (overallCheck env ctx id d err w).2.trace = progressWrites w.trace
    ∨ ∃ (r : Int) (x : Decimal),
        (fetchOverallProgress env ctx id (fetchMigrationStatus env ctx id w).2).1
          = Run.ret (r, x, none)
        ∧ progressWrites (overallCheck env ctx id d err w).2.trace
          = progressWrites w.trace ++ [x] := by
  have hsw := fetchMigrationStatus_world env ctx id w
  simp only [overallCheck, Go.bind_eq, Go.bind_apply, Go.now_apply, Go.pure_eq]
  cases env.ctxErr ctx w.clock with
  | some e =>
    left
    simp only []
    split_ifs <;> rfl
  | none =>
    simp only [Go.bind_apply]
    cases hst : fetchMigrationStatus env ctx id w with
    | mk run w1 =>
      rw [hst] at hsw
      simp only at hsw
      subst hsw
      cases run with
      | panic msg => left; simp [progressWrites]
      | pending => left; simp [progressWrites]
      | ret gs =>
        obtain ⟨s, e⟩ := gs
        cases e with
        | some e => left; simp [progressWrites]
        | none =>
          simp only []
          have hew := fetchMigrationErrors_world env ctx id
            (World.mk (w.clock + 1) (w.trace ++ [Event.query ctx (statusQuery env id)]))
          have hpw := fetchOverallProgress_world env ctx id
            (World.mk (w.clock + 1) (w.trace ++ [Event.query ctx (statusQuery env id)]))
          split_ifs
          · left; simp [progressWrites]
          · left; simp [progressWrites]
          · left
            simp only [Go.bind_apply]
            cases hfe : fetchMigrationErrors env ctx id
              (World.mk (w.clock + 1) (w.trace ++ [Event.query ctx (statusQuery env id)])) with
            | mk run2 w2 =>
              rw [hfe] at hew
              simp only at hew
              subst hew
              cases run2 with
              | panic msg => simp [progressWrites]
              | pending => simp [progressWrites]
              | ret errs =>
                obtain ⟨t, e2⟩ := errs
                cases e2 <;> simp [progressWrites]
          · left; simp [progressWrites]
          · simp only [Go.bind_apply]
            cases hfp : fetchOverallProgress env ctx id
              (World.mk (w.clock + 1) (w.trace ++ [Event.query ctx (statusQuery env id)])) with
            | mk run2 w2 =>
              rw [hfp] at hpw
              simp only at hpw
              subst hpw
              cases run2 with
              | panic msg => left; simp [progressWrites]
              | pending => left; simp [progressWrites]
              | ret p =>
                obtain ⟨rt, cp, e2⟩ := p
                cases e2 with
                | some e2 => left; simp [progressWrites]
                | none =>
                  right
                  exact ⟨rt, cp, rfl, by simp [progressWrites]⟩
          · left; simp [progressWrites]

/-- One iteration writes the progress values of its check of the overall status. -/
theorem pollIteration_progressWrites (env : Env) (ctx : Context) (id : String) (i : Nat)
    (d : DataStructureInfo) (err : Err) (w : World) :
    progressWrites (pollIteration env ctx id i d err w).2.trace
      = progressWrites (overallCheck env ctx id d err w).2.trace := by
  simp only [pollIteration, Go.bind_eq, Go.bind_apply, Go.pure_eq]
  cases overallCheck env ctx id d err w with
  | mk run w1 =>
    cases run with
    | panic msg => rfl
    | pending => rfl
    | ret r =>
      cases r with
      | some step => rfl
      | none => exact itemCheck_progressWrites env ctx id i w1

/-- Every progress value the stage function writes was read by `ParseFloat32`
in the second column of a row of the progress query. -/
theorem stageFunc_progressWrites (env : Env) (ctx : Context) (id : String) (i : Nat)
    (d : DataStructureInfo) (err : Err) (fuel : Nat) (w : World) :
    ∃ xs : List Decimal,
      progressWrites (stageFunc env ctx id i d err fuel w).2.trace = progressWrites w.trace ++ xs
      ∧ ∀ x ∈ xs, ∃ (clock : Nat) (row : Row) (s : String),
          env.sqlExecute ctx clock (progressQuery env id) = QueryResult.row (some row)
          ∧ row.cols[1]? = some (Except.ok (SQLValue.json s))
          ∧ ParseFloat32 s = Except.ok x := by
  induction fuel generalizing w with
  | zero => exact ⟨[], by simp [stageFunc], by simp⟩
  | succ fuel ih =>
    have hit := pollIteration_progressWrites env ctx id i d err w
    have hov := overallCheck_progressWrites env ctx id d err w
    rw [← hit] at hov
    have hone : ∃ ys : List Decimal,
        progressWrites (pollIteration env ctx id i d err w).2.trace = progressWrites w.trace ++ ys
        ∧ ∀ x ∈ ys, ∃ (clock : Nat) (row : Row) (s : String),
            env.sqlExecute ctx clock (progressQuery env id) = QueryResult.row (some row)
            ∧ row.cols[1]? = some (Except.ok (SQLValue.json s))
            ∧ ParseFloat32 s = Except.ok x := by
      rcases hov with h | ⟨r, x, hp, h⟩
      · exact ⟨[], by simp [h], by simp⟩
      · obtain ⟨row, s, hq, hcol, hc⟩ := fetchOverallProgress_parsed env ctx id _ r x hp
        refine ⟨[x], h, ?_⟩
        intro y hy
        simp at hy
        subst hy
        exact ⟨_, row, s, hq, hcol, hc⟩
    obtain ⟨ys, hys, hall⟩ := hone
    rw [stageFunc]
    simp only [Go.bind_eq, Go.bind_apply, Go.pure_eq]
    cases hpi : pollIteration env ctx id i d err w with
    | mk run w1 =>
      rw [hpi] at hys
      simp only at hys
      cases run with
      | panic msg => exact ⟨ys, hys, hall⟩
      | pending => exact ⟨ys, hys, hall⟩
      | ret step =>
        cases step with
        | ret v e => exact ⟨ys, hys, hall⟩
        | brk e => exact ⟨ys, hys, hall⟩
        | next =>
          obtain ⟨zs, hzs, hzall⟩ := ih w1
          refine ⟨ys ++ zs, ?_, ?_⟩
          · simp only []
            rw [hzs, hys, List.append_assoc]
          · intro x hx
            rcases List.mem_append.mp hx with hx | hx
            · exact hall x hx
            · exact hzall x hx

/-- C21 (amended). Every progress value that the stage function of an item
passes to `SetProgress`, in however many iterations, is the `float32` that
`strconv.ParseFloat(s, 32)` returns for the text `s` in the column of the
completion percentage of a row of the progress query: it is the number read,
rounded to the nearest `float32`, or an infinity or NaN, neither scaled nor
clamped. In an iteration in which the overall status is IN_PROGRESS and
`fetchOverallProgress` parses the remaining time and, to the `float32` `c`, the
completion percentage, the progress values written are `c` and no other. -/
theorem C21_progress_is_parsed_value (env : Env) (ctx : Context) (id : String) (i : Nat)
    (d : DataStructureInfo) (err : Err) (w w1 : World) (row : Row) (rtStr cpStr : String)
    (r : Int) (c : Decimal) :
    (∀ (fuel : Nat) (w0 : World), ∃ xs : List Decimal,
        progressWrites ((mkStage env ctx id err i d).Func fuel w0).2.trace
          = progressWrites w0.trace ++ xs
        ∧ ∀ x ∈ xs, ∃ (clock : Nat) (row0 : Row) (s : String),
            env.sqlExecute ctx clock (progressQuery env id) = QueryResult.row (some row0)
            ∧ row0.cols[1]? = some (Except.ok (SQLValue.json s))
            ∧ ParseFloat32 s = Except.ok x)
    ∧ (env.ctxErr ctx w.clock = none →
      fetchMigrationStatus env ctx id w = (Run.ret (StatusInProgress, none), w1) →
      env.sqlExecute ctx w1.clock (progressQuery env id) = QueryResult.row (some row) →
      row.cols[0]? = some (Except.ok (SQLValue.json rtStr)) →
      row.cols[1]? = some (Except.ok (SQLValue.json cpStr)) →
      ParseInt64 rtStr = Except.ok r →
      ParseFloat32 cpStr = Except.ok c →
      progressWrites (pollIteration env ctx id i d err w).2.trace
        = progressWrites w.trace ++ [c]) := by
  refine ⟨?_, ?_⟩
  · intro fuel w0
    exact stageFunc_progressWrites env ctx id i d err fuel w0
  · intro hctx hst hq hrt hcp hr hc
    have hp := fetchOverallProgress_numbers env ctx id w1 row rtStr cpStr r c hq hrt hcp hr hc
    have hov := overallCheck_in_progress env ctx id d err w w1 _ _ hctx hst hp
    have hw1 := fetchMigrationStatus_world env ctx id w
    rw [hst] at hw1
    simp only at hw1
    subst hw1
    rw [pollIteration_progressWrites, hov]
    simp [progressWrites, progressEvents]

/-- Instances of the amended C21: two iterations of a stage function, and the
completion percentages 0.1, which is no `float32`, and Infinity. -/
theorem C21_progress_is_parsed_value_witness :
    (∃ xs : List Decimal,
        progressWrites ((mkStage (Env.scripted [jsonRow "\"IN_PROGRESS\"",
            jsonRow2 "1000" "12.5", jsonRow runningItemJSON, jsonRow "\"COMPLETE\""]
            QueryResult.empty) Context.command "m1" none 0 imap5).Func 2 World.init).2.trace
          = progressWrites World.init.trace ++ xs
        ∧ ∀ x ∈ xs, ∃ (clock : Nat) (row0 : Row) (s : String),
            (Env.scripted [jsonRow "\"IN_PROGRESS\"", jsonRow2 "1000" "12.5",
              jsonRow runningItemJSON, jsonRow "\"COMPLETE\""] QueryResult.empty).sqlExecute
                Context.command clock
                (progressQuery (Env.scripted [jsonRow "\"IN_PROGRESS\"", jsonRow2 "1000" "12.5",
                  jsonRow runningItemJSON, jsonRow "\"COMPLETE\""] QueryResult.empty) "m1")
              = QueryResult.row (some row0)
            ∧ row0.cols[1]? = some (Except.ok (SQLValue.json s))
            ∧ ParseFloat32 s = Except.ok x)
    ∧ progressWrites (pollIteration (Env.scripted [jsonRow "\"IN_PROGRESS\"",
          jsonRow2 "1000" "0.1"] QueryResult.empty) Context.command "m1" 0 imap5 none
          World.init).2.trace
        = [Decimal.mk 100000001490116119384765625 (-27)]
    ∧ progressWrites (pollIteration (Env.scripted [jsonRow "\"IN_PROGRESS\"",
          jsonRow2 "1000" "Infinity"] QueryResult.empty) Context.command "m1" 0 imap5 none
          World.init).2.trace
        = [Decimal.inf false] :=
  ⟨(C21_progress_is_parsed_value
      (Env.scripted [jsonRow "\"IN_PROGRESS\"", jsonRow2 "1000" "12.5",
        jsonRow runningItemJSON, jsonRow "\"COMPLETE\""] QueryResult.empty)
      Context.command "m1" 0 imap5 none World.init World.init (Row.mk []) "" "" 0
      Decimal.zero).1 2 World.init,
    (C21_progress_is_parsed_value
      (Env.scripted [jsonRow "\"IN_PROGRESS\"", jsonRow2 "1000" "0.1"] QueryResult.empty)
      Context.command "m1" 0 imap5 none World.init
      (World.mk 1 [Event.query Context.command statusQueryM1])
      (Row.mk [Except.ok (SQLValue.json "1000"), Except.ok (SQLValue.json "0.1")])
      "1000" "0.1" 1000 (Decimal.mk 100000001490116119384765625 (-27))).2
      (by rfl) (by rfl) (by rfl) (by rfl) (by rfl) (by rfl) (by rfl),
    (C21_progress_is_parsed_value
      (Env.scripted [jsonRow "\"IN_PROGRESS\"", jsonRow2 "1000" "Infinity"] QueryResult.empty)
      Context.command "m1" 0 imap5 none World.init
      (World.mk 1 [Event.query Context.command statusQueryM1])
      (Row.mk [Except.ok (SQLValue.json "1000"), Except.ok (SQLValue.json "Infinity")])
      "1000" "Infinity" 1000 (Decimal.inf false)).2
      (by rfl) (by rfl) (by rfl) (by rfl) (by rfl) (by rfl) (by rfl)⟩

/-! ## The errors of the status fetch -/

/-- C24. Every error that `fetchMigrationStatus` returns is
`migrationStatusNotFoundErr`, and it returns that error whenever the query
fails (execution, iteration or context error), finds no row, or the column
cannot be read or is SQL NULL. So an error that
`WaitForMigrationToBeInProgress` returns never comes from the status fetch: it
was made in the branch of the status FAILED, as the text of the error list or
as the wrapped error of `fetchMigrationErrors`. -/
theorem C24_status_fetch_error_is_not_found (env : Env) (ctx : Context) (id : String)
    (w : World) (fuel : Nat) :
    (∀ s e, (fetchMigrationStatus env ctx id w).1 = Run.ret (s, some e)
        → e = migrationStatusNotFoundErr)
    ∧ (((∃ e, env.sqlExecute ctx w.clock (statusQuery env id) = QueryResult.execErr e)
          ∨ (∃ e, env.sqlExecute ctx w.clock (statusQuery env id) = QueryResult.iterErr e)
          ∨ (∃ e, env.sqlExecute ctx w.clock (statusQuery env id) = QueryResult.nextErr e)
          ∨ env.sqlExecute ctx w.clock (statusQuery env id) = QueryResult.empty
          ∨ (∃ row, env.sqlExecute ctx w.clock (statusQuery env id) = QueryResult.row (some row)
              ∧ (row.cols[0]? = none ∨ (∃ e, row.cols[0]? = some (Except.error e))
                ∨ row.cols[0]? = some (Except.ok SQLValue.null))))
        → (fetchMigrationStatus env ctx id w).1 = Run.ret ("", some migrationStatusNotFoundErr))
    ∧ (∀ e, (WaitForMigrationToBeInProgress env ctx id fuel w).1 = Run.ret (some e)
        → ∃ wf w1 w2 errs ferr,
            fetchMigrationStatus env ctx id wf = (Run.ret (StatusFailed, none), w1)
            ∧ fetchMigrationErrors env ctx id w1 = (Run.ret (errs, ferr), w2)
            ∧ e = (match ferr with
                | some fe => GoError.wrap
                    ("migration failed and dmt cannot fetch migration errors: " ++ fe.Error) fe
                | none => GoError.fresh errs)) := by
  refine ⟨fun s e h => fetchMigrationStatus_err env ctx id w s e h, ?_, ?_⟩
  · intro hq
    simp only [fetchMigrationStatus, Go.bind_eq, Go.bind_apply, querySingleRow_eq]
    rcases hq with ⟨e, h⟩ | ⟨e, h⟩ | ⟨e, h⟩ | h | ⟨row, h, hc | ⟨e, hc⟩ | hc⟩
    · simp [h]
    · simp [h]
    · simp [h]
    · simp [h]
    · simp [h, rowGet, hc]
    · simp [h, rowGet, hc]
    · simp [h, rowGet, hc]
  · induction fuel generalizing w with
    | zero => intro e h; simp [WaitForMigrationToBeInProgress] at h
    | succ n ih =>
      intro e h
      rcases hf : fetchMigrationStatus env ctx id w with ⟨r, w1⟩
      cases r with
      | panic msg => simp [WaitForMigrationToBeInProgress, hf] at h
      | pending => simp [WaitForMigrationToBeInProgress, hf] at h
      | ret p =>
        obtain ⟨s, serr⟩ := p
        cases serr with
        | some se =>
          rw [wait_retry_on_error env ctx id n w w1 s se hf] at h
          exact ih w1 e h
        | none =>
          by_cases hfail : s = StatusFailed
          · subst hfail
            rcases he : fetchMigrationErrors env ctx id w1 with ⟨r2, w2⟩
            cases r2 with
            | panic msg => simp [WaitForMigrationToBeInProgress, hf, he] at h
            | pending => simp [WaitForMigrationToBeInProgress, hf, he] at h
            | ret q =>
              obtain ⟨errs, ferr⟩ := q
              rw [wait_failed_returns_error env ctx id n w w1 w2 errs ferr hf he] at h
              refine ⟨w, w1, w2, errs, ferr, hf, he, ?_⟩
              cases ferr with
              | some fe => simp at h; exact h.symm
              | none => simp at h; exact h.symm
          · by_cases hprog : s = StatusInProgress
            · subst hprog
              rw [wait_done_in_progress env ctx id n w w1 hf] at h
              simp at h
            · rw [wait_retry_on_other env ctx id n w w1 s hf hfail hprog] at h
              exact ih w1 e h

/-- An instance of C24: a query that finds no row, and a wait that ends on
the status FAILED with the error list of the record. -/
theorem C24_status_fetch_error_is_not_found_witness :
    (fetchMigrationStatus (Env.scripted [jsonRow "\"FAILED\"", jsonRow "[\"e1\"]"]
        QueryResult.empty) Context.command "m1" (World.mk 5 [])).1
      = Run.ret ("", some migrationStatusNotFoundErr)
    ∧ ∃ wf w1 w2 errs ferr,
        fetchMigrationStatus (Env.scripted [jsonRow "\"FAILED\"", jsonRow "[\"e1\"]"]
            QueryResult.empty) Context.command "m1" wf = (Run.ret (StatusFailed, none), w1)
        ∧ fetchMigrationErrors (Env.scripted [jsonRow "\"FAILED\"", jsonRow "[\"e1\"]"]
            QueryResult.empty) Context.command "m1" w1 = (Run.ret (errs, ferr), w2)
        ∧ GoError.fresh "* e1" = (match ferr with
            | some fe => GoError.wrap
                ("migration failed and dmt cannot fetch migration errors: " ++ fe.Error) fe
            | none => GoError.fresh errs) :=
  ⟨(C24_status_fetch_error_is_not_found
      (Env.scripted [jsonRow "\"FAILED\"", jsonRow "[\"e1\"]"] QueryResult.empty)
      Context.command "m1" (World.mk 5 []) 0).2.1 (Or.inr (Or.inr (Or.inr (Or.inl (by rfl))))),
    (C24_status_fetch_error_is_not_found
      (Env.scripted [jsonRow "\"FAILED\"", jsonRow "[\"e1\"]"] QueryResult.empty)
      Context.command "m1" World.init 1).2.2 (GoError.fresh "* e1") (by rfl)⟩

/-! ## The rendering of an error -/

/-- C22. For an error that is neither a timeout nor an `HTTPError`,
`MakeString` gives `ERROR ` followed by the text of the error with its first
character upper-cased and every other character unchanged; for an empty text
it gives `ERROR `. The upper-casing is that of the letters `a` to `z`, as
`Char.toUpper` does it; every other first character stays. -/
theorem C22_first_character_upper_cased (e : GoError)
    (ht : IsTimeout (some e) = false) (hh : e.asHTTP = none) :
    (∀ c cs, e.Error = String.mk (c :: cs)
        → MakeString (some e) = Run.ret ("ERROR " ++ String.mk (c.toUpper :: cs)))
    ∧ (e.Error = "" → MakeString (some e) = Run.ret "ERROR ") := by
  refine ⟨?_, ?_⟩
  · intro c cs hm
    simp only [MakeString, ht, hh, hm, upperFirst]
    rfl
  · intro hm
    simp only [MakeString, ht, hh, hm, upperFirst]
    rfl

/-- An instance of C22: the error of a failed stage of the migration. -/
theorem C22_first_character_upper_cased_witness :
    MakeString (some (GoError.fresh "failed migrating IMAP: imap5 ...: some error"))
        = Run.ret "ERROR Failed migrating IMAP: imap5 ...: some error"
    ∧ MakeString (some (GoError.fresh "")) = Run.ret "ERROR " :=
  ⟨(C22_first_character_upper_cased
      (GoError.fresh "failed migrating IMAP: imap5 ...: some error") (by decide) (by rfl)).1
      'f' "ailed migrating IMAP: imap5 ...: some error".data (by rfl),
    (C22_first_character_upper_cased (GoError.fresh "") (by decide) (by rfl)).2 (by rfl)⟩

/-- C25. For an error that is, or wraps, `context.DeadlineExceeded` or
`hzerrors.ErrTimeout`, `MakeString` gives `TIMEOUT`, whatever the text of the
error; `timeoutErr` is such an error, so its guidance text is not part of the
line that is rendered. -/
theorem C25_timeout_renders_as_timeout (e : GoError)
    (h : e.Is Sentinel.DeadlineExceeded = true ∨ e.Is Sentinel.ErrTimeout = true) :
    MakeString (some e) = Run.ret "TIMEOUT"
    ∧ IsTimeout (some timeoutErr) = true
    ∧ MakeString (some timeoutErr) = Run.ret "TIMEOUT"
    ∧ timeoutErr.Error
        = "migration could not be completed: reached timeout while reading status: "
          ++ "please ensure that you are using Hazelcast's migration cluster distribution and your DMT configuration points to that cluster: "
          ++ "context deadline exceeded" := by
  refine ⟨?_, by decide, by decide, by rfl⟩
  rcases h with h | h
  · simp [MakeString, IsTimeout, errorsIs, h]
  · simp [MakeString, IsTimeout, errorsIs, h]

/-- An instance of C25: an error that wraps `hzerrors.ErrTimeout`. -/
theorem C25_timeout_renders_as_timeout_witness :
    MakeString (some (GoError.wrap "reading: timeout" (GoError.sentinel Sentinel.ErrTimeout)))
      = Run.ret "TIMEOUT" :=
  (C25_timeout_renders_as_timeout
    (GoError.wrap "reading: timeout" (GoError.sentinel Sentinel.ErrTimeout))
    (Or.inr (by rfl))).1

/-! ## The HTTP helpers of the Viridian client -/

/-- The call `http.DefaultClient.Do` returns what the server answers at the
clock, and records the request. -/
theorem httpClientDo_eq (env : VEnv) (ctx : Context) (req : HTTPRequest) (w : World) :
    httpClientDo env ctx req w
      = (Run.ret (env.httpDo w.clock ctx req),
          World.mk (w.clock + 1) (w.trace ++ [Event.httpDo ctx req])) := by
  simp only [httpClientDo, Go.bind_eq, Go.pure_eq, Go.bind_apply, Go.pure_apply,
    Go.now_apply, Go.emit_apply, Go.tick_apply]

/-- The requests of a list of requests that were sent. -/
theorem httpRequests_map (ctx : Context) (reqs : List HTTPRequest) :
    httpRequests (reqs.map (Event.httpDo ctx)) = reqs := by
  induction reqs with
  | nil => rfl
  | cons r rest ih =>
    simp only [httpRequests, List.map_cons, List.filterMap_cons] at ih ⊢
    rw [ih]

/-- The requests sent between two worlds of which the second extends the first. -/
theorem sentRequests_of_extends (w w1 : World) (reqs : List HTTPRequest)
    (h : w.Extends w1 reqs) : sentRequests w w1 = reqs := by
  obtain ⟨evs, h1, h2⟩ := h
  simp [sentRequests, h1, ← h2, httpRequests, List.filterMap_append]

/-- A world extends itself by no request. -/
theorem extends_refl (w : World) : w.Extends w [] := ⟨[], by simp, rfl⟩

/-- Sending one request extends the world by that request. -/
theorem extends_one (w : World) (ctx : Context) (t : HTTPRequest) (c : Nat) :
    w.Extends (World.mk c (w.trace ++ [Event.httpDo ctx t])) [t] := ⟨[Event.httpDo ctx t], rfl, rfl⟩

/-- Extensions compose. -/
theorem extends_trans (w w1 w2 : World) (a b : List HTTPRequest)
    (h1 : w.Extends w1 a) (h2 : w1.Extends w2 b) : w.Extends w2 (a ++ b) := by
  obtain ⟨e1, h1, rfl⟩ := h1
  obtain ⟨e2, h2, rfl⟩ := h2
  exact ⟨e1 ++ e2, by rw [h2, h1, List.append_assoc],
    by simp [httpRequests, List.filterMap_append]⟩

/-- The world after a list of requests extends the world by them. -/
theorem extends_afterRequests (w : World) (ctx : Context) (reqs : List HTTPRequest) :
    w.Extends (w.afterRequests ctx reqs) reqs :=
  ⟨reqs.map (Event.httpDo ctx), rfl, httpRequests_map ctx reqs⟩

/-- A call of `API.RefreshAccessToken` sends no request or one. -/
theorem refreshRequests_cases (env : VEnv) (a : API) :
    refreshRequests env a = [] ∨ ∃ m, refreshRequests env a = [refreshRequest env a m] := by
  unfold refreshRequests
  cases env.marshalRefreshTokenRequest a.RefreshToken with
  | error e => exact Or.inl rfl
  | ok m =>
    by_cases h : env.newRequestErr "POST" (makeUrl env "/customers/api/token/refresh") = none
    · exact Or.inr ⟨m, by simp [h]⟩
    · exact Or.inl (by simp [h])

/-- A call of `doPostBytes` that may not retry returns, and sends its request
once if the request can be made; it fails if the request cannot be made, and
on a response 401. -/
theorem doPostBytes_once (env : VEnv) (ctx : Context) (url : String) (api : API)
    (body : String) (fuel : Nat) (w : World) :
    ∃ r, doPostBytes env ctx url api body (fuel + 1) false w
        = (Run.ret r,
            w.afterRequests ctx
              (if env.newRequestErr "POST" url = none then
                [targetRequest "POST" url true api (some body)] else []))
      ∧ (r.2 = none → env.newRequestErr "POST" url = none)
      ∧ (∀ res, env.httpDo w.clock ctx (targetRequest "POST" url true api (some body))
            = Except.ok res
          → res.StatusCode = StatusUnauthorized → r.2 ≠ none) := by
  simp only [doPostBytes, Go.bind_eq, Go.pure_eq, targetRequest]
  cases h : env.newRequestErr "POST" url with
  | some e => exact ⟨_, by simp [World.afterRequests]; rfl, by simp, by simp⟩
  | none =>
    simp only [Go.bind_apply, httpClientDo_eq]
    cases hd : env.httpDo w.clock ctx _ with
    | error e => exact ⟨_, by simp [World.afterRequests]; rfl, by simp, by simp⟩
    | ok res =>
      cases hb : res.Body with
      | error e => exact ⟨_, by simp [World.afterRequests, hb]; rfl, by simp, by simp⟩
      | ok rb =>
        by_cases h2 : res.StatusCode = 200
        · refine ⟨(rb, none), by simp [World.afterRequests, hb, h2], by simp, ?_⟩
          intro res1 hres h401
          cases hd.symm.trans hres
          rw [h401] at h2
          exact absurd h2 (by decide)
        · exact ⟨_, by simp [World.afterRequests, hb, h2]; rfl, by simp, by simp⟩

/-- A call of `doPost` for a new token returns, and sends its request once if
the payload and the request can be made. -/
theorem doPost_once (env : VEnv) (ctx : Context) (api : API) (fuel : Nat) (w : World) :
    ∃ r, doPost env ctx "/customers/api/token/refresh" api api.RefreshToken (fuel + 2) false w
        = (Run.ret r, w.afterRequests ctx (refreshRequests env api))
      ∧ (r.2 = none → ∃ m, refreshRequests env api = [refreshRequest env api m]) := by
  simp only [doPost, Go.bind_eq, Go.pure_eq, refreshRequests]
  cases hm : env.marshalRefreshTokenRequest api.RefreshToken with
  | error e => exact ⟨_, by simp [World.afterRequests]; rfl, by simp⟩
  | ok m =>
    obtain ⟨b, hb, hok, _⟩ := doPostBytes_once env ctx
      (makeUrl env "/customers/api/token/refresh") api m fuel w
    simp only [Go.bind_apply, hb]
    obtain ⟨b1, b2⟩ := b
    cases b2 with
    | some e =>
      cases hn : env.newRequestErr "POST" (makeUrl env "/customers/api/token/refresh") with
      | some e1 =>
        exact ⟨_, by simp [World.afterRequests, refreshRequest, targetRequest]; rfl, by simp⟩
      | none =>
        exact ⟨_, by simp [World.afterRequests, refreshRequest, targetRequest]; rfl, by simp⟩
    | none =>
      have hn := hok rfl
      simp only [hn]
      cases hu : UnmarshalRefreshTokenResponse b1 RefreshTokenResponse.zero with
      | mk res uerr =>
        cases uerr with
        | some e =>
          exact ⟨_, by simp [World.afterRequests, refreshRequest, targetRequest]; rfl, by simp⟩
        | none =>
          exact ⟨_, by simp [World.afterRequests, refreshRequest, targetRequest]; rfl, by simp⟩

/-- A call of `API.RefreshAccessToken` returns, and sends one request if the
payload and the request can be made; it fails if it sends none. On success the
copy of the receiver holds the tokens of the response. -/
theorem RefreshAccessToken_once (env : VEnv) (ctx : Context) (a : API) (fuel : Nat)
    (w : World) :
    ∃ r, RefreshAccessToken env ctx a (fuel + 3) w
        = (Run.ret r, w.afterRequests ctx (refreshRequests env a))
      ∧ (r.2.2 = none → ∃ m, refreshRequests env a = [refreshRequest env a m])
      ∧ (r.2.2 = none
          → r.1 = API.mk r.2.1.AccessToken r.2.1.RefreshToken a.ExpiresIn) := by
  obtain ⟨p, hp, hok⟩ := doPost_once env ctx a fuel w
  simp only [RefreshAccessToken, Go.bind_eq, Go.pure_eq, Go.bind_apply, hp]
  obtain ⟨res, perr⟩ := p
  cases perr with
  | some e => exact ⟨_, by simp; rfl, by simp, by simp⟩
  | none => exact ⟨_, by simp; rfl, fun _ => hok rfl, fun _ => rfl⟩

/-- The branch of a helper that was answered 401 and may retry: the token is
refreshed with at most one request, and only when that succeeds the helper
runs once more. -/
theorem retry_branch {α : Type} (env : VEnv) (ctx : Context) (api : API) (fuel : Nat)
    (w1 : World) (fail : GoError → α) (again : Go α) (t : HTTPRequest)
    (hagain : ∀ w2, ∃ r3 w3, again w2 = (Run.ret r3, w3)
      ∧ (w2.Extends w3 [] ∨ w2.Extends w3 [t])) :
    ∃ r w2 L,
      (RefreshAccessToken env ctx api (fuel + 3)).bind
          (fun r => match r.2.2 with
            | some e => Go.pure (fail e)
            | none => again) w1 = (Run.ret r, w2)
      ∧ w1.Extends w2 L
      ∧ (L = [] ∨ ∃ m, L = [refreshRequest env api m] ∨ L = [refreshRequest env api m, t])
      ∧ (∀ m, L = [refreshRequest env api m, t] → ∃ w0, again w0 = (Run.ret r, w2)) := by
  obtain ⟨rr, hR, hok, _⟩ := RefreshAccessToken_once env ctx api fuel w1
  simp only [Go.bind_apply, hR]
  obtain ⟨a1, resp, rerr⟩ := rr
  cases rerr with
  | some e =>
    refine ⟨_, _, refreshRequests env api, rfl, extends_afterRequests _ _ _, ?_, ?_⟩
    · rcases refreshRequests_cases env api with h0 | ⟨m, h1⟩
      · exact Or.inl h0
      · exact Or.inr ⟨m, Or.inl h1⟩
    · intro m hm
      rcases refreshRequests_cases env api with h0 | ⟨m1, h1⟩
      · rw [h0] at hm
        simp at hm
      · rw [h1] at hm
        simp at hm
  | none =>
    obtain ⟨m, h1⟩ := hok rfl
    obtain ⟨r3, w3, h3, hext⟩ := hagain (w1.afterRequests ctx (refreshRequests env api))
    simp only [h3]
    rcases hext with hext | hext
    · refine ⟨_, _, [refreshRequest env api m], rfl, ?_, Or.inr ⟨m, Or.inl rfl⟩, by simp⟩
      have := extends_trans _ _ _ _ _ (extends_afterRequests w1 ctx (refreshRequests env api)) hext
      rw [h1] at this
      simpa using this
    · refine ⟨_, _, [refreshRequest env api m, t], rfl, ?_, Or.inr ⟨m, Or.inr rfl⟩,
        fun _ _ => ⟨_, h3⟩⟩
      have := extends_trans _ _ _ _ _ (extends_afterRequests w1 ctx (refreshRequests env api)) hext
      rw [h1] at this
      simpa using this

/-- From the requests of the branch after a response 401 to the requests of
the whole call. -/
theorem retriesOnce_of_branch (env : VEnv) (api : API) (t : HTTPRequest)
    (L : List HTTPRequest)
    (h : L = [] ∨ ∃ m, L = [refreshRequest env api m] ∨ L = [refreshRequest env api m, t]) :
    RetriesOnce true t (fun q => ∃ m, q = refreshRequest env api m) (t :: L) := by
  rcases h with h | ⟨m, h | h⟩
  · exact Or.inr (Or.inl (by rw [h]))
  · exact Or.inr (Or.inr ⟨rfl, _, ⟨m, rfl⟩, Or.inl (by rw [h])⟩)
  · exact Or.inr (Or.inr ⟨rfl, _, ⟨m, rfl⟩, Or.inr (by rw [h])⟩)

/-- A call of `doDelete` that may not retry returns, and sends its request
once if the request can be made; a response 401 makes it fail. -/
theorem doDelete_once (env : VEnv) (ctx : Context) (path : String) (api : API)
    (fuel : Nat) (w : World) :
    ∃ r w1, doDelete env ctx path api (fuel + 1) false w = (Run.ret r, w1)
      ∧ w.Extends w1
          (if env.newRequestErr "DELETE" (makeUrl env path) = none then
            [targetRequest "DELETE" (makeUrl env path) true api none] else [])
      ∧ (∀ res, env.httpDo w.clock ctx (targetRequest "DELETE" (makeUrl env path) true api none)
            = Except.ok res
          → res.StatusCode = StatusUnauthorized → r ≠ none) := by
  rw [doDelete]
  simp only [Go.bind_eq, Go.pure_eq, targetRequest]
  cases h : env.newRequestErr "DELETE" (makeUrl env path) with
  | some e => exact ⟨_, _, rfl, extends_refl w, by simp⟩
  | none =>
    simp only [Go.bind_apply, httpClientDo_eq]
    cases hd : env.httpDo w.clock ctx _ with
    | error e => exact ⟨_, _, rfl, extends_one w ctx _ _, by simp⟩
    | ok res =>
      cases hb : res.Body with
      | error e =>
        simp only [hb]
        exact ⟨_, _, rfl, extends_one w ctx _ _, by simp⟩
      | ok rb =>
        simp only [hb, Bool.false_eq_true, and_false, if_false]
        by_cases h2 : res.StatusCode ≠ StatusOK ∧ res.StatusCode ≠ StatusNoContent
        · rw [if_pos h2]
          exact ⟨_, _, rfl, extends_one w ctx _ _, by simp⟩
        · rw [if_neg h2]
          refine ⟨_, _, rfl, extends_one w ctx _ _, ?_⟩
          intro res1 hres h401
          cases hd.symm.trans hres
          exact absurd (by rw [h401]; decide) h2

/-- What a second attempt sends, for the branch after a response 401. -/
theorem extends_none_or_one (w w1 : World) (c : Prop) [Decidable c] (t : HTTPRequest)
    (h : w.Extends w1 (if c then [t] else [])) : w.Extends w1 [] ∨ w.Extends w1 [t] := by
  by_cases hc : c
  · exact Or.inr (by simpa [hc] using h)
  · exact Or.inl (by simpa [hc] using h)

/-- A call of `doDelete` that may retry returns, and sends its request at most
twice, the second time after one request for a new token. -/
theorem doDelete_retry (env : VEnv) (ctx : Context) (path : String) (api : API)
    (fuel : Nat) (w : World) :
    ∃ r w1 L, doDelete env ctx path api (fuel + 4) true w = (Run.ret r, w1)
      ∧ w.Extends w1 L
      ∧ RetriesOnce true (targetRequest "DELETE" (makeUrl env path) true api none)
          (fun q => ∃ m, q = refreshRequest env api m) L
      ∧ (∀ m, L = [targetRequest "DELETE" (makeUrl env path) true api none, refreshRequest env api m,
            targetRequest "DELETE" (makeUrl env path) true api none]
          → ∃ w0, doDelete env ctx path api (fuel + 3) false w0 = (Run.ret r, w1)) := by
  rw [doDelete]
  simp only [Go.bind_eq, Go.pure_eq]
  cases h : env.newRequestErr "DELETE" (makeUrl env path) with
  | some e => exact ⟨_, _, _, rfl, extends_refl w, Or.inl rfl, by simp⟩
  | none =>
    simp only [Go.bind_apply, httpClientDo_eq]
    cases hd : env.httpDo w.clock ctx _ with
    | error e => exact ⟨_, _, _, rfl, extends_one w ctx _ _, Or.inr (Or.inl rfl), by simp⟩
    | ok res =>
      cases hb : res.Body with
      | error e =>
        simp only [hb]
        exact ⟨_, _, _, rfl, extends_one w ctx _ _, Or.inr (Or.inl rfl), by simp⟩
      | ok rb =>
        simp only [hb, and_true]
        by_cases h401 : res.StatusCode = StatusUnauthorized
        · rw [if_pos h401]
          obtain ⟨r, w2, L, hrun, hext, hL, hfin⟩ := retry_branch env ctx api fuel
            (World.mk (w.clock + 1) (w.trace ++ [Event.httpDo ctx
              (targetRequest "DELETE" (makeUrl env path) true api none)]))
            (fun e => some e) (doDelete env ctx path api (fuel + 3) false)
            (targetRequest "DELETE" (makeUrl env path) true api none)
            (fun w2 => by
              obtain ⟨r3, w3, h3, hx, _⟩ := doDelete_once env ctx path api (fuel + 2) w2
              exact ⟨r3, w3, h3, extends_none_or_one _ _ _ _ hx⟩)
          exact ⟨r, w2, _, hrun, extends_trans _ _ _ _ _ (extends_one w ctx _ _) hext,
            retriesOnce_of_branch env api _ L hL,
            fun m hm => hfin m (by simpa using hm)⟩
        · rw [if_neg h401]
          by_cases h2 : res.StatusCode ≠ StatusOK ∧ res.StatusCode ≠ StatusNoContent
          · rw [if_pos h2]
            exact ⟨_, _, _, rfl, extends_one w ctx _ _, Or.inr (Or.inl rfl), by simp⟩
          · rw [if_neg h2]
            exact ⟨_, _, _, rfl, extends_one w ctx _ _, Or.inr (Or.inl rfl), by simp⟩

/-- A call of `doPostBytes` that may retry returns, and sends its request at
most twice, the second time after one request for a new token. -/
theorem doPostBytes_retry (env : VEnv) (ctx : Context) (url : String) (api : API)
    (body : String) (fuel : Nat) (w : World) :
    ∃ r w1 L, doPostBytes env ctx url api body (fuel + 4) true w = (Run.ret r, w1)
      ∧ w.Extends w1 L
      ∧ RetriesOnce true (targetRequest "POST" url true api (some body))
          (fun q => ∃ m, q = refreshRequest env api m) L
      ∧ (∀ m, L = [targetRequest "POST" url true api (some body), refreshRequest env api m,
            targetRequest "POST" url true api (some body)]
          → ∃ w0, doPostBytes env ctx url api body (fuel + 3) false w0 = (Run.ret r, w1)) := by
  rw [doPostBytes]
  simp only [Go.bind_eq, Go.pure_eq]
  cases h : env.newRequestErr "POST" url with
  | some e => exact ⟨_, _, _, rfl, extends_refl w, Or.inl rfl, by simp⟩
  | none =>
    simp only [Go.bind_apply, httpClientDo_eq]
    cases hd : env.httpDo w.clock ctx _ with
    | error e => exact ⟨_, _, _, rfl, extends_one w ctx _ _, Or.inr (Or.inl rfl), by simp⟩
    | ok res =>
      cases hb : res.Body with
      | error e =>
        simp only [hb]
        exact ⟨_, _, _, rfl, extends_one w ctx _ _, Or.inr (Or.inl rfl), by simp⟩
      | ok rb =>
        simp only [hb, and_true]
        by_cases h401 : res.StatusCode = StatusUnauthorized
        · rw [if_pos h401]
          obtain ⟨r, w2, L, hrun, hext, hL, hfin⟩ := retry_branch env ctx api fuel
            (World.mk (w.clock + 1) (w.trace ++ [Event.httpDo ctx
              (targetRequest "POST" url true api (some body))]))
            (fun e => ("", some e)) (doPostBytes env ctx url api body (fuel + 3) false)
            (targetRequest "POST" url true api (some body))
            (fun w2 => by
              obtain ⟨r3, h3, _⟩ := doPostBytes_once env ctx url api body (fuel + 2) w2
              exact ⟨r3, _, h3,
                extends_none_or_one _ _ _ _ (extends_afterRequests w2 ctx _)⟩)
          exact ⟨r, w2, _, hrun, extends_trans _ _ _ _ _ (extends_one w ctx _ _) hext,
            retriesOnce_of_branch env api _ L hL,
            fun m hm => hfin m (by simpa using hm)⟩
        · rw [if_neg h401]
          by_cases h2 : res.StatusCode = 200
          · rw [if_pos h2]
            exact ⟨_, _, _, rfl, extends_one w ctx _ _, Or.inr (Or.inl rfl), by simp⟩
          · rw [if_neg h2]
            exact ⟨_, _, _, rfl, extends_one w ctx _ _, Or.inr (Or.inl rfl), by simp⟩

/-- A call of `doGet` that may not retry returns, and sends its request once
if the request can be made; a response 401 makes it fail. -/
theorem doGet_once {Res : Type} (env : VEnv) (unmarshal : String → Res → Res × Err)
    (zero : Res) (ctx : Context) (path : String) (api : API) (fuel : Nat) (w : World) :
    ∃ r w1, doGet env unmarshal zero ctx path api (fuel + 1) false w = (Run.ret r, w1)
      ∧ w.Extends w1
          (if env.newRequestErr "GET" (makeUrl env path) = none then
            [targetRequest "GET" (makeUrl env path) true api none] else [])
      ∧ (∀ res, env.httpDo w.clock ctx (targetRequest "GET" (makeUrl env path) true api none)
            = Except.ok res
          → res.StatusCode = StatusUnauthorized → r.2 ≠ none) := by
  rw [doGet]
  simp only [Go.bind_eq, Go.pure_eq, targetRequest]
  cases h : env.newRequestErr "GET" (makeUrl env path) with
  | some e => exact ⟨_, _, rfl, extends_refl w, by simp⟩
  | none =>
    simp only [Go.bind_apply, httpClientDo_eq]
    cases hd : env.httpDo w.clock ctx _ with
    | error e => exact ⟨_, _, rfl, extends_one w ctx _ _, by simp⟩
    | ok res =>
      cases hb : res.Body with
      | error e =>
        simp only [hb]
        exact ⟨_, _, rfl, extends_one w ctx _ _, by simp⟩
      | ok rb =>
        simp only [hb, Bool.false_eq_true, and_false, if_false]
        by_cases h2 : res.StatusCode = StatusOK
        · rw [if_pos h2]
          cases hu : unmarshal rb zero with
          | mk v uerr =>
            cases uerr with
            | some e => exact ⟨_, _, rfl, extends_one w ctx _ _, by simp⟩
            | none =>
              refine ⟨_, _, rfl, extends_one w ctx _ _, ?_⟩
              intro res1 hres h401
              cases hd.symm.trans hres
              rw [h401] at h2
              exact absurd h2 (by decide)
        · rw [if_neg h2]
          exact ⟨_, _, rfl, extends_one w ctx _ _, by simp⟩

/-- A call of `doGet` that may retry returns, and sends its request at most
twice, the second time after one request for a new token. -/
theorem doGet_retry {Res : Type} (env : VEnv) (unmarshal : String → Res → Res × Err)
    (zero : Res) (ctx : Context) (path : String) (api : API) (fuel : Nat) (w : World) :
    ∃ r w1 L, doGet env unmarshal zero ctx path api (fuel + 4) true w = (Run.ret r, w1)
      ∧ w.Extends w1 L
      ∧ RetriesOnce true (targetRequest "GET" (makeUrl env path) true api none)
          (fun q => ∃ m, q = refreshRequest env api m) L
      ∧ (∀ m, L = [targetRequest "GET" (makeUrl env path) true api none, refreshRequest env api m,
            targetRequest "GET" (makeUrl env path) true api none]
          → ∃ w0, doGet env unmarshal zero ctx path api (fuel + 3) false w0 = (Run.ret r, w1)) := by
  rw [doGet]
  simp only [Go.bind_eq, Go.pure_eq]
  cases h : env.newRequestErr "GET" (makeUrl env path) with
  | some e => exact ⟨_, _, _, rfl, extends_refl w, Or.inl rfl, by simp⟩
  | none =>
    simp only [Go.bind_apply, httpClientDo_eq]
    cases hd : env.httpDo w.clock ctx _ with
    | error e => exact ⟨_, _, _, rfl, extends_one w ctx _ _, Or.inr (Or.inl rfl), by simp⟩
    | ok res =>
      cases hb : res.Body with
      | error e =>
        simp only [hb]
        exact ⟨_, _, _, rfl, extends_one w ctx _ _, Or.inr (Or.inl rfl), by simp⟩
      | ok rb =>
        simp only [hb, and_true]
        by_cases h2 : res.StatusCode = StatusOK
        · rw [if_pos h2]
          cases hu : unmarshal rb zero with
          | mk v uerr =>
            cases uerr with
            | some e => exact ⟨_, _, _, rfl, extends_one w ctx _ _, Or.inr (Or.inl rfl), by simp⟩
            | none => exact ⟨_, _, _, rfl, extends_one w ctx _ _, Or.inr (Or.inl rfl), by simp⟩
        · rw [if_neg h2]
          by_cases h401 : res.StatusCode = StatusUnauthorized
          · rw [if_pos h401]
            obtain ⟨r, w2, L, hrun, hext, hL, hfin⟩ := retry_branch env ctx api fuel
              (World.mk (w.clock + 1) (w.trace ++ [Event.httpDo ctx
                (targetRequest "GET" (makeUrl env path) true api none)]))
              (fun e => (zero, some e)) (doGet env unmarshal zero ctx path api (fuel + 3) false)
              (targetRequest "GET" (makeUrl env path) true api none)
              (fun w2 => by
                obtain ⟨r3, w3, h3, hx, _⟩ :=
                  doGet_once env unmarshal zero ctx path api (fuel + 2) w2
                exact ⟨r3, w3, h3, extends_none_or_one _ _ _ _ hx⟩)
            exact ⟨r, w2, _, hrun, extends_trans _ _ _ _ _ (extends_one w ctx _ _) hext,
              retriesOnce_of_branch env api _ L hL,
            fun m hm => hfin m (by simpa using hm)⟩
          · rw [if_neg h401]
            exact ⟨_, _, _, rfl, extends_one w ctx _ _, Or.inr (Or.inl rfl), by simp⟩

/-- A call of `doGetRaw` that may not retry returns, and sends its request
once if the request can be made; a response 401 makes it fail. -/
theorem doGetRaw_once (env : VEnv) (ctx : Context) (path : String) (api : API)
    (fuel : Nat) (w : World) :
    ∃ r w1, doGetRaw env ctx path api (fuel + 1) false w = (Run.ret r, w1)
      ∧ w.Extends w1
          (if env.newRequestErr "GET" (makeUrl env path) = none then
            [targetRequest "GET" (makeUrl env path) true api none] else [])
      ∧ (∀ res, env.httpDo w.clock ctx (targetRequest "GET" (makeUrl env path) true api none)
            = Except.ok res
          → res.StatusCode = StatusUnauthorized → r.2 ≠ none) := by
  rw [doGetRaw]
  simp only [Go.bind_eq, Go.pure_eq, targetRequest]
  cases h : env.newRequestErr "GET" (makeUrl env path) with
  | some e => exact ⟨_, _, rfl, extends_refl w, by simp⟩
  | none =>
    simp only [Go.bind_apply, httpClientDo_eq]
    cases hd : env.httpDo w.clock ctx _ with
    | error e => exact ⟨_, _, rfl, extends_one w ctx _ _, by simp⟩
    | ok res =>
      simp only [Bool.false_eq_true, and_false, if_false]
      by_cases h2 : res.StatusCode = 200
      · rw [if_pos h2]
        refine ⟨_, _, rfl, extends_one w ctx _ _, ?_⟩
        intro res1 hres h401
        cases hd.symm.trans hres
        rw [h401] at h2
        exact absurd h2 (by decide)
      · rw [if_neg h2]
        cases hb : res.Body with
        | error e => exact ⟨_, _, rfl, extends_one w ctx _ _, by simp⟩
        | ok rb => exact ⟨_, _, rfl, extends_one w ctx _ _, by simp⟩

/-- A call of `doGetRaw` that may retry returns, and sends its request at most
twice, the second time after one request for a new token. -/
theorem doGetRaw_retry (env : VEnv) (ctx : Context) (path : String) (api : API)
    (fuel : Nat) (w : World) :
    ∃ r w1 L, doGetRaw env ctx path api (fuel + 4) true w = (Run.ret r, w1)
      ∧ w.Extends w1 L
      ∧ RetriesOnce true (targetRequest "GET" (makeUrl env path) true api none)
          (fun q => ∃ m, q = refreshRequest env api m) L
      ∧ (∀ m, L = [targetRequest "GET" (makeUrl env path) true api none, refreshRequest env api m,
            targetRequest "GET" (makeUrl env path) true api none]
          → ∃ w0, doGetRaw env ctx path api (fuel + 3) false w0 = (Run.ret r, w1)) := by
  rw [doGetRaw]
  simp only [Go.bind_eq, Go.pure_eq]
  cases h : env.newRequestErr "GET" (makeUrl env path) with
  | some e => exact ⟨_, _, _, rfl, extends_refl w, Or.inl rfl, by simp⟩
  | none =>
    simp only [Go.bind_apply, httpClientDo_eq]
    cases hd : env.httpDo w.clock ctx _ with
    | error e => exact ⟨_, _, _, rfl, extends_one w ctx _ _, Or.inr (Or.inl rfl), by simp⟩
    | ok res =>
      simp only [and_true]
      by_cases h401 : res.StatusCode = StatusUnauthorized
      · rw [if_pos h401]
        obtain ⟨r, w2, L, hrun, hext, hL, hfin⟩ := retry_branch env ctx api fuel
          (World.mk (w.clock + 1) (w.trace ++ [Event.httpDo ctx
            (targetRequest "GET" (makeUrl env path) true api none)]))
          (fun e => (none, some e)) (doGetRaw env ctx path api (fuel + 3) false)
          (targetRequest "GET" (makeUrl env path) true api none)
          (fun w2 => by
            obtain ⟨r3, w3, h3, hx, _⟩ := doGetRaw_once env ctx path api (fuel + 2) w2
            exact ⟨r3, w3, h3, extends_none_or_one _ _ _ _ hx⟩)
        exact ⟨r, w2, _, hrun, extends_trans _ _ _ _ _ (extends_one w ctx _ _) hext,
          retriesOnce_of_branch env api _ L hL,
            fun m hm => hfin m (by simpa using hm)⟩
      · rw [if_neg h401]
        by_cases h2 : res.StatusCode = 200
        · rw [if_pos h2]
          exact ⟨_, _, _, rfl, extends_one w ctx _ _, Or.inr (Or.inl rfl), by simp⟩
        · rw [if_neg h2]
          cases hb : res.Body with
          | error e => exact ⟨_, _, _, rfl, extends_one w ctx _ _, Or.inr (Or.inl rfl), by simp⟩
          | ok rb => exact ⟨_, _, _, rfl, extends_one w ctx _ _, Or.inr (Or.inl rfl), by simp⟩

/-- The call `os.CreateTemp` returns what the file system answers at the
clock, and records the call. -/
theorem osCreateTemp_eq (env : VEnv) (pattern : String) (w : World) :
    osCreateTemp env pattern w
      = (Run.ret (env.createTemp w.clock pattern),
          World.mk (w.clock + 1) (w.trace ++ [Event.createTemp pattern])) := by
  simp only [osCreateTemp, Go.bind_eq, Go.pure_eq, Go.bind_apply, Go.pure_apply,
    Go.now_apply, Go.emit_apply, Go.tick_apply]

/-- The call `io.Copy` returns and sends no request. -/
theorem ioCopy_extends (env : VEnv) (name : String) (body : Except GoError String)
    (w : World) :
    ∃ r w1, ioCopy env name body w = (Run.ret r, w1) ∧ w.Extends w1 [] := by
  cases body with
  | error e => exact ⟨_, _, rfl, extends_refl w⟩
  | ok data =>
    simp only [ioCopy, Go.bind_eq, Go.pure_eq, Go.bind_apply, Go.pure_apply,
      Go.now_apply, Go.emit_apply, Go.tick_apply]
    exact ⟨_, _, rfl, [Event.ioCopy name data], rfl, rfl⟩

/-- Events that are no request extend the world by no request. -/
theorem extends_createTemp (w : World) (pattern : String) (c : Nat) :
    w.Extends (World.mk c (w.trace ++ [Event.createTemp pattern])) [] :=
  ⟨[Event.createTemp pattern], rfl, rfl⟩

/-- A call of `download` that may not retry returns, and sends its request
once if the temporary file and the request can be made; a response 401 makes
it fail. -/
theorem download_once (env : VEnv) (ctx : Context) (url : String) (api : API)
    (fuel : Nat) (w : World) :
    ∃ r w1 L, download env ctx url api (fuel + 1) false w = (Run.ret r, w1)
      ∧ w.Extends w1 L
      ∧ (L = [] ∨ L = [targetRequest "GET" url false api none])
      ∧ (∀ name, env.createTemp w.clock "clc-download-*" = Except.ok name
          → env.newRequestErr "GET" url = none
          → L = [targetRequest "GET" url false api none])
      ∧ (∀ res, env.httpDo (w.clock + 1) ctx (targetRequest "GET" url false api none)
            = Except.ok res
          → res.StatusCode = StatusUnauthorized → r.2.2 ≠ none) := by
  rw [download]
  simp only [Go.bind_eq, Go.pure_eq, Go.bind_apply, osCreateTemp_eq, targetRequest]
  cases hf : env.createTemp w.clock "clc-download-*" with
  | error e =>
    exact ⟨_, _, [], rfl, extends_createTemp w _ _, Or.inl rfl, by simp, by simp⟩
  | ok fName =>
    simp only []
    cases h : env.newRequestErr "GET" url with
    | some e =>
      exact ⟨_, _, [], rfl, extends_createTemp w _ _, Or.inl rfl, by simp, by simp⟩
    | none =>
      simp only [Go.bind_apply, httpClientDo_eq]
      have hx : w.Extends (World.mk (w.clock + 1 + 1)
          (w.trace ++ [Event.createTemp "clc-download-*"] ++ [Event.httpDo ctx
            { Method := "GET", URL := url, ContentType := none,
              Authorization := authorizationOf api, Body := none }]))
          [{ Method := "GET", URL := url, ContentType := none,
              Authorization := authorizationOf api, Body := none }] :=
        ⟨[Event.createTemp "clc-download-*", Event.httpDo ctx _], by simp, rfl⟩
      cases hd : env.httpDo (w.clock + 1) ctx _ with
      | error e => exact ⟨_, _, _, rfl, hx, Or.inr rfl, by simp, by simp⟩
      | ok res =>
        simp only [Bool.false_eq_true, and_false, if_false]
        by_cases h2 : res.StatusCode = StatusOK
        · rw [if_pos h2]
          obtain ⟨cr, w3, hc, hcx⟩ := ioCopy_extends env fName res.Body
            (World.mk (w.clock + 1 + 1)
              (w.trace ++ [Event.createTemp "clc-download-*"] ++ [Event.httpDo ctx
                { Method := "GET", URL := url, ContentType := none,
                  Authorization := authorizationOf api, Body := none }]))
          simp only [Go.bind_apply, hc]
          have hx3 := extends_trans _ _ _ _ _ hx hcx
          cases cr with
          | some e => exact ⟨_, _, _, rfl, hx3, Or.inr rfl, by simp, by simp⟩
          | none =>
            refine ⟨_, _, _, rfl, hx3, Or.inr rfl, by simp, ?_⟩
            intro res1 hres h401
            cases hd.symm.trans hres
            rw [h401] at h2
            exact absurd h2 (by decide)
        · rw [if_neg h2]
          cases hb : res.Body with
          | error e => exact ⟨_, _, _, rfl, hx, Or.inr rfl, by simp, by simp⟩
          | ok rb => exact ⟨_, _, _, rfl, hx, Or.inr rfl, by simp, by simp⟩

/-- A call of `download` that may retry returns, and sends its request at most
twice, the second time after one request for a new token. -/
theorem download_retry (env : VEnv) (ctx : Context) (url : String) (api : API)
    (fuel : Nat) (w : World) :
    ∃ r w1 L, download env ctx url api (fuel + 4) true w = (Run.ret r, w1)
      ∧ w.Extends w1 L
      ∧ RetriesOnce true (targetRequest "GET" url false api none)
          (fun q => ∃ m, q = refreshRequest env api m) L
      ∧ (∀ m, L = [targetRequest "GET" url false api none, refreshRequest env api m,
            targetRequest "GET" url false api none]
          → ∃ w0, download env ctx url api (fuel + 3) false w0 = (Run.ret r, w1)) := by
  rw [download]
  simp only [Go.bind_eq, Go.pure_eq, Go.bind_apply, osCreateTemp_eq]
  cases hf : env.createTemp w.clock "clc-download-*" with
  | error e => exact ⟨_, _, [], rfl, extends_createTemp w _ _, Or.inl rfl, by simp⟩
  | ok fName =>
    simp only []
    cases h : env.newRequestErr "GET" url with
    | some e => exact ⟨_, _, [], rfl, extends_createTemp w _ _, Or.inl rfl, by simp⟩
    | none =>
      simp only [Go.bind_apply, httpClientDo_eq]
      have hx : w.Extends (World.mk (w.clock + 1 + 1)
          (w.trace ++ [Event.createTemp "clc-download-*"] ++ [Event.httpDo ctx
            (targetRequest "GET" url false api none)]))
          [targetRequest "GET" url false api none] :=
        ⟨[Event.createTemp "clc-download-*", Event.httpDo ctx _], by simp, rfl⟩
      cases hd : env.httpDo (w.clock + 1) ctx _ with
      | error e => exact ⟨_, _, _, rfl, hx, Or.inr (Or.inl rfl), by simp⟩
      | ok res =>
        simp only [and_true]
        by_cases h401 : res.StatusCode = StatusUnauthorized
        · rw [if_pos h401]
          obtain ⟨r, w2, L, hrun, hext, hL, hfin⟩ := retry_branch env ctx api fuel
            (World.mk (w.clock + 1 + 1)
              (w.trace ++ [Event.createTemp "clc-download-*"] ++ [Event.httpDo ctx
                (targetRequest "GET" url false api none)]))
            (fun e => ("", none, some e)) (download env ctx url api (fuel + 3) false)
            (targetRequest "GET" url false api none)
            (fun w2 => by
              obtain ⟨r3, w3, L3, h3, hx3, hL3, _⟩ := download_once env ctx url api (fuel + 2) w2
              rcases hL3 with h0 | h1
              · exact ⟨r3, w3, h3, Or.inl (h0 ▸ hx3)⟩
              · exact ⟨r3, w3, h3, Or.inr (h1 ▸ hx3)⟩)
          exact ⟨r, w2, _, hrun, extends_trans _ _ _ _ _ hx hext,
            retriesOnce_of_branch env api _ L hL,
            fun m hm => hfin m (by simpa using hm)⟩
        · rw [if_neg h401]
          by_cases h2 : res.StatusCode = StatusOK
          · rw [if_pos h2]
            obtain ⟨cr, w3, hc, hcx⟩ := ioCopy_extends env fName res.Body
              (World.mk (w.clock + 1 + 1)
                (w.trace ++ [Event.createTemp "clc-download-*"] ++ [Event.httpDo ctx
                  { Method := "GET", URL := url, ContentType := none,
                    Authorization := authorizationOf api, Body := none }]))
            simp only [Go.bind_apply, hc]
            have hx3 := extends_trans _ _ _ _ _ hx hcx
            cases cr with
            | some e => exact ⟨_, _, _, rfl, hx3, Or.inr (Or.inl rfl), by simp⟩
            | none => exact ⟨_, _, _, rfl, hx3, Or.inr (Or.inl rfl), by simp⟩
          · rw [if_neg h2]
            cases hb : res.Body with
            | error e => exact ⟨_, _, _, rfl, hx, Or.inr (Or.inl rfl), by simp⟩
            | ok rb => exact ⟨_, _, _, rfl, hx, Or.inr (Or.inl rfl), by simp⟩

/-- The requests a call without retry may send are those of a call that
retries at most once. -/
theorem retriesOnce_false (t : HTTPRequest) (isRefresh : HTTPRequest → Prop) (c : Prop)
    [Decidable c] : RetriesOnce false t isRefresh (if c then [t] else []) := by
  by_cases hc : c
  · exact Or.inr (Or.inl (by simp [hc]))
  · exact Or.inl (by simp [hc])

/-- C26. Given fuel for four nested calls, each of `doGet`, `doGetRaw`,
`doPostBytes`, `doDelete` and `download` returns, whatever the server answers.
The requests it sends are none (the request could not be made), its request
once, or, in a call with `retryOnUnauthorized` true, its request followed by
one request for a new token and then possibly its request once more; in that
last case the result is that of a call with `retryOnUnauthorized` false. A call
with `retryOnUnauthorized` false sends its request exactly once when the
request (and for `download` the temporary file) can be made, and fails when
the answer is 401. -/
theorem C26_retry_on_401_at_most_once {Res : Type} (env : VEnv)
    (unmarshal : String → Res → Res × Err) (zero : Res) (ctx : Context) (path url : String)
    (api : API) (body : String) (fuel : Nat) (retry : Bool) (w : World) (hfuel : 4 ≤ fuel) :
    (∃ r w1, doGet env unmarshal zero ctx path api fuel retry w = (Run.ret r, w1)
      ∧ RetriesOnce retry (targetRequest "GET" (makeUrl env path) true api none)
          (fun q => ∃ m, q = refreshRequest env api m) (sentRequests w w1)
      ∧ (retry = false → env.newRequestErr "GET" (makeUrl env path) = none
          → sentRequests w w1 = [targetRequest "GET" (makeUrl env path) true api none])
      ∧ (retry = false
          → ∀ res, env.httpDo w.clock ctx (targetRequest "GET" (makeUrl env path) true api none)
              = Except.ok res
          → res.StatusCode = StatusUnauthorized → r.2 ≠ none)
      ∧ (∀ m, sentRequests w w1 = [targetRequest "GET" (makeUrl env path) true api none,
            refreshRequest env api m, targetRequest "GET" (makeUrl env path) true api none]
          → ∃ w0, doGet env unmarshal zero ctx path api (fuel - 1) false w0 = (Run.ret r, w1)))
    ∧ (∃ r w1, doGetRaw env ctx path api fuel retry w = (Run.ret r, w1)
      ∧ RetriesOnce retry (targetRequest "GET" (makeUrl env path) true api none)
          (fun q => ∃ m, q = refreshRequest env api m) (sentRequests w w1)
      ∧ (retry = false → env.newRequestErr "GET" (makeUrl env path) = none
          → sentRequests w w1 = [targetRequest "GET" (makeUrl env path) true api none])
      ∧ (retry = false
          → ∀ res, env.httpDo w.clock ctx (targetRequest "GET" (makeUrl env path) true api none)
              = Except.ok res
          → res.StatusCode = StatusUnauthorized → r.2 ≠ none)
      ∧ (∀ m, sentRequests w w1 = [targetRequest "GET" (makeUrl env path) true api none,
            refreshRequest env api m, targetRequest "GET" (makeUrl env path) true api none]
          → ∃ w0, doGetRaw env ctx path api (fuel - 1) false w0 = (Run.ret r, w1)))
    ∧ (∃ r w1, doPostBytes env ctx url api body fuel retry w = (Run.ret r, w1)
      ∧ RetriesOnce retry (targetRequest "POST" url true api (some body))
          (fun q => ∃ m, q = refreshRequest env api m) (sentRequests w w1)
      ∧ (retry = false → env.newRequestErr "POST" url = none
          → sentRequests w w1 = [targetRequest "POST" url true api (some body)])
      ∧ (retry = false
          → ∀ res, env.httpDo w.clock ctx (targetRequest "POST" url true api (some body))
              = Except.ok res
          → res.StatusCode = StatusUnauthorized → r.2 ≠ none)
      ∧ (∀ m, sentRequests w w1 = [targetRequest "POST" url true api (some body),
            refreshRequest env api m, targetRequest "POST" url true api (some body)]
          → ∃ w0, doPostBytes env ctx url api body (fuel - 1) false w0 = (Run.ret r, w1)))
    ∧ (∃ r w1, doDelete env ctx path api fuel retry w = (Run.ret r, w1)
      ∧ RetriesOnce retry (targetRequest "DELETE" (makeUrl env path) true api none)
          (fun q => ∃ m, q = refreshRequest env api m) (sentRequests w w1)
      ∧ (retry = false → env.newRequestErr "DELETE" (makeUrl env path) = none
          → sentRequests w w1 = [targetRequest "DELETE" (makeUrl env path) true api none])
      ∧ (retry = false
          → ∀ res, env.httpDo w.clock ctx
              (targetRequest "DELETE" (makeUrl env path) true api none) = Except.ok res
          → res.StatusCode = StatusUnauthorized → r ≠ none)
      ∧ (∀ m, sentRequests w w1 = [targetRequest "DELETE" (makeUrl env path) true api none,
            refreshRequest env api m, targetRequest "DELETE" (makeUrl env path) true api none]
          → ∃ w0, doDelete env ctx path api (fuel - 1) false w0 = (Run.ret r, w1)))
    ∧ (∃ r w1, download env ctx url api fuel retry w = (Run.ret r, w1)
      ∧ RetriesOnce retry (targetRequest "GET" url false api none)
          (fun q => ∃ m, q = refreshRequest env api m) (sentRequests w w1)
      ∧ (retry = false
          → ∀ name, env.createTemp w.clock "clc-download-*" = Except.ok name
          → env.newRequestErr "GET" url = none
          → sentRequests w w1 = [targetRequest "GET" url false api none])
      ∧ (retry = false
          → ∀ res, env.httpDo (w.clock + 1) ctx (targetRequest "GET" url false api none)
              = Except.ok res
          → res.StatusCode = StatusUnauthorized → r.2.2 ≠ none)
      ∧ (∀ m, sentRequests w w1 = [targetRequest "GET" url false api none,
            refreshRequest env api m, targetRequest "GET" url false api none]
          → ∃ w0, download env ctx url api (fuel - 1) false w0 = (Run.ret r, w1))) := by
  obtain ⟨n, rfl⟩ : ∃ n, fuel = n + 4 := ⟨fuel - 4, by omega⟩
  have hn : n + 4 - 1 = n + 3 := rfl
  rw [hn]
  refine ⟨?_, ?_, ?_, ?_, ?_⟩
  · cases retry with
    | false =>
      obtain ⟨r, w1, hrun, hext, h401⟩ := doGet_once env unmarshal zero ctx path api (n + 3) w
      have hs := sentRequests_of_extends _ _ _ hext
      refine ⟨r, w1, hrun, hs ▸ retriesOnce_false _ _ _, ?_, fun _ => h401, ?_⟩
      · intro _ hc
        rw [hs, if_pos hc]
      · intro m hm
        rw [hs] at hm
        split at hm <;> simp at hm
    | true =>
      obtain ⟨r, w1, L, hrun, hext, hL, hfin⟩ :=
        doGet_retry env unmarshal zero ctx path api n w
      have hs := sentRequests_of_extends _ _ _ hext
      exact ⟨r, w1, hrun, hs ▸ hL, by simp, by simp, fun m hm => hfin m (hs ▸ hm)⟩
  · cases retry with
    | false =>
      obtain ⟨r, w1, hrun, hext, h401⟩ := doGetRaw_once env ctx path api (n + 3) w
      have hs := sentRequests_of_extends _ _ _ hext
      refine ⟨r, w1, hrun, hs ▸ retriesOnce_false _ _ _, ?_, fun _ => h401, ?_⟩
      · intro _ hc
        rw [hs, if_pos hc]
      · intro m hm
        rw [hs] at hm
        split at hm <;> simp at hm
    | true =>
      obtain ⟨r, w1, L, hrun, hext, hL, hfin⟩ := doGetRaw_retry env ctx path api n w
      have hs := sentRequests_of_extends _ _ _ hext
      exact ⟨r, w1, hrun, hs ▸ hL, by simp, by simp, fun m hm => hfin m (hs ▸ hm)⟩
  · cases retry with
    | false =>
      obtain ⟨r, hrun, _, h401⟩ := doPostBytes_once env ctx url api body (n + 3) w
      have hs := sentRequests_of_extends _ _ _ (extends_afterRequests w ctx
        (if env.newRequestErr "POST" url = none then
          [targetRequest "POST" url true api (some body)] else []))
      refine ⟨r, _, hrun, ?_, ?_, fun _ => h401, ?_⟩
      · rw [hs]
        exact retriesOnce_false _ _ _
      · intro _ hc
        rw [hs, if_pos hc]
      · intro m hm
        rw [hs] at hm
        split at hm <;> simp at hm
    | true =>
      obtain ⟨r, w1, L, hrun, hext, hL, hfin⟩ := doPostBytes_retry env ctx url api body n w
      have hs := sentRequests_of_extends _ _ _ hext
      exact ⟨r, w1, hrun, hs ▸ hL, by simp, by simp, fun m hm => hfin m (hs ▸ hm)⟩
  · cases retry with
    | false =>
      obtain ⟨r, w1, hrun, hext, h401⟩ := doDelete_once env ctx path api (n + 3) w
      have hs := sentRequests_of_extends _ _ _ hext
      refine ⟨r, w1, hrun, hs ▸ retriesOnce_false _ _ _, ?_, fun _ => h401, ?_⟩
      · intro _ hc
        rw [hs, if_pos hc]
      · intro m hm
        rw [hs] at hm
        split at hm <;> simp at hm
    | true =>
      obtain ⟨r, w1, L, hrun, hext, hL, hfin⟩ := doDelete_retry env ctx path api n w
      have hs := sentRequests_of_extends _ _ _ hext
      exact ⟨r, w1, hrun, hs ▸ hL, by simp, by simp, fun m hm => hfin m (hs ▸ hm)⟩
  · cases retry with
    | false =>
      obtain ⟨r, w1, L, hrun, hext, hL, hone, h401⟩ := download_once env ctx url api (n + 3) w
      have hs := sentRequests_of_extends _ _ _ hext
      refine ⟨r, w1, hrun, ?_, ?_, fun _ => h401, ?_⟩
      · rw [hs]
        rcases hL with h0 | h1
        · exact Or.inl h0
        · exact Or.inr (Or.inl h1)
      · intro _ name hname hc
        rw [hs]
        exact hone name hname hc
      · intro m hm
        rw [hs] at hm
        rcases hL with h0 | h1
        · rw [h0] at hm
          simp at hm
        · rw [h1] at hm
          simp at hm
    | true =>
      obtain ⟨r, w1, L, hrun, hext, hL, hfin⟩ := download_retry env ctx url api n w
      have hs := sentRequests_of_extends _ _ _ hext
      exact ⟨r, w1, hrun, hs ▸ hL, by simp, by simp, fun m hm => hfin m (hs ▸ hm)⟩

/-- An instance of C26: a deletion whose first request is answered 401; the
token is refreshed once and the request is sent once more. -/
theorem C26_retry_on_401_at_most_once_witness :
    (∃ r w1, doDelete venvExpired Context.command "/cluster/c1/custom_classes/7" apiOld 4 true
          World.init = (Run.ret r, w1)
      ∧ RetriesOnce true
          (targetRequest "DELETE" (makeUrl venvExpired "/cluster/c1/custom_classes/7") true
            apiOld none)
          (fun q => ∃ m, q = refreshRequest venvExpired apiOld m) (sentRequests World.init w1)
      ∧ (true = false
          → venvExpired.newRequestErr "DELETE"
              (makeUrl venvExpired "/cluster/c1/custom_classes/7") = none
          → sentRequests World.init w1
              = [targetRequest "DELETE" (makeUrl venvExpired "/cluster/c1/custom_classes/7") true
                  apiOld none])
      ∧ (true = false
          → ∀ res, venvExpired.httpDo World.init.clock Context.command
              (targetRequest "DELETE" (makeUrl venvExpired "/cluster/c1/custom_classes/7") true
                apiOld none) = Except.ok res
          → res.StatusCode = StatusUnauthorized → r ≠ none)
      ∧ (∀ m, sentRequests World.init w1
            = [targetRequest "DELETE" (makeUrl venvExpired "/cluster/c1/custom_classes/7") true
                apiOld none,
              refreshRequest venvExpired apiOld m,
              targetRequest "DELETE" (makeUrl venvExpired "/cluster/c1/custom_classes/7") true
                apiOld none]
          → ∃ w0, doDelete venvExpired Context.command "/cluster/c1/custom_classes/7" apiOld
              (4 - 1) false w0 = (Run.ret r, w1)))
    ∧ sentRequests World.init
        (doDelete venvExpired Context.command "/cluster/c1/custom_classes/7" apiOld 4 true
          World.init).2
      = [targetRequest "DELETE"
            "https://api.viridian.hazelcast.com/cluster/c1/custom_classes/7" true apiOld none,
          refreshRequest venvExpired apiOld "\x7b\"refreshToken\":\"r1\"\x7d",
          targetRequest "DELETE"
            "https://api.viridian.hazelcast.com/cluster/c1/custom_classes/7" true apiOld none] :=
  ⟨(C26_retry_on_401_at_most_once venvExpired UnmarshalString "" Context.command
      "/cluster/c1/custom_classes/7" "https://api.viridian.hazelcast.com/x" apiOld "" 4 true
      World.init (by decide)).2.2.2.1,
    by decide⟩

/-- Every request of a call that retries at most once carries the header
`Authorization` of its first request, when the requests for a new token carry
it as well. -/
theorem retriesOnce_authorization (env : VEnv) (api : API) (retry : Bool) (t : HTTPRequest)
    (L : List HTTPRequest) (ht : t.Authorization = authorizationOf api)
    (h : RetriesOnce retry t (fun q => ∃ m, q = refreshRequest env api m) L) :
    ∀ q ∈ L, q.Authorization = authorizationOf api := by
  intro q hq
  rcases h with h | h | ⟨_, r, ⟨m, hr⟩, h | h⟩
  · rw [h] at hq
    simp at hq
  · rw [h] at hq
    simp at hq
    rw [hq, ht]
  · rw [h] at hq
    simp at hq
    rcases hq with hq | hq
    · rw [hq, ht]
    · rw [hq, hr]
      rfl
  · rw [h] at hq
    simp at hq
    rcases hq with hq | hq | hq
    · rw [hq, ht]
    · rw [hq, hr]
      rfl
    · rw [hq, ht]

/-- C27. `API.RefreshAccessToken` assigns the new tokens to its own copy of
the receiver only: when it succeeds, that copy holds the tokens of the
response, and the `API` value of the caller is the one the caller goes on
with. So every request that `doGet`, `doPostBytes` or `doDelete` sends in a
call that may retry, the request repeated after a response 401 included,
carries the header `Authorization` made of the token the caller had at the
start, not of the new access token. -/
theorem C27_refresh_keeps_caller_token {Res : Type} (env : VEnv)
    (unmarshal : String → Res → Res × Err) (zero : Res) (ctx : Context) (path url : String)
    (api : API) (body : String) (fuel : Nat) (w : World) (hfuel : 4 ≤ fuel) :
    (∀ r w1, RefreshAccessToken env ctx api fuel w = (Run.ret r, w1) → r.2.2 = none
      → r.1 = API.mk r.2.1.AccessToken r.2.1.RefreshToken api.ExpiresIn)
    ∧ (∀ q ∈ sentRequests w (doGet env unmarshal zero ctx path api fuel true w).2,
        q.Authorization = authorizationOf api)
    ∧ (∀ q ∈ sentRequests w (doPostBytes env ctx url api body fuel true w).2,
        q.Authorization = authorizationOf api)
    ∧ (∀ q ∈ sentRequests w (doDelete env ctx path api fuel true w).2,
        q.Authorization = authorizationOf api) := by
  obtain ⟨n, rfl⟩ : ∃ n, fuel = n + 4 := ⟨fuel - 4, by omega⟩
  refine ⟨?_, ?_, ?_, ?_⟩
  · intro r w1 hrun hok
    obtain ⟨r0, h0, _, hcopy⟩ := RefreshAccessToken_once env ctx api (n + 1) w
    rw [h0] at hrun
    cases hrun
    exact hcopy hok
  · obtain ⟨r, w1, L, hrun, hext, hL, _⟩ := doGet_retry env unmarshal zero ctx path api n w
    rw [hrun, sentRequests_of_extends _ _ _ hext]
    exact retriesOnce_authorization env api true _ L rfl hL
  · obtain ⟨r, w1, L, hrun, hext, hL, _⟩ := doPostBytes_retry env ctx url api body n w
    rw [hrun, sentRequests_of_extends _ _ _ hext]
    exact retriesOnce_authorization env api true _ L rfl hL
  · obtain ⟨r, w1, L, hrun, hext, hL, _⟩ := doDelete_retry env ctx path api n w
    rw [hrun, sentRequests_of_extends _ _ _ hext]
    exact retriesOnce_authorization env api true _ L rfl hL

/-- An instance of C27: the server answers 401 and then hands out the access
token `new`; the copy of the receiver holds it, and the request sent once more
carries `Bearer old`. -/
theorem C27_refresh_keeps_caller_token_witness :
    API.mk "new" "r2" 3600 = API.mk "new" "r2" apiOld.ExpiresIn
    ∧ (targetRequest "GET" "https://api.viridian.hazelcast.com/cluster" true apiOld
        none).Authorization = authorizationOf apiOld
    ∧ RefreshAccessToken venvExpired Context.command apiOld 4 World.init
      = (Run.ret (API.mk "new" "r2" 3600, RefreshTokenResponse.mk "new" "r2", none),
          World.mk 1 [Event.httpDo Context.command
            (refreshRequest venvExpired apiOld "\x7b\"refreshToken\":\"r1\"\x7d")])
    ∧ (sentRequests World.init
        (doGet venvExpired UnmarshalString "" Context.command "/cluster" apiOld 4 true
          World.init).2).map (fun q => (q.Method, q.Authorization))
      = [("GET", some "Bearer old"), ("POST", some "Bearer old"), ("GET", some "Bearer old")] :=
  ⟨(C27_refresh_keeps_caller_token venvExpired UnmarshalString "" Context.command "/cluster"
      "https://api.viridian.hazelcast.com/x" apiOld "" 4 World.init (by decide)).1
      (API.mk "new" "r2" 3600, RefreshTokenResponse.mk "new" "r2", none)
      (World.mk 1 [Event.httpDo Context.command
        (refreshRequest venvExpired apiOld "\x7b\"refreshToken\":\"r1\"\x7d")])
      (by rfl) (by rfl),
    (C27_refresh_keeps_caller_token venvExpired UnmarshalString "" Context.command "/cluster"
      "https://api.viridian.hazelcast.com/x" apiOld "" 4 World.init (by decide)).2.1
      (targetRequest "GET" "https://api.viridian.hazelcast.com/cluster" true apiOld none)
      (by decide),
    by rfl, by decide⟩

/-! ## The search for a cluster and for a custom class -/

/-- The loop of `API.FindCluster` returns the first cluster in list order
whose ID or name is the argument. -/
theorem findClusterLoop_first (idOrName : String) (pre post : List Cluster) (c : Cluster)
    (hpre : ∀ x ∈ pre, x.ID ≠ idOrName ∧ x.Name ≠ idOrName)
    (hc : c.ID = idOrName ∨ c.Name = idOrName) :
    findClusterLoop idOrName (pre ++ c :: post) = some c := by
  induction pre with
  | nil => simp [findClusterLoop, hc]
  | cons x rest ih =>
    have hx := hpre x (List.mem_cons_self _ _)
    simp only [List.cons_append, findClusterLoop]
    rw [if_neg (by simp [hx.1, hx.2])]
    exact ih (fun y hy => hpre y (List.mem_cons_of_mem _ hy))

/-- The loop of `API.FindCluster` finds nothing exactly when no cluster matches. -/
theorem findClusterLoop_none (idOrName : String) (cs : List Cluster) :
    findClusterLoop idOrName cs = none ↔ ∀ x ∈ cs, x.ID ≠ idOrName ∧ x.Name ≠ idOrName := by
  induction cs with
  | nil => simp [findClusterLoop]
  | cons x rest ih =>
    by_cases hx : x.ID = idOrName ∨ x.Name = idOrName
    · simp only [findClusterLoop, if_pos hx]
      constructor
      · intro h
        cases h
      · intro h
        have := h x (List.mem_cons_self _ _)
        rcases hx with hx | hx
        · exact absurd hx this.1
        · exact absurd hx this.2
    · simp only [findClusterLoop, if_neg hx, ih]
      constructor
      · intro h y hy
        rcases List.mem_cons.mp hy with rfl | hy
        · exact ⟨fun h1 => hx (Or.inl h1), fun h2 => hx (Or.inr h2)⟩
        · exact h y hy
      · intro h y hy
        exact h y (List.mem_cons_of_mem _ hy)

/-- The loop of `API.FindClusterType` returns the first cluster type in list
order whose name is the argument up to `strings.ToUpper`. -/
theorem findClusterTypeLoop_first (env : VEnv) (name : String) (pre post : List ClusterType)
    (ct : ClusterType)
    (hpre : ∀ x ∈ pre, env.ToUpper x.Name ≠ env.ToUpper name)
    (hc : env.ToUpper ct.Name = env.ToUpper name) :
    findClusterTypeLoop env name (pre ++ ct :: post) = some ct := by
  induction pre with
  | nil => simp [findClusterTypeLoop, hc]
  | cons x rest ih =>
    have hx := hpre x (List.mem_cons_self _ _)
    simp only [List.cons_append, findClusterTypeLoop]
    rw [if_neg hx]
    exact ih (fun y hy => hpre y (List.mem_cons_of_mem _ hy))

/-- The loop of `API.FindClusterType` finds nothing exactly when no cluster
type matches. -/
theorem findClusterTypeLoop_none (env : VEnv) (name : String) (cts : List ClusterType) :
    findClusterTypeLoop env name cts = none
      ↔ ∀ x ∈ cts, env.ToUpper x.Name ≠ env.ToUpper name := by
  induction cts with
  | nil => simp [findClusterTypeLoop]
  | cons x rest ih =>
    by_cases hx : env.ToUpper x.Name = env.ToUpper name
    · simp only [findClusterTypeLoop, if_pos hx]
      constructor
      · intro h
        cases h
      · intro h
        exact absurd hx (h x (List.mem_cons_self _ _))
    · simp only [findClusterTypeLoop, if_neg hx, ih]
      constructor
      · intro h y hy
        rcases List.mem_cons.mp hy with rfl | hy
        · exact hx
        · exact h y hy
      · intro h y hy
        exact h y (List.mem_cons_of_mem _ hy)

/-- C29. On the cluster list that `ListClusters` returns, `API.FindCluster`
returns the first cluster in list order whose ID or whose name equals
`idOrName`, character by character, and it returns the error
`no such cluster found: <idOrName>` exactly when no cluster matches.
`API.FindClusterType` does so on the list of `ListClusterTypes` with the names
compared after `strings.ToUpper`, that is, without regard to case. -/
theorem C29_find_cluster_first_match (env : VEnv) (pkg : ViridianPkg) (ctx : Context)
    (a : API) (idOrName name : String) (w w1 w2 : World) (clusters : List Cluster)
    (types : List ClusterType)
    (hl : pkg.ListClusters ctx a w = (Run.ret (clusters, none), w1))
    (hlt : pkg.ListClusterTypes ctx a w = (Run.ret (types, none), w2)) :
    (∀ pre post c, clusters = pre ++ c :: post
      → (∀ x ∈ pre, x.ID ≠ idOrName ∧ x.Name ≠ idOrName)
      → (c.ID = idOrName ∨ c.Name = idOrName)
      → FindCluster pkg ctx a idOrName w = (Run.ret (c, none), w1))
    ∧ ((∃ c, FindCluster pkg ctx a idOrName w
          = (Run.ret (c, some (GoError.fresh ("no such cluster found: " ++ idOrName))), w1))
        ↔ ∀ x ∈ clusters, x.ID ≠ idOrName ∧ x.Name ≠ idOrName)
    ∧ (∀ c e, FindCluster pkg ctx a idOrName w = (Run.ret (c, some e), w1)
        → e = GoError.fresh ("no such cluster found: " ++ idOrName))
    ∧ (∀ pre post ct, types = pre ++ ct :: post
      → (∀ x ∈ pre, env.ToUpper x.Name ≠ env.ToUpper name)
      → env.ToUpper ct.Name = env.ToUpper name
      → FindClusterType env pkg ctx a name w = (Run.ret (ct, none), w2))
    ∧ ((∃ ct, FindClusterType env pkg ctx a name w
          = (Run.ret (ct, some (GoError.fresh ("no such cluster type found: " ++ name))), w2))
        ↔ ∀ x ∈ types, env.ToUpper x.Name ≠ env.ToUpper name) := by
  refine ⟨?_, ?_, ?_, ?_, ?_⟩
  · intro pre post c hcs hpre hc
    subst hcs
    simp [FindCluster, hl, findClusterLoop_first idOrName pre post c hpre hc]
  · constructor
    · rintro ⟨c, h⟩
      rw [← findClusterLoop_none]
      cases hf : findClusterLoop idOrName clusters with
      | none => rfl
      | some c1 => simp [FindCluster, hl, hf] at h
    · intro h
      rw [← findClusterLoop_none] at h
      exact ⟨Cluster.mk "" "", by simp [FindCluster, hl, h]⟩
  · intro c e h
    cases hf : findClusterLoop idOrName clusters with
    | none =>
      simp [FindCluster, hl, hf] at h
      exact h.2.symm
    | some c1 => simp [FindCluster, hl, hf] at h
  · intro pre post ct hcs hpre hc
    subst hcs
    simp [FindClusterType, hlt, findClusterTypeLoop_first env name pre post ct hpre hc]
  · constructor
    · rintro ⟨ct, h⟩
      rw [← findClusterTypeLoop_none]
      cases hf : findClusterTypeLoop env name types with
      | none => rfl
      | some c1 => simp [FindClusterType, hlt, hf] at h
    · intro h
      rw [← findClusterTypeLoop_none] at h
      exact ⟨ClusterType.mk "", by simp [FindClusterType, hlt, h]⟩

/-- An instance of C29: of two clusters named `prod` the first is returned, an
unknown name gives the error, and `dedicated` finds the type `Dedicated`. -/
theorem C29_find_cluster_first_match_witness :
    FindCluster pkgClusters Context.command apiOld "prod" World.init
      = (Run.ret (Cluster.mk "c2" "prod", none), World.init)
    ∧ (∃ c, FindCluster pkgClusters Context.command apiOld "Prod" World.init
        = (Run.ret (c, some (GoError.fresh ("no such cluster found: " ++ "Prod"))), World.init))
    ∧ FindClusterType venvExpired pkgClusters Context.command apiOld "dedicated" World.init
      = (Run.ret (ClusterType.mk "Dedicated", none), World.init) :=
  ⟨(C29_find_cluster_first_match venvExpired pkgClusters Context.command apiOld "prod"
      "dedicated" World.init World.init World.init
      [Cluster.mk "c1" "dev", Cluster.mk "c2" "prod", Cluster.mk "c3" "prod"]
      [ClusterType.mk "Serverless", ClusterType.mk "Dedicated", ClusterType.mk "DEDICATED"]
      (by rfl) (by rfl)).1
      [Cluster.mk "c1" "dev"] [Cluster.mk "c3" "prod"] (Cluster.mk "c2" "prod") (by rfl)
      (by decide) (by decide),
    (C29_find_cluster_first_match venvExpired pkgClusters Context.command apiOld "Prod"
      "dedicated" World.init World.init World.init
      [Cluster.mk "c1" "dev", Cluster.mk "c2" "prod", Cluster.mk "c3" "prod"]
      [ClusterType.mk "Serverless", ClusterType.mk "Dedicated", ClusterType.mk "DEDICATED"]
      (by rfl) (by rfl)).2.1.mpr (by decide),
    (C29_find_cluster_first_match venvExpired pkgClusters Context.command apiOld "prod"
      "dedicated" World.init World.init World.init
      [Cluster.mk "c1" "dev", Cluster.mk "c2" "prod", Cluster.mk "c3" "prod"]
      [ClusterType.mk "Serverless", ClusterType.mk "Dedicated", ClusterType.mk "DEDICATED"]
      (by rfl) (by rfl)).2.2.2.1
      [ClusterType.mk "Serverless"] [ClusterType.mk "DEDICATED"] (ClusterType.mk "Dedicated")
      (by rfl) (by decide) (by decide)⟩

/-- The loop of `findArtifactIDAndName` gives the ID and the name of the first
custom class in list order whose name, or whose ID in decimal, is the argument. -/
theorem findArtifactLoop_first (artifact : String) (pre post : List CustomClass)
    (cc : CustomClass)
    (hpre : ∀ x ∈ pre, x.Name ≠ artifact ∧ toString x.ID ≠ artifact)
    (hc : cc.Name = artifact ∨ toString cc.ID = artifact) :
    findArtifactLoop artifact (pre ++ cc :: post) = (cc.ID, cc.Name) := by
  induction pre with
  | nil => simp [findArtifactLoop, hc]
  | cons x rest ih =>
    have hx := hpre x (List.mem_cons_self _ _)
    simp only [List.cons_append, findArtifactLoop]
    rw [if_neg (by simp [hx.1, hx.2])]
    exact ih (fun y hy => hpre y (List.mem_cons_of_mem _ hy))

/-- The loop of `findArtifactIDAndName` leaves the zero values when no custom
class matches. -/
theorem findArtifactLoop_none (artifact : String) (classes : List CustomClass)
    (h : ∀ x ∈ classes, x.Name ≠ artifact ∧ toString x.ID ≠ artifact) :
    findArtifactLoop artifact classes = (0, "") := by
  induction classes with
  | nil => rfl
  | cons x rest ih =>
    have hx := h x (List.mem_cons_self _ _)
    simp only [findArtifactLoop]
    rw [if_neg (by simp [hx.1, hx.2])]
    exact ih (fun y hy => h y (List.mem_cons_of_mem _ hy))

/-- A computation followed by the return of its error as it is. -/
theorem bind_return_err (m : Go Err) (w : World) :
    (m.bind fun err =>
      match err with
      | some e => Go.pure (some e)
      | none => Go.pure none) w = m w := by
  simp only [Go.bind_apply]
  rcases h : m w with ⟨r, w1⟩
  cases r with
  | ret err => cases err <;> rfl
  | panic msg => rfl
  | pending => rfl

/-- C28. Once the cluster is found and the custom classes are listed,
`findArtifactIDAndName` gives the ID and the name of the first custom class in
list order whose name, or whose ID in decimal, equals the argument, and 0 and
the empty name when none matches. `DeleteCustomClass` and
`DownloadCustomClass` return the error `no custom class artifact found ...`
when that ID is 0, in the world the listing left, so without a request of
their own; this is so too when the custom class that matches has the ID 0.
When the ID is not 0 they go on to `doDelete` and to `doCustomClassDownload`
for the path of that ID. -/
theorem C28_artifact_resolved_by_first_match (env : VEnv) (pkg : ViridianPkg) (ctx : Context)
    (a : API) (targetInfo : TargetInfo) (cluster artifact : String) (fuel : Nat)
    (w w1 w2 : World) (c : Cluster) (classes : List CustomClass)
    (hc : FindCluster pkg ctx a cluster w = (Run.ret (c, none), w1))
    (hl : ListCustomClasses env pkg ctx a cluster fuel w1 = (Run.ret (classes, none), w2)) :
    findArtifactIDAndName env pkg ctx a cluster artifact fuel w1
      = (Run.ret ((findArtifactLoop artifact classes).1, (findArtifactLoop artifact classes).2,
          none), w2)
    ∧ (∀ pre post cc, classes = pre ++ cc :: post
        → (∀ x ∈ pre, x.Name ≠ artifact ∧ toString x.ID ≠ artifact)
        → (cc.Name = artifact ∨ toString cc.ID = artifact)
        → findArtifactLoop artifact classes = (cc.ID, cc.Name))
    ∧ ((∀ x ∈ classes, x.Name ≠ artifact ∧ toString x.ID ≠ artifact)
        → findArtifactLoop artifact classes = (0, ""))
    ∧ ((findArtifactLoop artifact classes).1 = 0
        → DeleteCustomClass env pkg ctx a cluster artifact fuel w
            = (Run.ret (some (noArtifactErr artifact c.ID)), w2)
          ∧ DownloadCustomClass env pkg ctx a targetInfo cluster artifact fuel w
            = (Run.ret (some (noArtifactErr artifact c.ID)), w2))
    ∧ ((findArtifactLoop artifact classes).1 ≠ 0
        → DeleteCustomClass env pkg ctx a cluster artifact fuel w
            = doDelete env ctx ("/cluster/" ++ c.ID ++ "/custom_classes/"
                ++ toString (findArtifactLoop artifact classes).1) a fuel true w2
          ∧ DownloadCustomClass env pkg ctx a targetInfo cluster artifact fuel w
            = pkg.doCustomClassDownload ctx targetInfo ("/cluster/" ++ c.ID
                ++ "/custom_classes/" ++ toString (findArtifactLoop artifact classes).1)
                (findArtifactLoop artifact classes).2 a true w2)
    ∧ (∀ pre post cc, classes = pre ++ cc :: post
        → (∀ x ∈ pre, x.Name ≠ artifact ∧ toString x.ID ≠ artifact)
        → (cc.Name = artifact ∨ toString cc.ID = artifact)
        → cc.ID = 0
        → DeleteCustomClass env pkg ctx a cluster artifact fuel w
            = (Run.ret (some (noArtifactErr artifact c.ID)), w2)
          ∧ DownloadCustomClass env pkg ctx a targetInfo cluster artifact fuel w
            = (Run.ret (some (noArtifactErr artifact c.ID)), w2)) := by
  have hfind : findArtifactIDAndName env pkg ctx a cluster artifact fuel w1
      = (Run.ret ((findArtifactLoop artifact classes).1, (findArtifactLoop artifact classes).2,
          none), w2) := by
    simp [findArtifactIDAndName, hl]
  have hzero : (findArtifactLoop artifact classes).1 = 0
      → DeleteCustomClass env pkg ctx a cluster artifact fuel w
          = (Run.ret (some (noArtifactErr artifact c.ID)), w2)
        ∧ DownloadCustomClass env pkg ctx a targetInfo cluster artifact fuel w
          = (Run.ret (some (noArtifactErr artifact c.ID)), w2) := by
    intro h0
    constructor
    · simp [DeleteCustomClass, hc, hfind, h0]
    · simp [DownloadCustomClass, hc, hfind, h0]
  refine ⟨hfind, ?_, findArtifactLoop_none artifact classes, hzero, ?_, ?_⟩
  · intro pre post cc hcs hpre hm
    subst hcs
    exact findArtifactLoop_first artifact pre post cc hpre hm
  · intro hne
    constructor
    · simp only [DeleteCustomClass, Go.bind_eq, Go.pure_eq, Go.bind_apply, hc, hfind, if_neg hne]
      exact bind_return_err _ w2
    · simp only [DownloadCustomClass, Go.bind_eq, Go.pure_eq, Go.bind_apply, hc, hfind,
        if_neg hne]
      exact bind_return_err _ w2
  · intro pre post cc hcs hpre hm hid
    subst hcs
    apply hzero
    rw [findArtifactLoop_first artifact pre post cc hpre hm]
    exact hid

/-- An instance of C28: the custom class `zero.jar` has the ID 0 and is
reported as not found, with the listing as the only request; `8` names the
third custom class by its ID. -/
theorem C28_artifact_resolved_by_first_match_witness :
    (DeleteCustomClass venvOK pkgClusters Context.command apiOld "prod" "zero.jar" 4 World.init
        = (Run.ret (some (noArtifactErr "zero.jar" "c2")),
            World.mk 1 [Event.httpDo Context.command
              (targetRequest "GET"
                "https://api.viridian.hazelcast.com/cluster/c2/custom_classes" true apiOld
                none)])
      ∧ DownloadCustomClass venvOK pkgClusters Context.command apiOld "target" "prod" "zero.jar"
          4 World.init
        = (Run.ret (some (noArtifactErr "zero.jar" "c2")),
            World.mk 1 [Event.httpDo Context.command
              (targetRequest "GET"
                "https://api.viridian.hazelcast.com/cluster/c2/custom_classes" true apiOld
                none)]))
    ∧ findArtifactLoop "8"
        [CustomClass.mk 7 "a.jar", CustomClass.mk 0 "zero.jar", CustomClass.mk 8 "a.jar"]
      = (8, "a.jar") :=
  ⟨(C28_artifact_resolved_by_first_match venvOK pkgClusters Context.command apiOld "target"
      "prod" "zero.jar" 4 World.init World.init
      (World.mk 1 [Event.httpDo Context.command
        (targetRequest "GET" "https://api.viridian.hazelcast.com/cluster/c2/custom_classes"
          true apiOld none)])
      (Cluster.mk "c2" "prod")
      [CustomClass.mk 7 "a.jar", CustomClass.mk 0 "zero.jar", CustomClass.mk 8 "a.jar"]
      (by rfl) (by rfl)).2.2.2.2.2
      [CustomClass.mk 7 "a.jar"] [CustomClass.mk 8 "a.jar"] (CustomClass.mk 0 "zero.jar")
      (by rfl) (by decide) (by decide) (by rfl),
    (C28_artifact_resolved_by_first_match venvOK pkgClusters Context.command apiOld "target"
      "prod" "8" 4 World.init World.init
      (World.mk 1 [Event.httpDo Context.command
        (targetRequest "GET" "https://api.viridian.hazelcast.com/cluster/c2/custom_classes"
          true apiOld none)])
      (Cluster.mk "c2" "prod")
      [CustomClass.mk 7 "a.jar", CustomClass.mk 0 "zero.jar", CustomClass.mk 8 "a.jar"]
      (by rfl) (by rfl)).2.1
      [CustomClass.mk 7 "a.jar", CustomClass.mk 0 "zero.jar"] [] (CustomClass.mk 8 "a.jar")
      (by rfl) (by decide) (by decide)⟩

/-! ## The files `createProject` skips -/

/-- C23. For an entry of the walk that is not a directory and whose path
holds a piece behind the template name, the callback of `createProject` does
nothing, and so skips the entry, exactly when the extension of the name is not
the keep extension and the name starts with the hidden-file prefix or the
underscore prefix, or the name is `default.properties`. Every other such entry
is passed to `applyTemplateAndCopyToTarget` when its extension is the
template extension, and to `copyToTarget` otherwise; the callback returns the
error of that call. -/
theorem C23_skipped_entries (env : ProjectEnv) (outputDir templateName pName sourceDir : String)
    (p name rel : String) (w : World)
    (hrel : (stringsSplit p templateName)[1]? = some rel) :
    (((pathExt name ≠ env.keepExt
          ∧ (HasPrefix name env.hiddenFilePrefix = true
            ∨ HasPrefix name env.underscorePrefix = true))
        ∨ name = "default.properties")
      → walkFn env outputDir templateName pName sourceDir p (DirEntry.mk name false) none w
          = (Run.ret none, w))
    ∧ (¬ ((pathExt name ≠ env.keepExt
          ∧ (HasPrefix name env.hiddenFilePrefix = true
            ∨ HasPrefix name env.underscorePrefix = true))
        ∨ name = "default.properties")
      → pathExt name = env.templateExt
      → walkFn env outputDir templateName pName sourceDir p (DirEntry.mk name false) none w
          = (Run.ret (env.applyTemplateAndCopyToTarget w.clock sourceDir p
                (filepathJoin [outputDir, pName, rel])),
              World.mk (w.clock + 1) (w.trace ++ [Event.applyTemplate sourceDir p
                (filepathJoin [outputDir, pName, rel])])))
    ∧ (¬ ((pathExt name ≠ env.keepExt
          ∧ (HasPrefix name env.hiddenFilePrefix = true
            ∨ HasPrefix name env.underscorePrefix = true))
        ∨ name = "default.properties")
      → pathExt name ≠ env.templateExt
      → walkFn env outputDir templateName pName sourceDir p (DirEntry.mk name false) none w
          = (Run.ret (env.copyToTarget w.clock p (filepathJoin [outputDir, pName, rel])
                (pathExt name != "")),
              World.mk (w.clock + 1) (w.trace ++ [Event.copyToTarget p
                (filepathJoin [outputDir, pName, rel]) (pathExt name != "")])))
    ∧ ((walkFn env outputDir templateName pName sourceDir p (DirEntry.mk name false) none w).2
          = w
        ↔ ((pathExt name ≠ env.keepExt
            ∧ (HasPrefix name env.hiddenFilePrefix = true
              ∨ HasPrefix name env.underscorePrefix = true))
          ∨ name = "default.properties")) := by
  have hskip : ((pathExt name ≠ env.keepExt
          ∧ (HasPrefix name env.hiddenFilePrefix = true
            ∨ HasPrefix name env.underscorePrefix = true))
        ∨ name = "default.properties")
      → walkFn env outputDir templateName pName sourceDir p (DirEntry.mk name false) none w
          = (Run.ret none, w) := by
    intro h
    have hb : (pathExt name != env.keepExt
        && (HasPrefix name env.hiddenFilePrefix || HasPrefix name env.underscorePrefix)
        || name == "default.properties") = true := by
      simpa using h
    simp only [walkFn, hrel, Bool.false_eq_true, if_false, hb, if_true]
    rfl
  have htemplate : ¬ ((pathExt name ≠ env.keepExt
          ∧ (HasPrefix name env.hiddenFilePrefix = true
            ∨ HasPrefix name env.underscorePrefix = true))
        ∨ name = "default.properties")
      → pathExt name = env.templateExt
      → walkFn env outputDir templateName pName sourceDir p (DirEntry.mk name false) none w
          = (Run.ret (env.applyTemplateAndCopyToTarget w.clock sourceDir p
                (filepathJoin [outputDir, pName, rel])),
              World.mk (w.clock + 1) (w.trace ++ [Event.applyTemplate sourceDir p
                (filepathJoin [outputDir, pName, rel])])) := by
    intro h ht
    have hb : (pathExt name != env.keepExt
        && (HasPrefix name env.hiddenFilePrefix || HasPrefix name env.underscorePrefix)
        || name == "default.properties") = false := by
      rw [Bool.eq_false_iff]
      intro hb
      exact h (by simpa using hb)
    simp only [walkFn, hrel, Bool.false_eq_true, if_false, hb]
    rw [if_pos ht]
    simp only [applyTemplateAndCopyToTarget, Go.bind_eq, Go.pure_eq, Go.bind_apply,
      Go.pure_apply, Go.now_apply, Go.emit_apply, Go.tick_apply]
    cases env.applyTemplateAndCopyToTarget w.clock sourceDir p
      (filepathJoin [outputDir, pName, rel]) <;> rfl
  have hcopy : ¬ ((pathExt name ≠ env.keepExt
          ∧ (HasPrefix name env.hiddenFilePrefix = true
            ∨ HasPrefix name env.underscorePrefix = true))
        ∨ name = "default.properties")
      → pathExt name ≠ env.templateExt
      → walkFn env outputDir templateName pName sourceDir p (DirEntry.mk name false) none w
          = (Run.ret (env.copyToTarget w.clock p (filepathJoin [outputDir, pName, rel])
                (pathExt name != "")),
              World.mk (w.clock + 1) (w.trace ++ [Event.copyToTarget p
                (filepathJoin [outputDir, pName, rel]) (pathExt name != "")])) := by
    intro h ht
    have hb : (pathExt name != env.keepExt
        && (HasPrefix name env.hiddenFilePrefix || HasPrefix name env.underscorePrefix)
        || name == "default.properties") = false := by
      rw [Bool.eq_false_iff]
      intro hb
      exact h (by simpa using hb)
    simp only [walkFn, hrel, Bool.false_eq_true, if_false, hb]
    rw [if_neg ht]
    simp only [copyToTarget, Go.bind_eq, Go.pure_eq, Go.bind_apply, Go.pure_apply,
      Go.now_apply, Go.emit_apply, Go.tick_apply]
    cases env.copyToTarget w.clock p (filepathJoin [outputDir, pName, rel])
      (pathExt name != "") <;> rfl
  refine ⟨hskip, htemplate, hcopy, ?_⟩
  constructor
  · intro hw
    by_contra h
    by_cases ht : pathExt name = env.templateExt
    · rw [htemplate h ht] at hw
      have := congrArg World.clock hw
      simp at this
    · rw [hcopy h ht] at hw
      have := congrArg World.clock hw
      simp at this
  · intro h
    rw [hskip h]

/-- An instance of C23: `.gitignore` and `default.properties` are skipped,
`.keep` is copied, and `main.go.template` is templated. -/
theorem C23_skipped_entries_witness :
    walkFn projectEnv "out" "simple" "proj" "/home/templates/simple"
        "/home/templates/simple/.gitignore" (DirEntry.mk ".gitignore" false) none World.init
      = (Run.ret none, World.init)
    ∧ walkFn projectEnv "out" "simple" "proj" "/home/templates/simple"
        "/home/templates/simple/default.properties" (DirEntry.mk "default.properties" false)
        none World.init
      = (Run.ret none, World.init)
    ∧ walkFn projectEnv "out" "simple" "proj" "/home/templates/simple"
        "/home/templates/simple/main.go.template" (DirEntry.mk "main.go.template" false)
        none World.init
      = (Run.ret (projectEnv.applyTemplateAndCopyToTarget World.init.clock
            "/home/templates/simple" "/home/templates/simple/main.go.template"
            (filepathJoin ["out", "proj", "/main.go.template"])),
          World.mk (World.init.clock + 1) (World.init.trace ++ [Event.applyTemplate
            "/home/templates/simple" "/home/templates/simple/main.go.template"
            (filepathJoin ["out", "proj", "/main.go.template"])]))
    ∧ walkFn projectEnv "out" "simple" "proj" "/home/templates/simple"
        "/home/templates/simple/.keep" (DirEntry.mk ".keep" false) none World.init
      = (Run.ret (projectEnv.copyToTarget World.init.clock "/home/templates/simple/.keep"
            (filepathJoin ["out", "proj", "/.keep"]) (pathExt ".keep" != "")),
          World.mk (World.init.clock + 1) (World.init.trace ++ [Event.copyToTarget
            "/home/templates/simple/.keep" (filepathJoin ["out", "proj", "/.keep"])
            (pathExt ".keep" != "")])) :=
  ⟨(C23_skipped_entries projectEnv "out" "simple" "proj" "/home/templates/simple"
      "/home/templates/simple/.gitignore" ".gitignore" "/.gitignore" World.init (by decide)).1
      (Or.inl ⟨by decide, Or.inl (by decide)⟩),
    (C23_skipped_entries projectEnv "out" "simple" "proj" "/home/templates/simple"
      "/home/templates/simple/default.properties" "default.properties" "/default.properties"
      World.init (by decide)).1 (Or.inr (by rfl)),
    (C23_skipped_entries projectEnv "out" "simple" "proj" "/home/templates/simple"
      "/home/templates/simple/main.go.template" "main.go.template" "/main.go.template"
      World.init (by decide)).2.1 (by decide) (by decide),
    (C23_skipped_entries projectEnv "out" "simple" "proj" "/home/templates/simple"
      "/home/templates/simple/.keep" ".keep" "/.keep" World.init (by decide)).2.2.1
      (by decide) (by decide)⟩

/-! ## The initial frames of the codecs -/

/-- A write that replaces the part `old` of a buffer by as many bytes. -/
theorem putBytes_replace (a old b bs : List Nat) (off : Nat) (hoff : off = a.length)
    (hlen : bs.length = old.length) :
    putBytes (a ++ old ++ b) off bs = Run.ret (a ++ bs ++ b) := by
  subst hoff
  have h1 : a.length + bs.length ≤ (a ++ old ++ b).length := by
    simp only [List.length_append, hlen]
    omega
  simp only [putBytes, if_pos h1]
  congr 1
  rw [List.append_assoc a old b, List.take_left, hlen, ← List.length_append,
    ← List.append_assoc, List.drop_left]

/-- The little-endian bytes are as many as asked for. -/
theorem length_leBytes (n v : Nat) : (leBytes n v).length = n := by
  induction n generalizing v with
  | zero => rfl
  | succ k ih => simp [leBytes, ih]

/-- Reading the little-endian bytes back gives the value below `256 ^ n`. -/
theorem leValue_leBytes (n v : Nat) : leValue (leBytes n v) = v % 256 ^ n := by
  induction n generalizing v with
  | zero => simp [leBytes, leValue, Nat.mod_one]
  | succ k ih =>
    simp only [leBytes, leValue, ih]
    rw [pow_succ, Nat.mul_comm (256 ^ k) 256, Nat.mod_mul]

/-- A write that replaces the end `old` of a buffer by as many bytes. -/
theorem putBytes_replace_end (a old bs : List Nat) (off : Nat) (hoff : off = a.length)
    (hlen : bs.length = old.length) :
    putBytes (a ++ old) off bs = Run.ret (a ++ bs) := by
  have h := putBytes_replace a old [] bs off hoff hlen
  simpa using h

/-- A write that replaces the start `old` of a buffer by as many bytes. -/
theorem putBytes_replace_start (old b bs : List Nat) (hlen : bs.length = old.length) :
    putBytes (old ++ b) 0 bs = Run.ret (bs ++ b) := by
  have h := putBytes_replace [] old b bs 0 rfl hlen
  simpa using h

/-- The message of `EncodeMultiMapLockRequest`, field by field. -/
theorem multiMapLock_frame (q : Nat) (name : String) (key : List Nat)
    (threadId ttl referenceId : Int) :
    EncodeMultiMapLockRequest (q + 4) name key threadId ttl referenceId
      = Run.ret (ClientMessage.mk
          [Frame.mk (leBytes 4 (uint32 MultiMapLockCodecRequestMessageType)
              ++ (List.replicate q 0 ++ (leBytes 4 (uint32 (-1))
              ++ (leBytes 8 (uint64 threadId) ++ (leBytes 8 (uint64 ttl)
              ++ leBytes 8 (uint64 referenceId))))))
              UnfragmentedMessage,
            Frame.mk (utf8Bytes name) DefaultFlags, Frame.mk key DefaultFlags] true) := by
  have e0 : List.replicate (q + 4 + 4 + 8 + 8 + 8) (0 : Nat)
      = (List.replicate 4 0 ++ List.replicate q 0 ++ List.replicate 4 0) ++ List.replicate 8 0
          ++ (List.replicate 8 0 ++ List.replicate 8 0) := by
    simp only [← List.replicate_add]
    congr 1
    omega
  simp only [EncodeMultiMapLockRequest, MultiMapLockCodecRequestInitialFrameSize,
    MultiMapLockCodecRequestReferenceIdOffset, MultiMapLockCodecRequestTtlOffset,
    MultiMapLockCodecRequestThreadIdOffset, IntSizeInBytes, LongSizeInBytes, EncodeLong, e0]
  rw [putBytes_replace _ (List.replicate 8 0) _ _ _ (by simp) (by simp [length_leBytes])]
  simp only [Run.bind]
  rw [← List.append_assoc,
    putBytes_replace _ (List.replicate 8 0) _ _ _ (by simp [length_leBytes])
      (by simp [length_leBytes])]
  simp only []
  rw [putBytes_replace_end _ (List.replicate 8 0) _ _ (by simp [length_leBytes])
      (by simp [length_leBytes])]
  simp only [ClientMessage.SetMessageType, ClientMessage.putStart, ClientMessage.AddFrame,
    ClientMessage.SetRetryable, NewClientMessageForEncode, List.nil_append, TypeFieldOffset,
    List.append_assoc]
  rw [putBytes_replace_start (List.replicate 4 0) _ _ (by simp [length_leBytes])]
  simp only [Run.bind, ClientMessage.SetPartitionId, ClientMessage.putStart]
  rw [← List.append_assoc (leBytes 4 _) (List.replicate q 0),
    ← List.append_assoc (leBytes 4 _ ++ List.replicate q 0) (List.replicate 4 0),
    putBytes_replace _ (List.replicate 4 0) _ _ _ (by simp [length_leBytes]; omega)
      (by simp [length_leBytes])]
  simp only [Run.bind, EncodeData, EncodeString, ClientMessage.AddFrame, List.append_assoc,
    List.cons_append, List.nil_append]

/-- The message of `EncodeTopicAddMessageListenerRequest`, field by field. -/
theorem topicAddMessageListener_frame (q : Nat) (name : String) (localOnly : Bool) :
    EncodeTopicAddMessageListenerRequest (q + 4) name localOnly
      = Run.ret (ClientMessage.mk
          [Frame.mk (leBytes 4 (uint32 TopicAddMessageListenerCodecRequestMessageType)
              ++ (List.replicate q 0 ++ (leBytes 4 (uint32 (-1))
              ++ [if localOnly then 1 else 0])))
              UnfragmentedMessage,
            Frame.mk (utf8Bytes name) DefaultFlags] false) := by
  have e0 : List.replicate (q + 4 + 4 + 1) (0 : Nat)
      = (List.replicate 4 0 ++ List.replicate q 0 ++ List.replicate 4 0) ++ List.replicate 1 0 := by
    simp only [← List.replicate_add]
    congr 1
    omega
  simp only [EncodeTopicAddMessageListenerRequest,
    TopicAddMessageListenerCodecRequestInitialFrameSize,
    TopicAddMessageListenerCodecRequestLocalOnlyOffset, IntSizeInBytes, BooleanSizeInBytes,
    EncodeBoolean, e0]
  rw [putBytes_replace_end _ (List.replicate 1 0) _ _ (by simp) (by simp)]
  simp only [Run.bind, ClientMessage.SetMessageType, ClientMessage.putStart,
    ClientMessage.AddFrame, ClientMessage.SetRetryable, NewClientMessageForEncode,
    List.nil_append, TypeFieldOffset, List.append_assoc]
  rw [putBytes_replace_start (List.replicate 4 0) _ _ (by simp [length_leBytes])]
  simp only [Run.bind, ClientMessage.SetPartitionId, ClientMessage.putStart]
  rw [← List.append_assoc (leBytes 4 _) (List.replicate q 0),
    ← List.append_assoc (leBytes 4 _ ++ List.replicate q 0) (List.replicate 4 0),
    putBytes_replace _ (List.replicate 4 0) _ _ _ (by simp [length_leBytes]; omega)
      (by simp [length_leBytes])]
  simp only [Run.bind, EncodeString, ClientMessage.AddFrame, List.append_assoc,
    List.cons_append, List.nil_append]

/-- The conversion `uint64` gives a value below `2 ^ 64`. -/
theorem uint64_lt (v : Int) : uint64 v < 2 ^ 64 := by
  have h1 := Int.emod_nonneg v (by decide : (2 : Int) ^ 64 ≠ 0)
  have h2 := Int.emod_lt_of_pos v (by decide : (0 : Int) < 2 ^ 64)
  unfold uint64
  omega

/-- C30. With `PartitionIDOffset` at 4 or beyond, the content of the initial
frame of `EncodeMultiMapLockRequest` is the message type 0x021000 in 4 bytes,
zero bytes up to `PartitionIDOffset`, the partition id -1 in 4 bytes, and then,
from `PartitionIDOffset + 4` on, `threadId`, `ttl` and `referenceId` in 8 bytes
each, one behind the other and up to the end of the frame; every such field
reads back as the value written, and the message is retryable. The content of
the initial frame of `EncodeTopicAddMessageListenerRequest` is the message
type 0x040200, zero bytes, the partition id -1, and from
`PartitionIDOffset + 4` on the one byte of `localOnly`; the message is not
retryable. -/
theorem C30_fixed_fields_fill_initial_frame (PartitionIDOffset : Nat) (name : String)
    (key : List Nat) (threadId ttl referenceId : Int) (localOnly : Bool)
    (hP : 4 ≤ PartitionIDOffset) :
    (MultiMapLockCodecRequestThreadIdOffset PartitionIDOffset = PartitionIDOffset + 4
      ∧ MultiMapLockCodecRequestTtlOffset PartitionIDOffset
          = MultiMapLockCodecRequestThreadIdOffset PartitionIDOffset + 8
      ∧ MultiMapLockCodecRequestReferenceIdOffset PartitionIDOffset
          = MultiMapLockCodecRequestTtlOffset PartitionIDOffset + 8
      ∧ MultiMapLockCodecRequestInitialFrameSize PartitionIDOffset
          = MultiMapLockCodecRequestReferenceIdOffset PartitionIDOffset + 8)
    ∧ EncodeMultiMapLockRequest PartitionIDOffset name key threadId ttl referenceId
      = Run.ret (ClientMessage.mk
          [Frame.mk (leBytes 4 (uint32 MultiMapLockCodecRequestMessageType)
              ++ (List.replicate (PartitionIDOffset - 4) 0 ++ (leBytes 4 (uint32 (-1))
              ++ (leBytes 8 (uint64 threadId) ++ (leBytes 8 (uint64 ttl)
              ++ leBytes 8 (uint64 referenceId))))))
              UnfragmentedMessage,
            Frame.mk (utf8Bytes name) DefaultFlags, Frame.mk key DefaultFlags] true)
    ∧ (leBytes 4 (uint32 MultiMapLockCodecRequestMessageType)
          ++ (List.replicate (PartitionIDOffset - 4) 0 ++ leBytes 4 (uint32 (-1)))).length
        = MultiMapLockCodecRequestThreadIdOffset PartitionIDOffset
    ∧ (leBytes 4 (uint32 MultiMapLockCodecRequestMessageType)
          ++ (List.replicate (PartitionIDOffset - 4) 0 ++ (leBytes 4 (uint32 (-1))
          ++ (leBytes 8 (uint64 threadId) ++ (leBytes 8 (uint64 ttl)
          ++ leBytes 8 (uint64 referenceId)))))).length
        = MultiMapLockCodecRequestInitialFrameSize PartitionIDOffset
    ∧ (∀ v : Int, (leBytes 8 (uint64 v)).length = 8
        ∧ leValue (leBytes 8 (uint64 v)) = uint64 v)
    ∧ leBytes 4 (uint32 MultiMapLockCodecRequestMessageType) = [0x00, 0x10, 0x02, 0x00]
    ∧ leBytes 4 (uint32 TopicAddMessageListenerCodecRequestMessageType)
        = [0x00, 0x02, 0x04, 0x00]
    ∧ leBytes 4 (uint32 (-1)) = [0xFF, 0xFF, 0xFF, 0xFF]
    ∧ (TopicAddMessageListenerCodecRequestLocalOnlyOffset PartitionIDOffset
          = PartitionIDOffset + 4
      ∧ TopicAddMessageListenerCodecRequestInitialFrameSize PartitionIDOffset
          = TopicAddMessageListenerCodecRequestLocalOnlyOffset PartitionIDOffset + 1)
    ∧ EncodeTopicAddMessageListenerRequest PartitionIDOffset name localOnly
      = Run.ret (ClientMessage.mk
          [Frame.mk (leBytes 4 (uint32 TopicAddMessageListenerCodecRequestMessageType)
              ++ (List.replicate (PartitionIDOffset - 4) 0 ++ (leBytes 4 (uint32 (-1))
              ++ [if localOnly then 1 else 0])))
              UnfragmentedMessage,
            Frame.mk (utf8Bytes name) DefaultFlags] false)
    ∧ (leBytes 4 (uint32 TopicAddMessageListenerCodecRequestMessageType)
          ++ (List.replicate (PartitionIDOffset - 4) 0 ++ leBytes 4 (uint32 (-1)))).length
        = TopicAddMessageListenerCodecRequestLocalOnlyOffset PartitionIDOffset := by
  obtain ⟨q, rfl⟩ : ∃ q, PartitionIDOffset = q + 4 := ⟨PartitionIDOffset - 4, by omega⟩
  have hq : q + 4 - 4 = q := by omega
  rw [hq]
  refine ⟨⟨rfl, rfl, rfl, rfl⟩, multiMapLock_frame q name key threadId ttl referenceId, ?_, ?_,
    ?_, by decide, by decide, by decide, ⟨rfl, rfl⟩,
    topicAddMessageListener_frame q name localOnly, ?_⟩
  · simp only [List.length_append, length_leBytes, List.length_replicate,
      MultiMapLockCodecRequestThreadIdOffset, IntSizeInBytes]
    omega
  · simp only [List.length_append, length_leBytes, List.length_replicate,
      MultiMapLockCodecRequestInitialFrameSize, MultiMapLockCodecRequestReferenceIdOffset,
      MultiMapLockCodecRequestTtlOffset, MultiMapLockCodecRequestThreadIdOffset,
      IntSizeInBytes, LongSizeInBytes]
    omega
  · intro v
    refine ⟨length_leBytes 8 _, ?_⟩
    rw [leValue_leBytes]
    exact Nat.mod_eq_of_lt (uint64_lt v)
  · simp only [List.length_append, length_leBytes, List.length_replicate,
      TopicAddMessageListenerCodecRequestLocalOnlyOffset, IntSizeInBytes]
    omega

/-- An instance of C30: `PartitionIDOffset` 12, the thread 5, the lease time
-1 and the reference 258. -/
theorem C30_fixed_fields_fill_initial_frame_witness :
    EncodeMultiMapLockRequest 12 "mm" [1, 2, 3] 5 (-1) 258
      = Run.ret (ClientMessage.mk
          [Frame.mk [0x00, 0x10, 0x02, 0x00, 0, 0, 0, 0, 0, 0, 0, 0, 0xFF, 0xFF, 0xFF, 0xFF,
              5, 0, 0, 0, 0, 0, 0, 0,
              0xFF, 0xFF, 0xFF, 0xFF, 0xFF, 0xFF, 0xFF, 0xFF,
              2, 1, 0, 0, 0, 0, 0, 0] UnfragmentedMessage,
            Frame.mk [109, 109] DefaultFlags, Frame.mk [1, 2, 3] DefaultFlags] true)
    ∧ EncodeTopicAddMessageListenerRequest 12 "mm" true
      = Run.ret (ClientMessage.mk
          [Frame.mk [0x00, 0x02, 0x04, 0x00, 0, 0, 0, 0, 0, 0, 0, 0, 0xFF, 0xFF, 0xFF, 0xFF, 1]
              UnfragmentedMessage,
            Frame.mk [109, 109] DefaultFlags] false) :=
  ⟨(C30_fixed_fields_fill_initial_frame 12 "mm" [1, 2, 3] 5 (-1) 258 true (by decide)).2.1,
    (C30_fixed_fields_fill_initial_frame 12 "mm" [1, 2, 3] 5 (-1) 258 true
      (by decide)).2.2.2.2.2.2.2.2.2.1⟩

end Clc
